import Mathlib

/-!
# go_srs: FLV classifier, FLV muxer and statistic registry

A shallow embedding of

* `srs/codec/flv/srs_flv_codec.go` (payload classifiers, FLV header, tag header, encoder),
* `srs/protocol/utils/utils.go` (fixed-width integer to bytes),
* `srs/codec/srs_codec_define.go` (the codec constants the classifiers compare with),
* `srs/app/srs_app_statistic.go` (the vhost/stream registry),
* `srs/protocol/amf0/srs_amf0_string.go` (the AMF0 String value),

followed by the properties proved about them.

Conventions.  A Go `byte` is a `Nat` below 256, a `[]byte` is a `List Nat`; where a
statement depends on the byte range the hypothesis is spelled out.  Fixed-width
integers are `Nat`/`Int` with explicit wrap-around (`toInt32`, `toUInt32`,
`wrapInt`, `% 2 ^ 64`); Go `int` is taken to be 64 bits wide.  A Go `error` is
`Option String` with `none` for `nil`.  Pointers into the registry are
addresses into explicit object stores, so that the two maps of a pair really
share one object.
-/

namespace GoSrs

/-! ## Go primitives -/

/-- Go `error`: `none` is `nil`, `some msg` an error value. -/
abbrev GoError := Option String

/-- Conversion `int32(n)`: two's complement wrap-around into `[-2^31, 2^31)`. -/
def toInt32 (n : Int) : Int :=
  let m := n % 2 ^ 32
  if m < 2 ^ 31 then m else m - 2 ^ 32

/-- Conversion `uint32(n)`: wrap-around into `[0, 2^32)`. -/
def toUInt32 (n : Int) : Nat :=
  (n % 2 ^ 32).toNat

/-- Go `int` arithmetic result (64 bits): wrap-around into `[-2^63, 2^63)`. -/
def wrapInt (n : Int) : Int :=
  let m := n % 2 ^ 64
  if m < 2 ^ 63 then m else m - 2 ^ 64

/-- The two byte orders of `encoding/binary`. -/
inductive ByteOrder where
  | BigEndian
  | LittleEndian
  deriving DecidableEq, Repr

/-- The method `ByteOrder.PutUint32`: the four bytes of a 32-bit word. -/
def ByteOrder.PutUint32 (order : ByteOrder) (v : Nat) : List Nat :=
  match order with
  | .BigEndian => [(v >>> 24) % 256, (v >>> 16) % 256, (v >>> 8) % 256, v % 256]
  | .LittleEndian => [v % 256, (v >>> 8) % 256, (v >>> 16) % 256, (v >>> 24) % 256]

/-- The slice expression `s[lo:hi]`. -/
def slice (s : List Nat) (lo hi : Nat) : List Nat :=
  (s.take hi).drop lo

/-! ## `srs/protocol/utils/utils.go` -/

/-- `utils.UInt32ToBytes`: `binary.Write` of a `uint32` never fails and yields
`order.PutUint32`. -/
def UInt32ToBytes (data : Nat) (order : ByteOrder) : List Nat :=
  order.PutUint32 data

/-- `utils.Int32ToBytes`: `binary.Write` of an `int32` writes `uint32(data)`. -/
def Int32ToBytes (data : Int) (order : ByteOrder) : List Nat :=
  order.PutUint32 (toUInt32 data)

/-! ## `srs/codec/srs_codec_define.go` (the constants used here) -/

abbrev SrsCodecVideoAVCFrameKeyFrame : Nat := 1
abbrev SrsCodecVideoAVC : Nat := 7
abbrev SrsCodecAudioAAC : Nat := 10
abbrev SrsCodecVideoAVCTypeSequenceHeader : Nat := 0
abbrev SrsCodecAudioTypeSequenceHeader : Nat := 0

/-! ## `srs/codec/flv/srs_flv_codec.go`: classifiers -/

/-- `VideoIsKeyFrame`. -/
def VideoIsKeyFrame (data : List Nat) : Bool :=
  if h : data.length < 1 then
    false
  else
    let frameType := (data[0] >>> 4) &&& 0x0F
    frameType == SrsCodecVideoAVCFrameKeyFrame

/-- `VideoIsH264`. -/
def VideoIsH264 (data : List Nat) : Bool :=
  if h : data.length < 1 then
    false
  else
    let codecId := data[0] &&& 0x0F
    codecId == SrsCodecVideoAVC

/-- `AudioIsAAC`. -/
def AudioIsAAC (data : List Nat) : Bool :=
  if h : data.length < 1 then
    false
  else
    let soundFormat := (data[0] >>> 4) &&& 0x0F
    soundFormat == SrsCodecAudioAAC

/-- `VideoIsSequenceHeader`. -/
def VideoIsSequenceHeader (data : List Nat) : Bool :=
  if !VideoIsH264 data then
    false
  else if h : data.length < 2 then
    false
  else
    let formatType := (data[0] >>> 4) &&& 0x0F
    let avcPacketType := data[1]
    formatType == SrsCodecVideoAVCFrameKeyFrame &&
      avcPacketType == SrsCodecVideoAVCTypeSequenceHeader

/-- `AudioIsSequenceHeader`. -/
def AudioIsSequenceHeader (data : List Nat) : Bool :=
  if !AudioIsAAC data then
    false
  else if h : data.length < 2 then
    false
  else
    let aacPacketType := data[1]
    aacPacketType == SrsCodecAudioTypeSequenceHeader

/-- `VideoIsAcceptable`. -/
def VideoIsAcceptable (data : List Nat) : Bool :=
  if h : data.length < 1 then
    false
  else
    let formatType := data[0]
    let codecId := formatType &&& 0x0F
    let formatType := (formatType >>> 4) &&& 0x0F
    if formatType < 1 || formatType > 5 then
      false
    else if codecId < 2 || codecId > 7 then
      false
    else
      true

/-! ## `srs/codec/flv/srs_flv_codec.go`: container -/

abbrev AudioTagType : Nat := 0x08
abbrev VideoTagType : Nat := 0x09
abbrev MetaDataTagType : Nat := 0x18

abbrev SRS_FLV_TAG_HEADER_SIZE : Nat := 11
abbrev SRS_FLV_PREVIOUS_TAG_SIZE : Nat := 4

/-- The struct `SrsFlvHeader`. -/
structure SrsFlvHeader where
  signature : List Nat
  version : Nat
  flags : Nat
  headerSize : List Nat
  deriving DecidableEq, Repr

/-- `NewSrsFlvHeader`; the signature is the ASCII of `F`, `L`, `V`. -/
def NewSrsFlvHeader (hasAudio : Bool) (hasVideo : Bool) : SrsFlvHeader :=
  let f : Nat := 0
  let f := if hasAudio then f ||| (1 <<< 0) else f
  let f := if hasVideo then f ||| (1 <<< 2) else f
  let h := Int32ToBytes 0x09 ByteOrder.BigEndian
  { signature := ['F'.toNat, 'L'.toNat, 'V'.toNat]
    version := 0x01
    flags := f
    headerSize := h }

/-- `SrsFlvHeader.Data`. -/
def SrsFlvHeader.Data (this : SrsFlvHeader) : List Nat :=
  let data : List Nat := []
  let data := data ++ this.signature
  let data := data ++ [this.version]
  let data := data ++ [this.flags]
  let data := data ++ this.headerSize
  data

/-- The struct `TagHeader`. -/
structure TagHeader where
  tagType : Nat
  dataSize : List Nat
  timestamp : List Nat
  reserved : List Nat
  deriving DecidableEq, Repr

/-- `NewTagHeader(typ byte, timestamp uint32, dataSize int32)`. -/
def NewTagHeader (typ : Nat) (timestamp : Nat) (dataSize : Int) : TagHeader :=
  let s := Int32ToBytes dataSize ByteOrder.BigEndian
  let t := UInt32ToBytes timestamp ByteOrder.BigEndian
  { tagType := typ
    dataSize := slice s 1 4
    timestamp := t
    reserved := [0, 0, 0] }

/-- `TagHeader.Data`. -/
def TagHeader.Data (this : TagHeader) : List Nat :=
  let data : List Nat := []
  let data := data ++ [this.tagType]
  let data := data ++ this.dataSize
  let data := data ++ this.timestamp
  let data := data ++ this.reserved
  data

/-- The sink behind `*os.File`.  `contents` are the bytes that reached the
sink, `writes` the buffers handed to `Write` so far (one per call), and
`outcome i` decides the `i`-th call: `none` accepts the whole buffer,
`some (n, e)` takes only the first `n` bytes and reports the error `e`. -/
structure File where
  contents : List Nat
  writes : List (List Nat)
  outcome : Nat → Option (Nat × String)

/-- `os.File.Write`: the number of bytes taken and the error, and the sink
afterwards. -/
def File.Write (f : File) (b : List Nat) : (Nat × GoError) × File :=
  match f.outcome f.writes.length with
  | none =>
    ((b.length, none),
      { f with contents := f.contents ++ b, writes := f.writes ++ [b] })
  | some (n, e) =>
    ((min n b.length, some e),
      { f with contents := f.contents ++ b.take n, writes := f.writes ++ [b] })

/-- The struct `SrsFlvEncoder`; the file it points to is carried along. -/
structure SrsFlvEncoder where
  header : SrsFlvHeader
  file : File

/-- `NewSrsFlvEncoder`. -/
def NewSrsFlvEncoder (f : File) : SrsFlvEncoder :=
  { file := f
    header := NewSrsFlvHeader true true }

/-- `SrsFlvEncoder.WriteHeader`: the returned error and the encoder afterwards. -/
def SrsFlvEncoder.WriteHeader (this : SrsFlvEncoder) : GoError × SrsFlvEncoder :=
  match this.file.Write this.header.Data with
  | ((_, some err), file1) => (some err, { this with file := file1 })
  | ((_, none), file1) =>
    let pts : List Nat := [0x00, 0x00, 0x00, 0x00]
    match file1.Write pts with
    | ((_, some err), file2) => (some err, { this with file := file2 })
    | ((_, none), file2) => (none, { this with file := file2 })

/-- `SrsFlvEncoder.writeTag`: returns `uint32(len(d))` and the error of the
single `Write`. -/
def SrsFlvEncoder.writeTag (this : SrsFlvEncoder) (header : TagHeader) (data : List Nat) :
    (Nat × GoError) × SrsFlvEncoder :=
  let d := header.Data
  let d := d ++ data
  let prevTagSize := toInt32 d.length
  let p := Int32ToBytes prevTagSize ByteOrder.BigEndian
  let d := d ++ p
  match this.file.Write d with
  | ((_, err), file1) => ((toUInt32 d.length, err), { this with file := file1 })

/-- `SrsFlvEncoder.WriteMetaData` (its `fmt.Println` goes to standard output,
not to the sink). -/
def SrsFlvEncoder.WriteMetaData (this : SrsFlvEncoder) (data : List Nat) :
    (Nat × GoError) × SrsFlvEncoder :=
  let header := NewTagHeader MetaDataTagType 0 (toInt32 data.length)
  this.writeTag header data

/-- `SrsFlvEncoder.WriteAudio`. -/
def SrsFlvEncoder.WriteAudio (this : SrsFlvEncoder) (timestamp : Nat) (data : List Nat) :
    (Nat × GoError) × SrsFlvEncoder :=
  let header := NewTagHeader AudioTagType timestamp (toInt32 data.length)
  this.writeTag header data

/-- `SrsFlvEncoder.WriteVideo`. -/
def SrsFlvEncoder.WriteVideo (this : SrsFlvEncoder) (timestamp : Nat) (data : List Nat) :
    (Nat × GoError) × SrsFlvEncoder :=
  let header := NewTagHeader VideoTagType timestamp (toInt32 data.length)
  this.writeTag header data

/-! ## `srs/app/srs_app_statistic.go` -/

/-- A Go `map[κ]ν` as its list of entries, at most one per key when built by
`GoMap.set` from the empty map. -/
structure GoMap (κ : Type) (ν : Type) where
  entries : List (κ × ν)
  deriving DecidableEq, Repr

/-- The entry list after the assignment `m[k] = v`. -/
def assignEntry {κ ν : Type} [DecidableEq κ] : List (κ × ν) → κ → ν → List (κ × ν)
  | [], k, v => [(k, v)]
  | (k1, v1) :: rest, k, v =>
    if k1 = k then (k, v) :: rest else (k1, v1) :: assignEntry rest k v

/-- The value found under `k` in an entry list. -/
def lookupEntry {κ ν : Type} [DecidableEq κ] : List (κ × ν) → κ → Option ν
  | [], _ => none
  | (k1, v1) :: rest, k => if k1 = k then some v1 else lookupEntry rest k

/-- The expression `make(map[κ]ν, 0)`. -/
def GoMap.make {κ ν : Type} : GoMap κ ν := ⟨[]⟩

/-- The lookup `v, ok := m[k]`: `none` when `ok` is false. -/
def GoMap.get {κ ν : Type} [DecidableEq κ] (m : GoMap κ ν) (k : κ) : Option ν :=
  lookupEntry m.entries k

/-- The assignment `m[k] = v`. -/
def GoMap.set {κ ν : Type} [DecidableEq κ] (m : GoMap κ ν) (k : κ) (v : ν) : GoMap κ ν :=
  ⟨assignEntry m.entries k v⟩

/-- The number of entries, `len(m)`. -/
def GoMap.len {κ ν : Type} (m : GoMap κ ν) : Nat := m.entries.length

/-- The struct `SrsStatisticVhost`. -/
structure SrsStatisticVhost where
  id : Int
  vhost : String
  nb_streams : Int
  nb_clients : Int
  deriving DecidableEq, Repr

/-- The struct `SrsStatisticStreamVideo`; the codec enumerations are Go `int`s. -/
structure SrsStatisticStreamVideo where
  vcodec : Int
  avc_profile : Int
  avc_level : Int
  deriving DecidableEq, Repr

/-- `NewSrsStatisticStreamVideo`. -/
def NewSrsStatisticStreamVideo (vcodec avc_profile avc_level : Int) : SrsStatisticStreamVideo :=
  { vcodec := vcodec
    avc_profile := avc_profile
    avc_level := avc_level }

/-- The struct `SrsStatisticStreamAudio`. -/
structure SrsStatisticStreamAudio where
  acodec : Int
  asample_rate : Int
  asound_type : Int
  aac_object : Int
  deriving DecidableEq, Repr

/-- `NewSrsStatisticStreamAudio`. -/
def NewSrsStatisticStreamAudio (acodec asample_rate asound_type aac_object : Int) :
    SrsStatisticStreamAudio :=
  { acodec := acodec
    asample_rate := asample_rate
    asound_type := asound_type
    aac_object := aac_object }

/-- The struct `SrsStatisticStream`.  `vhost` points into the vhost store;
the two descriptors are owned by the stream alone and are kept by value. -/
structure SrsStatisticStream where
  id : Int
  vhost : Option Nat
  app : String
  stream : String
  url : String
  active : Bool
  connection_cid : Int
  nb_clients : Int
  nb_frames : Nat
  video : Option SrsStatisticStreamVideo
  audio : Option SrsStatisticStreamAudio
  deriving DecidableEq, Repr

/-- The struct `SrsStatisticClient`. -/
structure SrsStatisticClient where
  stream : Option Nat
  id : Int
  create : Int
  deriving DecidableEq, Repr

/-- The struct `SrsStatistic`: the five maps, holding pointers. -/
structure SrsStatistic where
  vhosts : GoMap Int Nat
  rvhosts : GoMap String Nat
  streams : GoMap Int Nat
  rstreams : GoMap String Nat
  clients : GoMap Int Nat
  deriving DecidableEq, Repr

/-- Modelled from the spec: the type `SrsRequest` and its method
`GetStreamUrl` are not among the sources.  A request carries the vhost name,
the app name, the stream name and its derived canonical stream url. -/
structure SrsRequest where
  vhost : String
  app : String
  stream : String
  streamUrl : String
  deriving DecidableEq, Repr

/-- Modelled from the spec: `SrsRequest.GetStreamUrl`, the canonical stream
url derived for the request. -/
def SrsRequest.GetStreamUrl (req : SrsRequest) : String := req.streamUrl

/-- The process state the registry lives in: the three object stores the
pointers refer to (a pointer is the position of its object in the store, a
pointer that may be `nil` an `Option Nat`), the registry singleton, and the process-wide id source
(`idSeq` is the sequence of ids it hands out, `idPos` how many it has
handed out). -/
structure World where
  vhostObjs : List SrsStatisticVhost
  streamObjs : List SrsStatisticStream
  clientObjs : List SrsStatisticClient
  statistic : SrsStatistic
  idSeq : Nat → Int
  idPos : Nat

/-- Modelled from the spec: `utils.SrsGenerateId` is not among the sources.
It is the one process-wide id source; each call hands out the next id of the
sequence. -/
def SrsGenerateId (w : World) : Int × World :=
  (w.idSeq w.idPos, { w with idPos := w.idPos + 1 })

/-- `NewSrsStatisticVhost`: the new object (not yet stored) and the world with
the id source advanced. -/
def NewSrsStatisticVhost (w : World) : SrsStatisticVhost × World :=
  let (id, w) := SrsGenerateId w
  ({ id := id, vhost := "", nb_streams := 0, nb_clients := 0 }, w)

/-- `NewSrsStatisticStream`: the new object (not yet stored) and the world
with the id source advanced. -/
def NewSrsStatisticStream (w : World) : SrsStatisticStream × World :=
  let (id, w) := SrsGenerateId w
  ({ id := id
     vhost := none
     app := ""
     stream := ""
     url := ""
     active := false
     connection_cid := -1
     nb_clients := 0
     nb_frames := 0
     video := none
     audio := none }, w)

/-- `SrsStatisticStream.Publish`; `none` is the run-time panic of a `nil`
(or, in this embedding, dangling) pointer dereference. -/
def SrsStatisticStream.Publish (w : World) (this : Nat) (cid : Int) : Option World :=
  match w.streamObjs[this]? with
  | none => none
  | some s =>
    let s := { s with connection_cid := cid }
    let s := { s with active := true }
    let w := { w with streamObjs := w.streamObjs.set this s }
    match s.vhost with
    | none => none
    | some vp =>
      match w.vhostObjs[vp]? with
      | none => none
      | some v =>
        some { w with
          vhostObjs := w.vhostObjs.set vp { v with nb_streams := wrapInt (v.nb_streams + 1) } }

/-- `SrsStatisticStream.Close`; `none` as for `Publish`. -/
def SrsStatisticStream.Close (w : World) (this : Nat) : Option World :=
  match w.streamObjs[this]? with
  | none => none
  | some s =>
    let s := { s with video := none }
    let s := { s with audio := none }
    let w := { w with streamObjs := w.streamObjs.set this s }
    match s.vhost with
    | none => none
    | some vp =>
      match w.vhostObjs[vp]? with
      | none => none
      | some v =>
        some { w with
          vhostObjs := w.vhostObjs.set vp { v with nb_streams := wrapInt (v.nb_streams - 1) } }

/-- `SrsStatistic.createVHost`: the pointer returned and the world afterwards. -/
def SrsStatistic.createVHost (w : World) (req : SrsRequest) : Nat × World :=
  match w.statistic.rvhosts.get req.vhost with
  | none =>
    let (v, w) := NewSrsStatisticVhost w
    let v := { v with vhost := req.vhost }
    let p : Nat := w.vhostObjs.length
    let w := { w with vhostObjs := w.vhostObjs ++ [v] }
    let w := { w with statistic :=
      { w.statistic with rvhosts := w.statistic.rvhosts.set req.vhost p } }
    let w := { w with statistic :=
      { w.statistic with vhosts := w.statistic.vhosts.set v.id p } }
    (p, w)
  | some v => (v, w)

/-- `SrsStatistic.createStream`: the pointer returned and the world afterwards. -/
def SrsStatistic.createStream (w : World) (vhost : Nat) (req : SrsRequest) : Nat × World :=
  let url := req.GetStreamUrl
  match w.statistic.rstreams.get url with
  | none =>
    let (s, w) := NewSrsStatisticStream w
    let s := { s with vhost := some vhost }
    let s := { s with app := req.app }
    let s := { s with stream := req.stream }
    let s := { s with url := url }
    let p : Nat := w.streamObjs.length
    let w := { w with streamObjs := w.streamObjs ++ [s] }
    let w := { w with statistic :=
      { w.statistic with rstreams := w.statistic.rstreams.set url p } }
    let w := { w with statistic :=
      { w.statistic with streams := w.statistic.streams.set s.id p } }
    (p, w)
  | some s => (s, w)

/-- `SrsStatistic.OnVideoInfo`: the returned error and the world afterwards;
`none` is a run-time panic. -/
def SrsStatistic.OnVideoInfo (w : World) (req : SrsRequest)
    (vcodec avc_profile avc_level : Int) : Option (GoError × World) :=
  let (vhost, w) := SrsStatistic.createVHost w req
  let (stream, w) := SrsStatistic.createStream w vhost req
  match w.streamObjs[stream]? with
  | none => none
  | some s =>
    let s := { s with video := some (NewSrsStatisticStreamVideo vcodec avc_profile avc_level) }
    some (none, { w with streamObjs := w.streamObjs.set stream s })

/-- `SrsStatistic.OnAudioInfo`. -/
def SrsStatistic.OnAudioInfo (w : World) (req : SrsRequest)
    (acodec asample_rate asound_type aac_object : Int) : Option (GoError × World) :=
  let (vhost, w) := SrsStatistic.createVHost w req
  let (stream, w) := SrsStatistic.createStream w vhost req
  match w.streamObjs[stream]? with
  | none => none
  | some s =>
    let a := NewSrsStatisticStreamAudio acodec asample_rate asound_type aac_object
    let s := { s with audio := some a }
    some (none, { w with streamObjs := w.streamObjs.set stream s })

/-- `SrsStatistic.OnVideoFrames` (the `log.Info` line leaves the registry
alone); `nb_frames` is a `uint64`. -/
def SrsStatistic.OnVideoFrames (w : World) (req : SrsRequest) (nb_frames : Nat) :
    Option (GoError × World) :=
  let (vhost, w) := SrsStatistic.createVHost w req
  let (stream, w) := SrsStatistic.createStream w vhost req
  match w.streamObjs[stream]? with
  | none => none
  | some s =>
    let s := { s with nb_frames := (s.nb_frames + nb_frames) % 2 ^ 64 }
    some (none, { w with streamObjs := w.streamObjs.set stream s })

/-- `SrsStatistic.OnStreamPublish`. -/
def SrsStatistic.OnStreamPublish (w : World) (req : SrsRequest) (cid : Int) :
    Option (GoError × World) :=
  let (vhost, w) := SrsStatistic.createVHost w req
  let (stream, w) := SrsStatistic.createStream w vhost req
  match SrsStatisticStream.Publish w stream cid with
  | none => none
  | some w => some (none, w)

/-- `SrsStatistic.OnStreamClose`; the connection id is not used. -/
def SrsStatistic.OnStreamClose (w : World) (req : SrsRequest) (_cid : Int) :
    Option (GoError × World) :=
  let (vhost, w) := SrsStatistic.createVHost w req
  let (stream, w) := SrsStatistic.createStream w vhost req
  match SrsStatisticStream.Close w stream with
  | none => none
  | some w => some (none, w)

/-- `SrsStatistic.FindVHost`: `none` is the `nil` result. -/
def SrsStatistic.FindVHost (w : World) (vid : Int) : Option Nat :=
  match w.statistic.vhosts.get vid with
  | none => none
  | some v => some v

/-- `SrsStatistic.FindStream`. -/
def SrsStatistic.FindStream (w : World) (sid : Int) : Option Nat :=
  match w.statistic.streams.get sid with
  | none => none
  | some s => some s

/-- `SrsStatistic.FindClient`. -/
def SrsStatistic.FindClient (w : World) (cid : Int) : Option Nat :=
  match w.statistic.clients.get cid with
  | none => none
  | some c => some c

/-- The registry made by `GetStatisticInstance` on first use: five empty maps. -/
def GetStatisticInstance : SrsStatistic :=
  { vhosts := GoMap.make
    rvhosts := GoMap.make
    streams := GoMap.make
    rstreams := GoMap.make
    clients := GoMap.make }

/-- The process state right after the first `GetStatisticInstance`, with the
id source `ids` not yet used. -/
def World.fresh (ids : Nat → Int) : World :=
  { vhostObjs := []
    streamObjs := []
    clientObjs := []
    statistic := GetStatisticInstance
    idSeq := ids
    idPos := 0 }

/-! ## Vocabulary of the statements -/

/-- Big-endian encoding of `n` on `width` bytes (the low `width` bytes of `n`). -/
def bigEndian : Nat → Nat → List Nat
  | 0, _ => []
  | width + 1, n => bigEndian width (n / 256) ++ [n % 256]

/-- Reading a byte string as a big-endian integer. -/
def fromBigEndian (bs : List Nat) : Nat :=
  bs.foldl (fun acc b => acc * 256 + b) 0

/-- A byte slice: every element is a byte. -/
def IsBytes (data : List Nat) : Prop := ∀ b ∈ data, b < 256

instance (data : List Nat) : Decidable (IsBytes data) := by
  unfold IsBytes
  infer_instance

/-- The high nibble of a byte. -/
def highNibble (b : Nat) : Nat := b / 16

/-- The low nibble of a byte. -/
def lowNibble (b : Nat) : Nat := b % 16

/-- The bytes of one FLV tag as the format lays them out: type byte, 3-byte
length, 4-byte timestamp, 3 reserved bytes, payload, 4-byte back-pointer. -/
def flvTagBytes (typ : Nat) (timestamp : Nat) (payload : List Nat) : List Nat :=
  [typ] ++ bigEndian 3 payload.length ++ bigEndian 4 timestamp ++ [0, 0, 0] ++ payload ++
    bigEndian 4 (11 + payload.length)

/-- The kind of a tag to be written. -/
inductive TagKind where
  | audio
  | video
  | metadata
  deriving DecidableEq, Repr

/-- A tag to be written: kind, timestamp, payload. -/
structure Tag where
  kind : TagKind
  timestamp : Nat
  payload : List Nat
  deriving DecidableEq, Repr

/-- The single-tag writer matching the kind of the tag; the encoder afterwards. -/
def writeTagOf (enc : SrsFlvEncoder) (t : Tag) : SrsFlvEncoder :=
  match t.kind with
  | .audio => (enc.WriteAudio t.timestamp t.payload).2
  | .video => (enc.WriteVideo t.timestamp t.payload).2
  | .metadata => (enc.WriteMetaData t.payload).2

/-- `WriteHeader` followed by the matching single-tag writer for each tag, in
order; the encoder afterwards. -/
def writeFile (enc : SrsFlvEncoder) (tags : List Tag) : SrsFlvEncoder :=
  tags.foldl writeTagOf enc.WriteHeader.2

/-- The bytes of a tag as the format lays them out; a metadata tag carries
timestamp 0. -/
def Tag.bytes (t : Tag) : List Nat :=
  match t.kind with
  | .audio => flvTagBytes 0x08 t.timestamp t.payload
  | .video => flvTagBytes 0x09 t.timestamp t.payload
  | .metadata => flvTagBytes 0x18 0 t.payload

/-- The 11-byte tag header of a tag: its bytes up to the payload. -/
def Tag.headerBytes (t : Tag) : List Nat :=
  t.bytes.take 11

/-- The tags one after the other, each with its trailing back-pointer. -/
def tagsLayout : List Tag → List Nat
  | [] => []
  | t :: rest => t.bytes ++ tagsLayout rest

/-- The same bytes read as a backward-linked chain: a back-pointer holding
`prev`, then for each tag its header and payload followed by the rest of the
chain, whose first back-pointer holds the encoded length of that tag. -/
def backPointerChain : Nat → List Tag → List Nat
  | prev, [] => bigEndian 4 prev
  | prev, t :: rest =>
    bigEndian 4 prev ++ t.headerBytes ++ t.payload ++
      backPointerChain (t.headerBytes ++ t.payload).length rest

/-- Resolve-or-create as every mutator of the registry starts: `createVHost`
followed by `createStream` with the vhost it returned. -/
def resolve (w : World) (req : SrsRequest) : Nat × World :=
  SrsStatistic.createStream (SrsStatistic.createVHost w req).2
    (SrsStatistic.createVHost w req).1 req

/-- The stream registered under a url, if any. -/
def World.streamAt (w : World) (url : String) : Option SrsStatisticStream :=
  match w.statistic.rstreams.get url with
  | none => none
  | some p => w.streamObjs[p]?

/-- The `nb_streams` counter of the vhost object at `vp`; 0 when no such
object exists yet (the value a vhost is created with). -/
def World.nbStreams (w : World) (vp : Nat) : Int :=
  match w.vhostObjs[vp]? with
  | none => 0
  | some v => v.nb_streams

/-- Well-formed process states: every vhost pointer held by the by-name map
refers to an object, every stream pointer held by the by-name map refers to a
stream whose vhost pointer is not `nil` and refers to an object, and every
`nb_streams` is a 64-bit `int`. -/
structure World.WF (w : World) : Prop where
  vhostPtr : ∀ k p, w.statistic.rvhosts.get k = some p → p < w.vhostObjs.length
  streamPtr : ∀ k p, w.statistic.rstreams.get k = some p →
    ∃ s vp, w.streamObjs[p]? = some s ∧ s.vhost = some vp ∧ vp < w.vhostObjs.length
  intRange : ∀ v ∈ w.vhostObjs, -2 ^ 63 ≤ v.nb_streams ∧ v.nb_streams < 2 ^ 63

/-- The request's vhost name and stream url are registered, the stream is
the object at `sp` and its vhost the object at `vp`. -/
structure Registered (w : World) (req : SrsRequest) (sp vp : Nat) : Prop where
  vhostKnown : ∃ vh, w.statistic.rvhosts.get req.vhost = some vh
  streamKnown : w.statistic.rstreams.get req.GetStreamUrl = some sp
  streamObj : ∃ s, w.streamObjs[sp]? = some s ∧ s.vhost = some vp
  vhostObj : vp < w.vhostObjs.length

/-- The statement "after `OnStreamPublish(req, cid)` the stream under the
request's url exists, is active, records `cid`, the call returns no error, and
`nb_streams` of its owning vhost is exactly one more than before". -/
def PublishAddsOne (w : World) (req : SrsRequest) (cid : Int) : Prop :=
  ∃ w1 s vp, SrsStatistic.OnStreamPublish w req cid = some (none, w1) ∧
    w1.streamAt req.GetStreamUrl = some s ∧ s.active = true ∧ s.connection_cid = cid ∧
    s.vhost = some vp ∧ w1.nbStreams vp = w.nbStreams vp + 1

/-- A registry holding one vhost whose `nb_streams` is the largest `int`,
and one stream of that vhost. -/
def saturatedWorld : World :=
  { vhostObjs := [{ id := 1, vhost := "live", nb_streams := 2 ^ 63 - 1, nb_clients := 0 }]
    streamObjs := [{ id := 2, vhost := some 0, app := "app", stream := "s1",
                     url := "live/app/s1", active := false, connection_cid := -1,
                     nb_clients := 0, nb_frames := 0, video := none, audio := none }]
    clientObjs := []
    statistic :=
      { vhosts := ⟨[(1, 0)]⟩
        rvhosts := ⟨[("live", 0)]⟩
        streams := ⟨[(2, 0)]⟩
        rstreams := ⟨[("live/app/s1", 0)]⟩
        clients := ⟨[]⟩ }
    idSeq := fun n => (n : Int) + 3
    idPos := 0 }

/-- The request for vhost `live`, app `app`, stream `s1`. -/
def liveRequest : SrsRequest :=
  { vhost := "live", app := "app", stream := "s1", streamUrl := "live/app/s1" }

/-- A codec-info call made between publish and close. -/
inductive InfoCall where
  | video (vcodec avc_profile avc_level : Int)
  | audio (acodec asample_rate asound_type aac_object : Int)
  deriving DecidableEq, Repr

/-- One codec-info call for the request. -/
def InfoCall.run (c : InfoCall) (w : World) (req : SrsRequest) : Option (GoError × World) :=
  match c with
  | .video vcodec avc_profile avc_level =>
    SrsStatistic.OnVideoInfo w req vcodec avc_profile avc_level
  | .audio acodec asample_rate asound_type aac_object =>
    SrsStatistic.OnAudioInfo w req acodec asample_rate asound_type aac_object

/-- The codec-info calls for the request, one after the other. -/
def runInfoCalls (w : World) (req : SrsRequest) : List InfoCall → Option World
  | [] => some w
  | c :: rest =>
    match c.run w req with
    | none => none
    | some (_, w1) => runInfoCalls w1 req rest

/-- `OnStreamPublish(req, cid)`, then the codec-info calls, then
`OnStreamClose(req, cid)`. -/
def publishThenClose (w : World) (req : SrsRequest) (cid : Int) (calls : List InfoCall) :
    Option (GoError × World) :=
  match SrsStatistic.OnStreamPublish w req cid with
  | none => none
  | some (_, w1) =>
    match runInfoCalls w1 req calls with
    | none => none
    | some w2 => SrsStatistic.OnStreamClose w2 req cid

/-- A call of one of the registry's mutators. -/
inductive RegistryOp where
  | publish (req : SrsRequest) (cid : Int)
  | close (req : SrsRequest) (cid : Int)
  | videoInfo (req : SrsRequest) (vcodec avc_profile avc_level : Int)
  | audioInfo (req : SrsRequest) (acodec asample_rate asound_type aac_object : Int)
  | videoFrames (req : SrsRequest) (nb_frames : Nat)
  deriving DecidableEq, Repr

/-- The call a `RegistryOp` stands for. -/
def RegistryOp.run (op : RegistryOp) (w : World) : Option (GoError × World) :=
  match op with
  | .publish req cid => SrsStatistic.OnStreamPublish w req cid
  | .close req cid => SrsStatistic.OnStreamClose w req cid
  | .videoInfo req vcodec avc_profile avc_level =>
    SrsStatistic.OnVideoInfo w req vcodec avc_profile avc_level
  | .audioInfo req acodec asample_rate asound_type aac_object =>
    SrsStatistic.OnAudioInfo w req acodec asample_rate asound_type aac_object
  | .videoFrames req nb_frames => SrsStatistic.OnVideoFrames w req nb_frames

/-- A sequence of mutator calls, one after the other. -/
def runOps (w : World) : List RegistryOp → Option World
  | [] => some w
  | op :: rest =>
    match op.run w with
    | none => none
    | some (_, w1) => runOps w1 rest

/-- A sink that accepts every write. -/
def File.Accepting (f : File) : Prop := ∀ i, f.outcome i = none

/-- The request a mutator call is made for. -/
def RegistryOp.req : RegistryOp → SrsRequest
  | .publish req _ => req
  | .close req _ => req
  | .videoInfo req _ _ _ => req
  | .audioInfo req _ _ _ _ => req
  | .videoFrames req _ => req

/-- What identifies a stream: its id, its vhost reference, its app, its stream
name and its url. -/
def SrsStatisticStream.identity (s : SrsStatisticStream) :
    Int × Option Nat × String × String × String :=
  (s.id, s.vhost, s.app, s.stream, s.url)

/-- The stream `createStream` makes for a request: id `id`, vhost reference
`vh`, and every other field as `NewSrsStatisticStream` leaves it. -/
def createdStream (id : Int) (vh : Nat) (req : SrsRequest) : SrsStatisticStream :=
  { id := id, vhost := some vh, app := req.app, stream := req.stream,
    url := req.GetStreamUrl, active := false, connection_cid := -1, nb_clients := 0,
    nb_frames := 0, video := none, audio := none }

/-- The statement "on a fresh registry, after two `OnStreamPublish` calls for
the same vhost and url, one after the other, the registry holds exactly one
stream and one vhost, and that vhost has `nb_streams = 1`". -/
def PublishTwiceCountsOnce (ids : Nat → Int) (req1 req2 : SrsRequest) (cid1 cid2 : Int) :
    Prop :=
  ∃ w, runOps (World.fresh ids) [.publish req1 cid1, .publish req2 cid2] = some w ∧
    w.streamObjs.length = 1 ∧ w.vhostObjs.length = 1 ∧ w.nbStreams 0 = 1

/-- A payload of 2^32 - 15 bytes. -/
def hugePayload : List Nat := List.replicate (2 ^ 32 - 15) 0

/-- The statement "when the sink accepts the write, `WriteVideo(ts, payload)`
returns the count `11 + len(payload) + 4` and no error". -/
def WriteReturnsCount (this : SrsFlvEncoder) (ts : Nat) (payload : List Nat) : Prop :=
  this.file.outcome this.file.writes.length = none →
    (this.WriteVideo ts payload).1 = (11 + payload.length + 4, none)

/-- What a single-tag writer does when it builds `buffer` and returns `r`:
the sink is handed exactly one more buffer, `buffer` itself; the count
returned is `uint32(len(buffer))`; and the error returned is the one the sink
gave for that write, `nil` when the sink accepted it. -/
def TagWritten (this : SrsFlvEncoder) (buffer : List Nat)
    (r : (Nat × GoError) × SrsFlvEncoder) : Prop :=
  r.2.file.writes = this.file.writes ++ [buffer] ∧
  r.1.1 = buffer.length % 2 ^ 32 ∧
  (this.file.outcome this.file.writes.length = none → r.1.2 = none) ∧
  (∀ n e, this.file.outcome this.file.writes.length = some (n, e) → r.1.2 = some e)

/-! ## `srs/protocol/amf0/srs_amf0_string.go` and what it stands on -/

/-- The method `ByteOrder.PutUint16`: the two bytes of a 16-bit word. -/
def ByteOrder.PutUint16 (order : ByteOrder) (v : Nat) : List Nat :=
  match order with
  | .BigEndian => [(v >>> 8) % 256, v % 256]
  | .LittleEndian => [v % 256, (v >>> 8) % 256]

/-- The method `ByteOrder.Uint16`: the 16-bit word held by two bytes. -/
def ByteOrder.Uint16 (order : ByteOrder) (b0 b1 : Nat) : Nat :=
  match order with
  | .BigEndian => (b1 ||| (b0 <<< 8)) % 2 ^ 16
  | .LittleEndian => (b0 ||| (b1 <<< 8)) % 2 ^ 16

/-- `utils.UInt16ToBytes`. -/
def UInt16ToBytes (data : Nat) (order : ByteOrder) : List Nat :=
  order.PutUint16 data

/-- `utils.BytesToUInt16`: `binary.Read` reads the first two bytes; with fewer
than two it fails, leaving `v` at 0, with `io.EOF` on no byte at all and
`io.ErrUnexpectedEOF` on a single one. -/
def BytesToUInt16 (data : List Nat) (order : ByteOrder) : Nat × GoError :=
  match data with
  | b0 :: b1 :: _ => (order.Uint16 b0 b1, none)
  | [_] => (0, some "unexpected EOF")
  | [] => (0, some "EOF")

/-- Modelled from the spec: `utils.SrsStream` is not among the sources.  It is
a cursor-based byte stream: the bytes it holds and the read position. -/
structure SrsStream where
  data : List Nat
  pos : Nat
  deriving DecidableEq, Repr

/-- Modelled from the spec: the truncation error a stream reports when asked
for more bytes than it still holds. -/
def SrsStream.errTruncated : String := "stream: not enough bytes"

/-- Modelled from the spec: `SrsStream.ReadByte` hands out the byte under the
cursor and moves the cursor past it; on an exhausted stream it reports the
truncation error and leaves the cursor where it is. -/
def SrsStream.ReadByte (stream : SrsStream) : (Nat × GoError) × SrsStream :=
  match stream.data[stream.pos]? with
  | none => ((0, some SrsStream.errTruncated), stream)
  | some b => ((b, none), { stream with pos := stream.pos + 1 })

/-- Modelled from the spec: `SrsStream.PeekByte` hands out the byte under the
cursor without consuming it; on an exhausted stream it reports the truncation
error. -/
def SrsStream.PeekByte (stream : SrsStream) : (Nat × GoError) × SrsStream :=
  match stream.data[stream.pos]? with
  | none => ((0, some SrsStream.errTruncated), stream)
  | some b => ((b, none), stream)

/-- Modelled from the spec: `SrsStream.ReadBytes` hands out the next `n` bytes
and moves the cursor past them; it reports the truncation error, consuming
nothing, when fewer than `n` bytes are left. -/
def SrsStream.ReadBytes (stream : SrsStream) (n : Nat) : (List Nat × GoError) × SrsStream :=
  if stream.pos + n ≤ stream.data.length then
    ((slice stream.data stream.pos (stream.pos + n), none),
      { stream with pos := stream.pos + n })
  else
    (([], some SrsStream.errTruncated), stream)

/-- Modelled from the spec: `SrsStream.WriteByte` appends one byte. -/
def SrsStream.WriteByte (stream : SrsStream) (b : Nat) : SrsStream :=
  { stream with data := stream.data ++ [b] }

/-- Modelled from the spec: `SrsStream.WriteBytes` appends the bytes. -/
def SrsStream.WriteBytes (stream : SrsStream) (bs : List Nat) : SrsStream :=
  { stream with data := stream.data ++ bs }

/-- Modelled from the spec: the constant `RTMP_AMF0_String` is not among the
sources; it is the marker byte of the String variant, `0x02` in AMF0. -/
abbrev RTMP_AMF0_String : Nat := 0x02

/-- Modelled from the spec: the type `SrsAmf0Utf8` is not among the sources.
It holds the bytes of a Go string. -/
structure SrsAmf0Utf8 where
  Value : List Nat
  deriving DecidableEq, Repr

/-- Modelled from the spec: `SrsAmf0Utf8.Decode` reads a 2-byte big-endian
length prefix and then that many bytes, and fails with the truncation error
when the stream holds fewer bytes than declared.  The returned value is the
receiver afterwards. -/
def SrsAmf0Utf8.Decode (this : SrsAmf0Utf8) (stream : SrsStream) :
    GoError × SrsAmf0Utf8 × SrsStream :=
  match stream.ReadBytes 2 with
  | ((_, some err), stream) => (some err, this, stream)
  | ((lenBytes, none), stream) =>
    match BytesToUInt16 lenBytes ByteOrder.BigEndian with
    | (_, some err) => (some err, this, stream)
    | (len, none) =>
      match stream.ReadBytes len with
      | ((_, some err), stream) => (some err, this, stream)
      | ((bytes, none), stream) => (none, { this with Value := bytes }, stream)

/-- Modelled from the spec: `SrsAmf0Utf8.Encode` writes the length as a
`uint16`, big-endian, and then the bytes. -/
def SrsAmf0Utf8.Encode (this : SrsAmf0Utf8) (stream : SrsStream) : SrsStream :=
  let len := this.Value.length % 2 ^ 16
  let stream := stream.WriteBytes (UInt16ToBytes len ByteOrder.BigEndian)
  stream.WriteBytes this.Value

/-- The struct `SrsAmf0String`. -/
structure SrsAmf0String where
  Value : SrsAmf0Utf8
  deriving DecidableEq, Repr

/-- `NewSrsAmf0String`. -/
def NewSrsAmf0String (str : List Nat) : SrsAmf0String :=
  { Value := { Value := str } }

/-- `SrsAmf0String.Decode`: the returned error, the receiver afterwards and
the stream afterwards. -/
def SrsAmf0String.Decode (this : SrsAmf0String) (stream : SrsStream) :
    GoError × SrsAmf0String × SrsStream :=
  match stream.ReadByte with
  | ((_, some err), stream) => (some err, this, stream)
  | ((marker, none), stream) =>
    if marker != RTMP_AMF0_String then
      (some "amf0 check string marker failed.", this, stream)
    else
      match this.Value.Decode stream with
      | (err, value, stream) => (err, { this with Value := value }, stream)

/-- `SrsAmf0String.Encode`: the returned error and the stream afterwards. -/
def SrsAmf0String.Encode (this : SrsAmf0String) (stream : SrsStream) :
    GoError × SrsStream :=
  let stream := stream.WriteByte RTMP_AMF0_String
  let stream := this.Value.Encode stream
  (none, stream)

/-- `SrsAmf0String.IsMyType`: the answer, the returned error and the stream
afterwards. -/
def SrsAmf0String.IsMyType (_this : SrsAmf0String) (stream : SrsStream) :
    (Bool × GoError) × SrsStream :=
  match stream.PeekByte with
  | ((_, some err), stream) => ((false, some err), stream)
  | ((marker, none), stream) =>
    if marker != RTMP_AMF0_String then
      ((false, none), stream)
    else
      ((true, none), stream)

/-! ## `SrsFlvEncoder.WriteTags` -/

/-- Modelled from the spec: the type `rtmp.SrsRtmpMessage` is not among the
sources.  What `WriteTags` reads of a message: whether its header says audio,
whether it says video, its timestamp and its payload. -/
structure SrsRtmpMessage where
  isAudio : Bool
  isVideo : Bool
  timestamp : Int
  payload : List Nat
  deriving DecidableEq, Repr

/-- The body of the loop of `SrsFlvEncoder.WriteTags` for one message: the
writer is chosen by the header, the timestamp converted by `uint32(...)`, and
both results of the writer are dropped (`_, _ =`); the encoder afterwards. -/
def SrsFlvEncoder.writeTagsStep (this : SrsFlvEncoder) (msg : SrsRtmpMessage) :
    SrsFlvEncoder :=
  if msg.isAudio then
    (this.WriteAudio (toUInt32 msg.timestamp) msg.payload).2
  else if msg.isVideo then
    (this.WriteVideo (toUInt32 msg.timestamp) msg.payload).2
  else
    (this.WriteMetaData msg.payload).2

/-- The loop of `SrsFlvEncoder.WriteTags` over the messages, in order. -/
def SrsFlvEncoder.writeTagsLoop (this : SrsFlvEncoder) : List SrsRtmpMessage → SrsFlvEncoder
  | [] => this
  | msg :: rest => SrsFlvEncoder.writeTagsLoop (this.writeTagsStep msg) rest

/-- `SrsFlvEncoder.WriteTags`: the returned error, which is the `nil` of its
last line, and the encoder afterwards. -/
def SrsFlvEncoder.WriteTags (this : SrsFlvEncoder) (msgs : List SrsRtmpMessage) :
    GoError × SrsFlvEncoder :=
  (none, this.writeTagsLoop msgs)

/-- The tag of a message as the format lays it out: an audio tag when the
message is audio, a video tag when it is video and not audio, a metadata tag
with timestamp 0 otherwise. -/
def SrsRtmpMessage.tagBytes (msg : SrsRtmpMessage) : List Nat :=
  if msg.isAudio then
    flvTagBytes 0x08 (toUInt32 msg.timestamp) msg.payload
  else if msg.isVideo then
    flvTagBytes 0x09 (toUInt32 msg.timestamp) msg.payload
  else
    flvTagBytes 0x18 0 msg.payload

/-- The tags of the messages one after the other. -/
def messagesLayout : List SrsRtmpMessage → List Nat
  | [] => []
  | msg :: rest => msg.tagBytes ++ messagesLayout rest

/-- The statement "`WriteTags` returns `nil` exactly when the sink accepted the
write of every message's tag" (the write for message `i` is the sink's call
number `len(writes) + i`). -/
def WriteTagsReports (this : SrsFlvEncoder) (msgs : List SrsRtmpMessage) : Prop :=
  (this.WriteTags msgs).1 = none ↔
    ∀ i, i < msgs.length → this.file.outcome (this.file.writes.length + i) = none

/-- A sink that rejects every write. -/
def fullDisk : File := File.mk [] [] (fun _ => some (0, "no space left on device"))

/-- A payload of 2^24 bytes. -/
def bigPayload : List Nat := List.replicate (2 ^ 24) 0

/-! ## Vocabulary of the registry invariants -/

/-- What a mutator call adds to the `nb_streams` of the vhost owning the stream
it resolves: 1 for a publish, -1 for a close, 0 for the others. -/
def RegistryOp.delta : RegistryOp → Int
  | .publish _ _ => 1
  | .close _ _ => -1
  | .videoInfo _ _ _ _ => 0
  | .audioInfo _ _ _ _ _ => 0
  | .videoFrames _ _ => 0

/-- The vhost owning the stream a call for `req` resolves (or creates) in `w`. -/
def ownerOf (w : World) (req : SrsRequest) : Option Nat :=
  match (resolve w req).2.streamObjs[(resolve w req).1]? with
  | none => none
  | some s => s.vhost

/-- The number of `OnStreamPublish` calls minus the number of `OnStreamClose`
calls made, along the run of `ops` from `w`, on streams of the vhost `vp`. -/
def netCount (vp : Nat) : World → List RegistryOp → Int
  | _, [] => 0
  | w, op :: rest =>
    (if ownerOf w op.req = some vp then op.delta else 0) +
      match op.run w with
      | none => 0
      | some (_, w1) => netCount vp w1 rest

/-- The statement "after the calls `ops` on a fresh registry, `nb_streams` of
the vhost `vp` equals the number of publish calls minus the number of close
calls on that vhost's streams". -/
def NetCountExact (ids : Nat → Int) (ops : List RegistryOp) (vp : Nat) : Prop :=
  ∃ w, runOps (World.fresh ids) ops = some w ∧
    w.nbStreams vp = netCount vp (World.fresh ids) ops

/-- Map-pair consistency: the by-name and the by-id map of vhosts (of streams)
hold the same entities under their own name (url) and id, and the vhost of
every registered stream is an entity of the vhost maps. -/
structure World.Consistent (w : World) : Prop where
  vhostByName : ∀ (n : String) (p : Nat), w.statistic.rvhosts.get n = some p →
    ∃ v, w.vhostObjs[p]? = some v ∧ v.vhost = n ∧ w.statistic.vhosts.get v.id = some p
  vhostById : ∀ (i : Int) (p : Nat), w.statistic.vhosts.get i = some p →
    ∃ v, w.vhostObjs[p]? = some v ∧ v.id = i ∧ w.statistic.rvhosts.get v.vhost = some p
  streamByUrl : ∀ (u : String) (p : Nat), w.statistic.rstreams.get u = some p →
    ∃ s, w.streamObjs[p]? = some s ∧ s.url = u ∧ w.statistic.streams.get s.id = some p
  streamById : ∀ (i : Int) (p : Nat), w.statistic.streams.get i = some p →
    ∃ s, w.streamObjs[p]? = some s ∧ s.id = i ∧ w.statistic.rstreams.get s.url = some p
  streamVhost : ∀ (u : String) (p : Nat) (s : SrsStatisticStream),
    w.statistic.rstreams.get u = some p → w.streamObjs[p]? = some s →
    ∃ vp v, s.vhost = some vp ∧ w.vhostObjs[vp]? = some v ∧
      w.statistic.rvhosts.get v.vhost = some vp ∧ w.statistic.vhosts.get v.id = some vp

/-- Every key of the by-id maps was handed out by the id source. -/
structure World.IdsUsed (w : World) : Prop where
  vhostIds : ∀ (i : Int) (p : Nat), w.statistic.vhosts.get i = some p →
    ∃ k, k < w.idPos ∧ w.idSeq k = i
  streamIds : ∀ (i : Int) (p : Nat), w.statistic.streams.get i = some p →
    ∃ k, k < w.idPos ∧ w.idSeq k = i

/-- The key fields of a vhost: its id and its name. -/
def SrsStatisticVhost.identity (v : SrsStatisticVhost) : Int × String :=
  (v.id, v.vhost)

/-- Two states with the same maps, the same id source, and at every address
objects with the same key fields. -/
structure SameShape (w w1 : World) : Prop where
  statistic : w1.statistic = w.statistic
  idSeq : w1.idSeq = w.idSeq
  idPos : w1.idPos = w.idPos
  streams : ∀ (p : Nat), (w1.streamObjs[p]?).map SrsStatisticStream.identity =
    (w.streamObjs[p]?).map SrsStatisticStream.identity
  vhosts : ∀ (p : Nat), (w1.vhostObjs[p]?).map SrsStatisticVhost.identity =
    (w.vhostObjs[p]?).map SrsStatisticVhost.identity

end GoSrs

namespace GoSrs

/-! ## Arithmetic of nibbles and big-endian words -/

theorem shift4_and15 (b : Nat) : (b >>> 4) &&& 0x0F = b / 16 % 16 := by
  rw [Nat.shiftRight_eq_div_pow]
  exact Nat.and_pow_two_sub_one_eq_mod _ 4

theorem and15 (b : Nat) : b &&& 0x0F = b % 16 :=
  Nat.and_pow_two_sub_one_eq_mod b 4

theorem highNibble_of_byte {b : Nat} (hb : b < 256) : (b >>> 4) &&& 0x0F = highNibble b := by
  rw [shift4_and15, highNibble]
  omega

theorem isBytes_head {b : Nat} {rest : List Nat} (h : IsBytes (b :: rest)) : b < 256 :=
  h b (List.mem_cons_self b rest)

theorem putUint32_bigEndian (v : Nat) : ByteOrder.BigEndian.PutUint32 v = bigEndian 4 v := by
  simp only [ByteOrder.PutUint32, bigEndian, Nat.shiftRight_eq_div_pow, List.nil_append,
    List.cons_append, List.cons.injEq, and_true]
  and_intros <;> omega

theorem bigEndian_length (width n : Nat) : (bigEndian width n).length = width := by
  induction width generalizing n with
  | zero => rfl
  | succ k ih => simp [bigEndian, ih]

theorem fromBigEndian_append (bs : List Nat) (b : Nat) :
    fromBigEndian (bs ++ [b]) = fromBigEndian bs * 256 + b := by
  simp [fromBigEndian, List.foldl_append]

theorem fromBigEndian_bigEndian (width n : Nat) :
    fromBigEndian (bigEndian width n) = n % 256 ^ width := by
  induction width generalizing n with
  | zero => simp [bigEndian, fromBigEndian, Nat.mod_one]
  | succ k ih =>
    rw [bigEndian, fromBigEndian_append, ih, pow_succ, Nat.mul_comm (256 ^ k) 256,
      Nat.mod_mul]
    ring

theorem fromBigEndian_bigEndian_of_lt {width n : Nat} (h : n < 256 ^ width) :
    fromBigEndian (bigEndian width n) = n := by
  rw [fromBigEndian_bigEndian, Nat.mod_eq_of_lt h]

theorem bigEndian4_mod (n : Nat) : bigEndian 4 (n % 2 ^ 32) = bigEndian 4 n := by
  simp only [bigEndian, List.nil_append, List.cons_append, List.cons.injEq, and_true]
  and_intros <;> omega

theorem toUInt32_toInt32 (n : Nat) : toUInt32 (toInt32 (n : Int)) = n % 2 ^ 32 := by
  unfold toUInt32 toInt32
  simp only []
  split <;> omega

theorem int32ToBytes_len (n : Nat) :
    Int32ToBytes (toInt32 (n : Int)) ByteOrder.BigEndian = bigEndian 4 n := by
  rw [Int32ToBytes, toUInt32_toInt32, putUint32_bigEndian, bigEndian4_mod]

theorem slice_bigEndian4 (n : Nat) : slice (bigEndian 4 n) 1 4 = bigEndian 3 n := by
  simp [slice, bigEndian]

/-! ## The tag buffer -/

theorem newTagHeader_data (typ timestamp n : Nat) :
    (NewTagHeader typ timestamp (toInt32 (n : Int))).Data =
      [typ] ++ bigEndian 3 n ++ bigEndian 4 timestamp ++ [0, 0, 0] := by
  simp only [NewTagHeader, TagHeader.Data, int32ToBytes_len, slice_bigEndian4, UInt32ToBytes,
    putUint32_bigEndian, List.nil_append]

theorem newTagHeader_data_length (typ timestamp n : Nat) :
    (NewTagHeader typ timestamp (toInt32 (n : Int))).Data.length = 11 := by
  simp [newTagHeader_data, bigEndian_length]

theorem writeTag_eq (this : SrsFlvEncoder) (typ timestamp : Nat) (data : List Nat) :
    this.writeTag (NewTagHeader typ timestamp (toInt32 (data.length : Int))) data =
      ((toUInt32 ((flvTagBytes typ timestamp data).length : Int),
          (this.file.Write (flvTagBytes typ timestamp data)).1.2),
        { this with file := (this.file.Write (flvTagBytes typ timestamp data)).2 }) := by
  have hbuf : (NewTagHeader typ timestamp (toInt32 (data.length : Int))).Data ++ data ++
      Int32ToBytes (toInt32
        (((NewTagHeader typ timestamp (toInt32 (data.length : Int))).Data ++ data).length : Int))
        ByteOrder.BigEndian = flvTagBytes typ timestamp data := by
    rw [int32ToBytes_len, List.length_append, newTagHeader_data_length, newTagHeader_data,
      flvTagBytes]
  simp only [SrsFlvEncoder.writeTag, hbuf]

theorem write_writes (f : File) (b : List Nat) : (f.Write b).2.writes = f.writes ++ [b] := by
  unfold File.Write
  split <;> rfl

theorem write_accepting {f : File} (h : f.Accepting) (b : List Nat) :
    f.Write b = ((b.length, none),
      { f with contents := f.contents ++ b, writes := f.writes ++ [b] }) := by
  unfold File.Write
  rw [h]

/-! ## Classifiers -/

/-- C4: `VideoIsSequenceHeader data` is true iff `VideoIsH264 data`, the length
is at least 2, the high nibble of `data[0]` is 1 and `data[1]` is 0;
equivalently iff the length is at least 2, `data[0] = 0x17` and
`data[1] = 0x00`.  It is false on the empty slice and on every one-byte slice. -/
theorem VideoIsSequenceHeader_iff (data : List Nat) :
    (IsBytes data →
      (VideoIsSequenceHeader data = true ↔
        VideoIsH264 data = true ∧ 2 ≤ data.length ∧
          (∃ b0, data[0]? = some b0 ∧ highNibble b0 = 1) ∧ data[1]? = some 0) ∧
      (VideoIsSequenceHeader data = true ↔
        2 ≤ data.length ∧ data[0]? = some 0x17 ∧ data[1]? = some 0x00)) ∧
    VideoIsSequenceHeader [] = false ∧ ∀ b, VideoIsSequenceHeader [b] = false := by
  refine ⟨?_, by simp [VideoIsSequenceHeader, VideoIsH264], ?_⟩
  · intro hbytes
    match data, hbytes with
    | [], _ => simp [VideoIsSequenceHeader, VideoIsH264]
    | [b], _ => simp [VideoIsSequenceHeader, VideoIsH264]
    | b0 :: b1 :: rest, hbytes =>
      have hb := isBytes_head hbytes
      simp only [VideoIsSequenceHeader, VideoIsH264, shift4_and15, and15, highNibble,
        SrsCodecVideoAVC, SrsCodecVideoAVCFrameKeyFrame, SrsCodecVideoAVCTypeSequenceHeader]
      simp
      simp only [Nat.shiftRight_eq_div_pow]
      constructor
      · intro h1 h2
        omega
      · constructor
        · intro h
          exact ⟨by omega, h.2.2⟩
        · intro h
          exact ⟨by omega, by omega, h.2⟩
  · intro b
    simp [VideoIsSequenceHeader, VideoIsH264]

theorem VideoIsSequenceHeader_iff_witness :
    IsBytes [0x17, 0x00, 0x42] ∧
      ((VideoIsSequenceHeader [0x17, 0x00, 0x42] = true ↔
        VideoIsH264 [0x17, 0x00, 0x42] = true ∧ 2 ≤ [0x17, 0x00, 0x42].length ∧
          (∃ b0, [0x17, 0x00, 0x42][0]? = some b0 ∧ highNibble b0 = 1) ∧
            [0x17, 0x00, 0x42][1]? = some 0) ∧
      (VideoIsSequenceHeader [0x17, 0x00, 0x42] = true ↔
        2 ≤ [0x17, 0x00, 0x42].length ∧ [0x17, 0x00, 0x42][0]? = some 0x17 ∧
          [0x17, 0x00, 0x42][1]? = some 0x00)) :=
  ⟨by simp [IsBytes], (VideoIsSequenceHeader_iff [0x17, 0x00, 0x42]).1 (by simp [IsBytes])⟩

/-- C5: `VideoIsAcceptable data` is true iff `data` is non-empty, the high
nibble of `data[0]` lies in 1..5 and its low nibble lies in 2..7; it is false
on the empty slice, and two slices with the same first byte get the same
answer. -/
theorem VideoIsAcceptable_iff (data : List Nat) :
    (IsBytes data →
      (VideoIsAcceptable data = true ↔
        ∃ b0, data[0]? = some b0 ∧ 1 ≤ highNibble b0 ∧ highNibble b0 ≤ 5 ∧
          2 ≤ lowNibble b0 ∧ lowNibble b0 ≤ 7)) ∧
    VideoIsAcceptable [] = false ∧
    (∀ other : List Nat, data[0]? = other[0]? →
      VideoIsAcceptable data = VideoIsAcceptable other) := by
  refine ⟨?_, by simp [VideoIsAcceptable], ?_⟩
  · intro hbytes
    cases data with
    | nil => simp [VideoIsAcceptable]
    | cons b rest =>
      have hb := isBytes_head hbytes
      simp only [VideoIsAcceptable, shift4_and15, and15, highNibble, lowNibble]
      simp
      constructor
      · intro h
        omega
      · intro h
        omega
  · intro other h
    match data, other, h with
    | [], [], _ => rfl
    | [], _ :: _, h => simp at h
    | _ :: _, [], h => simp at h
    | b :: r1, c :: r2, h =>
      have hbc : b = c := by simpa using h
      subst hbc
      simp [VideoIsAcceptable]

theorem VideoIsAcceptable_iff_witness :
    IsBytes [0x27, 0x01] ∧
      (VideoIsAcceptable [0x27, 0x01] = true ↔
        ∃ b0, [0x27, 0x01][0]? = some b0 ∧ 1 ≤ highNibble b0 ∧ highNibble b0 ≤ 5 ∧
          2 ≤ lowNibble b0 ∧ lowNibble b0 ≤ 7) ∧
      [0x27, 0x01][0]? = [0x27, 0xFF, 0x00][0]? ∧
      VideoIsAcceptable [0x27, 0x01] = VideoIsAcceptable [0x27, 0xFF, 0x00] :=
  ⟨by simp [IsBytes], (VideoIsAcceptable_iff [0x27, 0x01]).1 (by simp [IsBytes]), rfl,
    (VideoIsAcceptable_iff [0x27, 0x01]).2.2 [0x27, 0xFF, 0x00] rfl⟩

/-- C6: `VideoIsKeyFrame data` is true iff `data` is non-empty and the high
nibble of `data[0]` is 1; on the empty slice it returns false (the function
is total, its one index is in range). -/
theorem VideoIsKeyFrame_iff (data : List Nat) :
    (IsBytes data →
      (VideoIsKeyFrame data = true ↔ ∃ b0, data[0]? = some b0 ∧ highNibble b0 = 1)) ∧
    VideoIsKeyFrame [] = false := by
  refine ⟨?_, by simp [VideoIsKeyFrame]⟩
  intro hbytes
  cases data with
  | nil => simp [VideoIsKeyFrame]
  | cons b rest =>
    have hb := isBytes_head hbytes
    simp [VideoIsKeyFrame, highNibble_of_byte hb]

theorem VideoIsKeyFrame_iff_witness :
    IsBytes [0x17, 0x00] ∧
      (VideoIsKeyFrame [0x17, 0x00] = true ↔
        ∃ b0, [0x17, 0x00][0]? = some b0 ∧ highNibble b0 = 1) :=
  ⟨by simp [IsBytes], (VideoIsKeyFrame_iff [0x17, 0x00]).1 (by simp [IsBytes])⟩

/-- C7: `AudioIsSequenceHeader data` is true iff `AudioIsAAC data` (non-empty
with high nibble of `data[0]` equal to 10), the length is at least 2 and
`data[1]` is 0; replacing `data[0]` by a byte with the same high nibble never
changes the result; the result is false on the empty slice and on every
one-byte slice. -/
theorem AudioIsSequenceHeader_iff (data : List Nat) :
    (AudioIsSequenceHeader data = true ↔
      AudioIsAAC data = true ∧ 2 ≤ data.length ∧ data[1]? = some 0) ∧
    (IsBytes data →
      (AudioIsAAC data = true ↔ ∃ b0, data[0]? = some b0 ∧ highNibble b0 = 10) ∧
      (∀ b0 rest c0, data = b0 :: rest → c0 < 256 → highNibble c0 = highNibble b0 →
        AudioIsSequenceHeader (c0 :: rest) = AudioIsSequenceHeader data)) ∧
    AudioIsSequenceHeader [] = false ∧ ∀ b, AudioIsSequenceHeader [b] = false := by
  refine ⟨?_, ?_, by simp [AudioIsSequenceHeader, AudioIsAAC], ?_⟩
  · match data with
    | [] => simp [AudioIsSequenceHeader, AudioIsAAC]
    | [b] => simp [AudioIsSequenceHeader, AudioIsAAC]
    | b0 :: b1 :: rest => simp [AudioIsSequenceHeader, AudioIsAAC]
  · intro hbytes
    constructor
    · cases data with
      | nil => simp [AudioIsAAC]
      | cons b rest =>
        have hb := isBytes_head hbytes
        simp [AudioIsAAC, highNibble_of_byte hb]
    · intro b0 rest c0 hdata hc hnib
      subst hdata
      have hb := isBytes_head hbytes
      match rest with
      | [] => simp [AudioIsSequenceHeader, AudioIsAAC]
      | b1 :: rest =>
        simp [AudioIsSequenceHeader, AudioIsAAC, highNibble_of_byte hb, highNibble_of_byte hc,
          hnib]
  · intro b
    simp [AudioIsSequenceHeader, AudioIsAAC]

theorem AudioIsSequenceHeader_iff_witness :
    IsBytes [0xAF, 0x00] ∧
      (AudioIsAAC [0xAF, 0x00] = true ↔
        ∃ b0, [0xAF, 0x00][0]? = some b0 ∧ highNibble b0 = 10) ∧
      (0xA2 < 256 ∧ highNibble 0xA2 = highNibble 0xAF ∧
        AudioIsSequenceHeader [0xA2, 0x00] = AudioIsSequenceHeader [0xAF, 0x00]) :=
  ⟨by simp [IsBytes],
    ((AudioIsSequenceHeader_iff [0xAF, 0x00]).2.1 (by simp [IsBytes])).1,
    by decide, by decide,
    ((AudioIsSequenceHeader_iff [0xAF, 0x00]).2.1 (by simp [IsBytes])).2 0xAF [0x00] 0xA2 rfl
      (by decide) (by decide)⟩

/-! ## Container -/

/-- C3: `NewSrsFlvHeader(hasAudio, hasVideo).Data()` is the 9 bytes `F`, `L`,
`V`, 1, flags, 0, 0, 0, 9, where bit 0 of flags is set iff `hasAudio`, bit 2
iff `hasVideo` and every other bit is clear; and `WriteHeader` of an encoder
made by `NewSrsFlvEncoder` hands the sink those 9 bytes with flags 5 and then
4 zero bytes (13 bytes in total) and returns no error, when the sink accepts
both writes. -/
theorem flvHeader_bytes (hasAudio hasVideo : Bool) (f : File) :
    ((NewSrsFlvHeader hasAudio hasVideo).Data =
        ['F'.toNat, 'L'.toNat, 'V'.toNat, 0x01, (NewSrsFlvHeader hasAudio hasVideo).flags,
          0x00, 0x00, 0x00, 0x09] ∧
      (NewSrsFlvHeader hasAudio hasVideo).Data.length = 9 ∧
      (NewSrsFlvHeader hasAudio hasVideo).flags.testBit 0 = hasAudio ∧
      (NewSrsFlvHeader hasAudio hasVideo).flags.testBit 2 = hasVideo ∧
      ∀ i, i ≠ 0 → i ≠ 2 → (NewSrsFlvHeader hasAudio hasVideo).flags.testBit i = false) ∧
    (f.outcome f.writes.length = none → f.outcome (f.writes.length + 1) = none →
      (NewSrsFlvEncoder f).WriteHeader.1 = none ∧
      (NewSrsFlvEncoder f).WriteHeader.2.file.writes =
        f.writes ++ [[0x46, 0x4C, 0x56, 0x01, 0x05, 0x00, 0x00, 0x00, 0x09],
          [0x00, 0x00, 0x00, 0x00]] ∧
      (NewSrsFlvEncoder f).WriteHeader.2.file.contents =
        f.contents ++ [0x46, 0x4C, 0x56, 0x01, 0x05, 0x00, 0x00, 0x00, 0x09,
          0x00, 0x00, 0x00, 0x00] ∧
      ((NewSrsFlvEncoder f).WriteHeader.2.file.contents.length = f.contents.length + 13)) := by
  constructor
  · have hflags : ∀ n : Nat, n < 8 → ∀ i, 3 ≤ i → n.testBit i = false := by
      intro n hn i hi
      apply Nat.testBit_lt_two_pow
      calc n < 2 ^ 3 := hn
        _ ≤ 2 ^ i := Nat.pow_le_pow_right (by decide) hi
    refine ⟨?_, ?_, ?_, ?_, ?_⟩
    · cases hasAudio <;> cases hasVideo <;> decide
    · cases hasAudio <;> cases hasVideo <;> decide
    · cases hasAudio <;> cases hasVideo <;> decide
    · cases hasAudio <;> cases hasVideo <;> decide
    · intro i h0 h2
      have hcases : i = 1 ∨ 3 ≤ i := by omega
      rcases hcases with h1 | h3
      · subst h1
        cases hasAudio <;> cases hasVideo <;> decide
      · apply hflags _ _ i h3
        cases hasAudio <;> cases hasVideo <;> decide
  · intro h0 h1
    have hdata : (NewSrsFlvHeader true true).Data =
        [0x46, 0x4C, 0x56, 0x01, 0x05, 0x00, 0x00, 0x00, 0x09] := by decide
    simp only [SrsFlvEncoder.WriteHeader, NewSrsFlvEncoder, File.Write, h0, hdata,
      List.length_append, List.length_singleton, h1]
    simp

theorem flvHeader_bytes_witness :
    ((1 : Nat) ≠ 0 ∧ (1 : Nat) ≠ 2 ∧ (NewSrsFlvHeader true false).flags.testBit 1 = false) ∧
    (File.mk [] [] (fun _ => none)).outcome (File.mk [] [] (fun _ => none)).writes.length = none ∧
    (File.mk [] [] (fun _ => none)).outcome
      ((File.mk [] [] (fun _ => none)).writes.length + 1) = none ∧
    (NewSrsFlvEncoder (File.mk [] [] (fun _ => none))).WriteHeader.2.file.contents =
      [] ++ [0x46, 0x4C, 0x56, 0x01, 0x05, 0x00, 0x00, 0x00, 0x09, 0x00, 0x00, 0x00, 0x00] :=
  ⟨⟨by decide, by decide,
      (flvHeader_bytes true false (File.mk [] [] (fun _ => none))).1.2.2.2.2 1 (by decide)
        (by decide)⟩,
    rfl, rfl, ((flvHeader_bytes true true (File.mk [] [] (fun _ => none))).2 rfl rfl).2.2.1⟩

/-- C2: for a `uint32` timestamp and a payload of fewer than 2^24 bytes,
`WriteVideo(ts, payload)` hands the sink exactly one buffer, the bytes
`[0x09] ++ BE24(len) ++ BE32(ts) ++ [0,0,0] ++ payload ++ BE32(11 + len)`;
`WriteAudio` does the same with type byte `0x08`, and `WriteMetaData` with
type byte `0x18` and timestamp 0.  The three big-endian fields read back as
`len`, `ts` and `11 + len`. -/
theorem writeTag_bytes (this : SrsFlvEncoder) (ts : Nat) (payload : List Nat)
    (hts : ts < 2 ^ 32) (hlen : payload.length < 2 ^ 24) :
    (this.WriteVideo ts payload).2.file.writes = this.file.writes ++
      [[0x09] ++ bigEndian 3 payload.length ++ bigEndian 4 ts ++ [0, 0, 0] ++ payload ++
        bigEndian 4 (11 + payload.length)] ∧
    (this.WriteAudio ts payload).2.file.writes = this.file.writes ++
      [[0x08] ++ bigEndian 3 payload.length ++ bigEndian 4 ts ++ [0, 0, 0] ++ payload ++
        bigEndian 4 (11 + payload.length)] ∧
    (this.WriteMetaData payload).2.file.writes = this.file.writes ++
      [[0x18] ++ bigEndian 3 payload.length ++ bigEndian 4 0 ++ [0, 0, 0] ++ payload ++
        bigEndian 4 (11 + payload.length)] ∧
    fromBigEndian (bigEndian 3 payload.length) = payload.length ∧
    fromBigEndian (bigEndian 4 ts) = ts ∧
    fromBigEndian (bigEndian 4 (11 + payload.length)) = 11 + payload.length := by
  refine ⟨?_, ?_, ?_, ?_, ?_, ?_⟩
  · rw [SrsFlvEncoder.WriteVideo, writeTag_eq, write_writes, flvTagBytes]
  · rw [SrsFlvEncoder.WriteAudio, writeTag_eq, write_writes, flvTagBytes]
  · rw [SrsFlvEncoder.WriteMetaData, writeTag_eq, write_writes, flvTagBytes]
  · exact fromBigEndian_bigEndian_of_lt (by norm_num; omega)
  · exact fromBigEndian_bigEndian_of_lt (by norm_num; omega)
  · exact fromBigEndian_bigEndian_of_lt (by norm_num; omega)

theorem writeTag_bytes_witness :
    (1000 : Nat) < 2 ^ 32 ∧ [0x17, 0x00, 0xAB].length < 2 ^ 24 ∧
    ((NewSrsFlvEncoder (File.mk [] [] (fun _ => none))).WriteVideo 1000
        [0x17, 0x00, 0xAB]).2.file.writes = [] ++
      [[0x09] ++ bigEndian 3 [0x17, 0x00, 0xAB].length ++ bigEndian 4 1000 ++ [0, 0, 0] ++
        [0x17, 0x00, 0xAB] ++ bigEndian 4 (11 + [0x17, 0x00, 0xAB].length)] :=
  ⟨by decide, by decide,
    (writeTag_bytes (NewSrsFlvEncoder (File.mk [] [] (fun _ => none))) 1000 [0x17, 0x00, 0xAB]
      (by decide) (by decide)).1⟩

theorem writeTagOf_accepting {enc : SrsFlvEncoder} (h : enc.file.Accepting) (t : Tag) :
    (writeTagOf enc t).file.Accepting ∧
      (writeTagOf enc t).file.contents = enc.file.contents ++ t.bytes := by
  cases t with
  | mk kind timestamp payload =>
    cases kind <;>
      simp only [writeTagOf, SrsFlvEncoder.WriteAudio, SrsFlvEncoder.WriteVideo,
        SrsFlvEncoder.WriteMetaData, writeTag_eq, write_accepting h, Tag.bytes] <;>
      exact ⟨h, trivial⟩

theorem foldl_writeTagOf_contents (tags : List Tag) :
    ∀ enc : SrsFlvEncoder, enc.file.Accepting →
      (tags.foldl writeTagOf enc).file.contents = enc.file.contents ++ tagsLayout tags := by
  induction tags with
  | nil => intro enc _; simp [tagsLayout]
  | cons t rest ih =>
    intro enc h
    rw [List.foldl_cons, ih _ (writeTagOf_accepting h t).1, (writeTagOf_accepting h t).2,
      tagsLayout, List.append_assoc]

theorem tag_headerBytes (t : Tag) :
    t.headerBytes.length = 11 ∧
      t.bytes = t.headerBytes ++ t.payload ++ bigEndian 4 (11 + t.payload.length) := by
  cases t with
  | mk kind timestamp payload =>
    cases kind <;>
      simp [Tag.headerBytes, Tag.bytes, flvTagBytes, bigEndian_length, bigEndian]

theorem backPointerChain_eq (tags : List Tag) :
    ∀ prev, backPointerChain prev tags = bigEndian 4 prev ++ tagsLayout tags := by
  induction tags with
  | nil => intro prev; simp [backPointerChain, tagsLayout]
  | cons t rest ih =>
    intro prev
    have hlen : (t.headerBytes ++ t.payload).length = 11 + t.payload.length := by
      rw [List.length_append, (tag_headerBytes t).1]
    rw [backPointerChain, ih, hlen, tagsLayout]
    conv_rhs => rw [(tag_headerBytes t).2]
    simp only [List.append_assoc]

/-- C1: with a sink that accepts every write and payloads of at most
2^31 - 12 bytes, the bytes in the sink after `WriteHeader` and the matching
tag writes in order are the 9-byte header, 4 zero bytes, and then for each tag
its 11-byte tag header, its payload and a 4-byte big-endian back-pointer equal
to `11 + len(payload)`; read as a chain, the back-pointer before the first
tag is 0 and the one before tag k+1 is the encoded length (header plus
payload) of tag k. -/
theorem writeFile_contents (f : File) (tags : List Tag) (hacc : f.Accepting)
    (hlen : ∀ t ∈ tags, t.payload.length ≤ 2 ^ 31 - 12) :
    (writeFile (NewSrsFlvEncoder f) tags).file.contents =
        f.contents ++ [0x46, 0x4C, 0x56, 0x01, 0x05, 0x00, 0x00, 0x00, 0x09] ++
          [0x00, 0x00, 0x00, 0x00] ++ tagsLayout tags ∧
    (writeFile (NewSrsFlvEncoder f) tags).file.contents =
        f.contents ++ [0x46, 0x4C, 0x56, 0x01, 0x05, 0x00, 0x00, 0x00, 0x09] ++
          backPointerChain 0 tags ∧
    ∀ t ∈ tags,
      t.bytes = t.headerBytes ++ t.payload ++ bigEndian 4 (11 + t.payload.length) ∧
      t.headerBytes.length = 11 ∧
      (t.headerBytes ++ t.payload).length = 11 + t.payload.length ∧
      fromBigEndian (bigEndian 4 (11 + t.payload.length)) = 11 + t.payload.length := by
  have hhead : (NewSrsFlvEncoder f).WriteHeader.2.file.Accepting ∧
      (NewSrsFlvEncoder f).WriteHeader.2.file.contents =
        f.contents ++ [0x46, 0x4C, 0x56, 0x01, 0x05, 0x00, 0x00, 0x00, 0x09] ++
          [0x00, 0x00, 0x00, 0x00] := by
    have hdata : (NewSrsFlvHeader true true).Data =
        [0x46, 0x4C, 0x56, 0x01, 0x05, 0x00, 0x00, 0x00, 0x09] := by decide
    have h0 := hacc f.writes.length
    have h1 := hacc (f.writes.length + 1)
    simp only [SrsFlvEncoder.WriteHeader, NewSrsFlvEncoder, File.Write, h0, hdata,
      List.length_append, List.length_singleton, h1]
    exact ⟨hacc, trivial⟩
  have hmain : (writeFile (NewSrsFlvEncoder f) tags).file.contents =
      f.contents ++ [0x46, 0x4C, 0x56, 0x01, 0x05, 0x00, 0x00, 0x00, 0x09] ++
        [0x00, 0x00, 0x00, 0x00] ++ tagsLayout tags := by
    rw [writeFile, foldl_writeTagOf_contents tags _ hhead.1, hhead.2]
  refine ⟨hmain, ?_, ?_⟩
  · rw [hmain, backPointerChain_eq]
    have hz : bigEndian 4 0 = [0x00, 0x00, 0x00, 0x00] := by decide
    rw [hz]
    simp only [List.append_assoc]
  · intro t ht
    have hl := hlen t ht
    refine ⟨(tag_headerBytes t).2, (tag_headerBytes t).1, ?_, ?_⟩
    · rw [List.length_append, (tag_headerBytes t).1]
    · exact fromBigEndian_bigEndian_of_lt (by norm_num; omega)

theorem writeFile_contents_witness :
    (File.mk [] [] (fun _ => none)).Accepting ∧
    (∀ t ∈ [Tag.mk .metadata 0 [0x02], Tag.mk .video 40 [0x17, 0x00]],
      t.payload.length ≤ 2 ^ 31 - 12) ∧
    (writeFile (NewSrsFlvEncoder (File.mk [] [] (fun _ => none)))
        [Tag.mk .metadata 0 [0x02], Tag.mk .video 40 [0x17, 0x00]]).file.contents =
      [] ++ [0x46, 0x4C, 0x56, 0x01, 0x05, 0x00, 0x00, 0x00, 0x09] ++
        backPointerChain 0 [Tag.mk .metadata 0 [0x02], Tag.mk .video 40 [0x17, 0x00]] ∧
    (Tag.mk .video 40 [0x17, 0x00] ∈
        [Tag.mk .metadata 0 [0x02], Tag.mk .video 40 [0x17, 0x00]] ∧
      fromBigEndian (bigEndian 4 (11 + (Tag.mk .video 40 [0x17, 0x00]).payload.length)) =
        11 + (Tag.mk .video 40 [0x17, 0x00]).payload.length) :=
  ⟨fun _ => rfl, by decide,
    (writeFile_contents (File.mk [] [] (fun _ => none))
      [Tag.mk .metadata 0 [0x02], Tag.mk .video 40 [0x17, 0x00]] (fun _ => rfl)
      (by decide)).2.1,
    by decide,
    ((writeFile_contents (File.mk [] [] (fun _ => none))
      [Tag.mk .metadata 0 [0x02], Tag.mk .video 40 [0x17, 0x00]] (fun _ => rfl)
      (by decide)).2.2 (Tag.mk .video 40 [0x17, 0x00]) (by decide)).2.2.2⟩

/-! ## Go maps -/

theorem lookupEntry_assignEntry {κ ν : Type} [DecidableEq κ] (m : List (κ × ν)) (k : κ) (v : ν)
    (k2 : κ) :
    lookupEntry (assignEntry m k v) k2 = if k = k2 then some v else lookupEntry m k2 := by
  induction m with
  | nil => simp [assignEntry, lookupEntry]
  | cons e rest ih =>
    obtain ⟨k1, v1⟩ := e
    by_cases h1 : k1 = k
    · subst h1
      by_cases h2 : k1 = k2 <;> simp [assignEntry, lookupEntry, h2]
    · by_cases h2 : k1 = k2
      · subst h2
        simp [assignEntry, lookupEntry, h1, Ne.symm h1]
      · simp [assignEntry, lookupEntry, h1, h2, ih]

theorem assignEntry_length {κ ν : Type} [DecidableEq κ] (m : List (κ × ν)) (k : κ) (v : ν) :
    (assignEntry m k v).length =
      if (lookupEntry m k).isSome then m.length else m.length + 1 := by
  induction m with
  | nil => simp [assignEntry, lookupEntry]
  | cons e rest ih =>
    obtain ⟨k1, v1⟩ := e
    by_cases h1 : k1 = k
    · simp [assignEntry, lookupEntry, h1]
    · simp only [assignEntry, lookupEntry, h1, if_false, List.length_cons, ih]
      split <;> rfl

theorem GoMap.get_set {κ ν : Type} [DecidableEq κ] (m : GoMap κ ν) (k : κ) (v : ν) (k2 : κ) :
    (m.set k v).get k2 = if k = k2 then some v else m.get k2 :=
  lookupEntry_assignEntry m.entries k v k2

theorem GoMap.len_set {κ ν : Type} [DecidableEq κ] (m : GoMap κ ν) (k : κ) (v : ν) :
    (m.set k v).len = if (m.get k).isSome then m.len else m.len + 1 :=
  assignEntry_length m.entries k v

/-! ## Registry: resolve-or-create -/

theorem createVHost_found {w : World} {req : SrsRequest} {vh : Nat}
    (h : w.statistic.rvhosts.get req.vhost = some vh) :
    SrsStatistic.createVHost w req = (vh, w) := by
  simp only [SrsStatistic.createVHost, h]

theorem createStream_found {w : World} {req : SrsRequest} {sp : Nat} (vh : Nat)
    (h : w.statistic.rstreams.get req.GetStreamUrl = some sp) :
    SrsStatistic.createStream w vh req = (sp, w) := by
  simp only [SrsStatistic.createStream, h]

theorem createVHost_absent {w : World} {req : SrsRequest}
    (h : w.statistic.rvhosts.get req.vhost = none) :
    SrsStatistic.createVHost w req =
      (w.vhostObjs.length,
        { w with
          vhostObjs := w.vhostObjs ++
            [{ id := w.idSeq w.idPos, vhost := req.vhost, nb_streams := 0, nb_clients := 0 }]
          statistic :=
            { w.statistic with
              rvhosts := w.statistic.rvhosts.set req.vhost w.vhostObjs.length
              vhosts := w.statistic.vhosts.set (w.idSeq w.idPos) w.vhostObjs.length }
          idPos := w.idPos + 1 }) := by
  simp only [SrsStatistic.createVHost, h, NewSrsStatisticVhost, SrsGenerateId]

theorem createStream_absent {w : World} {req : SrsRequest} (vh : Nat)
    (h : w.statistic.rstreams.get req.GetStreamUrl = none) :
    SrsStatistic.createStream w vh req =
      (w.streamObjs.length,
        { w with
          streamObjs := w.streamObjs ++
            [{ id := w.idSeq w.idPos, vhost := some vh, app := req.app, stream := req.stream,
               url := req.GetStreamUrl, active := false, connection_cid := -1,
               nb_clients := 0, nb_frames := 0, video := none, audio := none }]
          statistic :=
            { w.statistic with
              rstreams := w.statistic.rstreams.set req.GetStreamUrl w.streamObjs.length
              streams := w.statistic.streams.set (w.idSeq w.idPos) w.streamObjs.length }
          idPos := w.idPos + 1 }) := by
  simp only [SrsStatistic.createStream, h, NewSrsStatisticStream, SrsGenerateId]

theorem createVHost_registers (w : World) (req : SrsRequest) :
    (SrsStatistic.createVHost w req).2.statistic.rvhosts.get req.vhost =
      some (SrsStatistic.createVHost w req).1 := by
  cases h : w.statistic.rvhosts.get req.vhost with
  | none => simp [createVHost_absent h, GoMap.get_set]
  | some vh => simp [createVHost_found h, h]

theorem createStream_registers (w : World) (vh : Nat) (req : SrsRequest) :
    (SrsStatistic.createStream w vh req).2.statistic.rstreams.get req.GetStreamUrl =
      some (SrsStatistic.createStream w vh req).1 := by
  cases h : w.statistic.rstreams.get req.GetStreamUrl with
  | none => simp [createStream_absent vh h, GoMap.get_set]
  | some sp => simp [createStream_found vh h, h]

/-- C8: resolve-or-create is idempotent.  A second `createVHost` for the same
vhost name (resp. `createStream` for the same stream url, whatever vhost it is
handed) returns the pointer the first call returned and leaves the whole
state, both maps included, as the first call left it; a call for a name that
is present changes nothing; and a first call for an absent name, the id
source handing out an id that is not yet a key of the by-id map, adds exactly
one entry to the by-name map and one to the by-id map. -/
theorem resolveOrCreate_idempotent (w : World) (req req2 : SrsRequest) (vh vh2 : Nat) :
    (req2.vhost = req.vhost →
      SrsStatistic.createVHost (SrsStatistic.createVHost w req).2 req2 =
        SrsStatistic.createVHost w req) ∧
    (req2.GetStreamUrl = req.GetStreamUrl →
      SrsStatistic.createStream (SrsStatistic.createStream w vh req).2 vh2 req2 =
        SrsStatistic.createStream w vh req) ∧
    (w.statistic.rvhosts.get req.vhost ≠ none → (SrsStatistic.createVHost w req).2 = w) ∧
    (w.statistic.rstreams.get req.GetStreamUrl ≠ none →
      (SrsStatistic.createStream w vh req).2 = w) ∧
    (w.statistic.rvhosts.get req.vhost = none →
      w.statistic.vhosts.get (w.idSeq w.idPos) = none →
        (SrsStatistic.createVHost w req).2.statistic.rvhosts.len =
          w.statistic.rvhosts.len + 1 ∧
        (SrsStatistic.createVHost w req).2.statistic.vhosts.len =
          w.statistic.vhosts.len + 1 ∧
        (SrsStatistic.createVHost w req).2.statistic.vhosts.get (w.idSeq w.idPos) =
          some (SrsStatistic.createVHost w req).1) ∧
    (w.statistic.rstreams.get req.GetStreamUrl = none →
      w.statistic.streams.get (w.idSeq w.idPos) = none →
        (SrsStatistic.createStream w vh req).2.statistic.rstreams.len =
          w.statistic.rstreams.len + 1 ∧
        (SrsStatistic.createStream w vh req).2.statistic.streams.len =
          w.statistic.streams.len + 1 ∧
        (SrsStatistic.createStream w vh req).2.statistic.streams.get (w.idSeq w.idPos) =
          some (SrsStatistic.createStream w vh req).1) := by
  refine ⟨?_, ?_, ?_, ?_, ?_, ?_⟩
  · intro hname
    have h := createVHost_registers w req
    rw [← hname] at h
    exact createVHost_found h
  · intro hurl
    have h := createStream_registers w vh req
    rw [← hurl] at h
    exact createStream_found vh2 h
  · intro hpresent
    cases h : w.statistic.rvhosts.get req.vhost with
    | none => exact absurd h hpresent
    | some p => rw [createVHost_found h]
  · intro hpresent
    cases h : w.statistic.rstreams.get req.GetStreamUrl with
    | none => exact absurd h hpresent
    | some p => rw [createStream_found vh h]
  · intro habsent hfresh
    rw [createVHost_absent habsent]
    simp [GoMap.len_set, GoMap.get_set, habsent, hfresh]
  · intro habsent hfresh
    rw [createStream_absent vh habsent]
    simp [GoMap.len_set, GoMap.get_set, habsent, hfresh]

/-! ## Registry: the state reached by resolve-or-create -/

theorem wrapInt_range (n : Int) : -2 ^ 63 ≤ wrapInt n ∧ wrapInt n < 2 ^ 63 := by
  unfold wrapInt
  simp only []
  split <;> omega

theorem wrapInt_of_range {n : Int} (h1 : -2 ^ 63 ≤ n) (h2 : n < 2 ^ 63) : wrapInt n = n := by
  unfold wrapInt
  simp only []
  split <;> omega

theorem wrapInt_succ_pred {n : Int} (h1 : -2 ^ 63 ≤ n) (h2 : n < 2 ^ 63) :
    wrapInt (wrapInt (n + 1) - 1) = n := by
  unfold wrapInt
  simp only []
  split <;> split <;> omega

theorem nbStreams_append_zero (objs : List SrsStatisticVhost) (v : SrsStatisticVhost)
    (hv : v.nb_streams = 0) (p : Nat) :
    (match (objs ++ [v])[p]? with
      | none => (0 : Int)
      | some o => o.nb_streams) =
    (match objs[p]? with
      | none => (0 : Int)
      | some o => o.nb_streams) := by
  rcases Nat.lt_trichotomy p objs.length with h | h | h
  · rw [List.getElem?_append_left h]
  · subst h
    simp [hv]
  · rw [List.getElem?_eq_none (by simp; omega), List.getElem?_eq_none (by omega)]

theorem createVHost_spec {w : World} (hwf : w.WF) (req : SrsRequest) :
    (SrsStatistic.createVHost w req).2.WF ∧
    (SrsStatistic.createVHost w req).1 < (SrsStatistic.createVHost w req).2.vhostObjs.length ∧
    (∀ p, (SrsStatistic.createVHost w req).2.nbStreams p = w.nbStreams p) ∧
    (SrsStatistic.createVHost w req).2.streamObjs = w.streamObjs ∧
    (SrsStatistic.createVHost w req).2.statistic.rstreams = w.statistic.rstreams := by
  cases h : w.statistic.rvhosts.get req.vhost with
  | some vh =>
    rw [createVHost_found h]
    exact ⟨hwf, hwf.vhostPtr _ _ h, fun _ => rfl, rfl, rfl⟩
  | none =>
    rw [createVHost_absent h]
    refine ⟨⟨?_, ?_, ?_⟩, ?_, ?_, rfl, rfl⟩
    · intro k p hk
      simp only [GoMap.get_set] at hk
      show p < (w.vhostObjs ++ [_]).length
      rw [List.length_append, List.length_singleton]
      split at hk
      · simp only [Option.some.injEq] at hk
        omega
      · have := hwf.vhostPtr k p hk
        omega
    · intro k p hk
      obtain ⟨s, vp, hs, hv, hlt⟩ := hwf.streamPtr k p hk
      refine ⟨s, vp, hs, hv, ?_⟩
      show vp < (w.vhostObjs ++ [_]).length
      rw [List.length_append, List.length_singleton]
      omega
    · intro v hv
      simp only [List.mem_append, List.mem_singleton] at hv
      rcases hv with hv | hv
      · exact hwf.intRange v hv
      · subst hv
        simp
    · simp
    · intro p
      simp only [World.nbStreams]
      exact nbStreams_append_zero _ _ rfl p

theorem createStream_spec {w : World} (hwf : w.WF) {vh : Nat} (hvh : vh < w.vhostObjs.length)
    (req : SrsRequest) :
    (SrsStatistic.createStream w vh req).2.WF ∧
    (∃ s vp, (SrsStatistic.createStream w vh req).2.streamObjs[
        (SrsStatistic.createStream w vh req).1]? = some s ∧ s.vhost = some vp ∧
      vp < (SrsStatistic.createStream w vh req).2.vhostObjs.length) ∧
    (SrsStatistic.createStream w vh req).2.vhostObjs = w.vhostObjs ∧
    (SrsStatistic.createStream w vh req).2.statistic.rvhosts = w.statistic.rvhosts := by
  cases h : w.statistic.rstreams.get req.GetStreamUrl with
  | some sp =>
    rw [createStream_found vh h]
    exact ⟨hwf, hwf.streamPtr _ _ h, rfl, rfl⟩
  | none =>
    rw [createStream_absent vh h]
    refine ⟨⟨?_, ?_, ?_⟩, ?_, rfl, rfl⟩
    · intro k p hk
      exact hwf.vhostPtr k p hk
    · intro k p hk
      simp only [GoMap.get_set] at hk
      split at hk
      · simp only [Option.some.injEq] at hk
        subst hk
        exact ⟨_, vh, List.getElem?_concat_length _ _, rfl, hvh⟩
      · obtain ⟨s, vp, hs, hv, hlt⟩ := hwf.streamPtr k p hk
        have hp : p < w.streamObjs.length := by
          rcases Nat.lt_or_ge p w.streamObjs.length with hp | hp
          · exact hp
          · rw [List.getElem?_eq_none hp] at hs
            exact absurd hs (by simp)
        exact ⟨s, vp, by simp only [List.getElem?_append_left hp, hs], hv, hlt⟩
    · intro v hv
      exact hwf.intRange v hv
    · exact ⟨_, vh, List.getElem?_concat_length _ _, rfl, hvh⟩

theorem resolve_spec {w : World} (hwf : w.WF) (req : SrsRequest) :
    (resolve w req).2.WF ∧
    (∃ vp, Registered (resolve w req).2 req (resolve w req).1 vp) ∧
    (∀ p, (resolve w req).2.nbStreams p = w.nbStreams p) := by
  obtain ⟨hwf1, hlt1, hnb1, -, -⟩ := createVHost_spec hwf req
  obtain ⟨hwf2, ⟨s, vp, hs, hv, hlt2⟩, hobjs, hrv⟩ := createStream_spec hwf1 hlt1 req
  refine ⟨hwf2, ⟨vp, ⟨?_, ?_, ⟨s, hs, hv⟩, hlt2⟩⟩, ?_⟩
  · refine ⟨(SrsStatistic.createVHost w req).1, ?_⟩
    show (SrsStatistic.createStream _ _ req).2.statistic.rvhosts.get req.vhost = _
    rw [hrv]
    exact createVHost_registers w req
  · exact createStream_registers _ _ req
  · intro p
    rw [← hnb1 p]
    simp only [World.nbStreams, resolve, hobjs]

theorem resolve_registered {w : World} {req : SrsRequest} {sp vp : Nat}
    (h : Registered w req sp vp) : resolve w req = (sp, w) := by
  obtain ⟨vh, hvh⟩ := h.vhostKnown
  rw [resolve, createVHost_found hvh]
  exact createStream_found vh h.streamKnown

theorem lt_of_getElem?_eq_some {α : Type} {l : List α} {i : Nat} {a : α}
    (h : l[i]? = some a) : i < l.length := by
  rcases Nat.lt_or_ge i l.length with hi | hi
  · exact hi
  · rw [List.getElem?_eq_none hi] at h
    exact absurd h (by simp)

theorem nbStreams_range {w : World} (hwf : w.WF) {vp : Nat} (hvp : vp < w.vhostObjs.length) :
    -2 ^ 63 ≤ w.nbStreams vp ∧ w.nbStreams vp < 2 ^ 63 := by
  simp only [World.nbStreams, List.getElem?_eq_getElem hvp]
  exact hwf.intRange _ (List.getElem_mem hvp)

theorem onStreamPublish_unfold (w : World) (req : SrsRequest) (cid : Int) :
    SrsStatistic.OnStreamPublish w req cid =
      match SrsStatisticStream.Publish (resolve w req).2 (resolve w req).1 cid with
      | none => none
      | some w1 => some (none, w1) := rfl

/-! ## Registry: publish, codec info, close on a registered stream -/

theorem publish_spec {w : World} {req : SrsRequest} {sp vp : Nat}
    (h : Registered w req sp vp) (cid : Int) :
    ∃ w1, SrsStatisticStream.Publish w sp cid = some w1 ∧ Registered w1 req sp vp ∧
      w1.nbStreams vp = wrapInt (w.nbStreams vp + 1) ∧
      ∃ s, w1.streamObjs[sp]? = some s ∧ s.active = true ∧ s.connection_cid = cid ∧
        s.vhost = some vp := by
  obtain ⟨s, hs, hv⟩ := h.streamObj
  have hsp := lt_of_getElem?_eq_some hs
  have hvp : vp < w.vhostObjs.length := h.vhostObj
  have hvo : w.vhostObjs[vp]? = some w.vhostObjs[vp] := List.getElem?_eq_getElem hvp
  simp only [SrsStatisticStream.Publish, hs, hv, hvo]
  refine ⟨_, rfl, ⟨h.vhostKnown, h.streamKnown, ?_, ?_⟩, ?_, ?_⟩
  · exact ⟨_, List.getElem?_set_self hsp, rfl⟩
  · show vp < (w.vhostObjs.set vp _).length
    rw [List.length_set]
    exact h.vhostObj
  · simp only [World.nbStreams, List.getElem?_set_self h.vhostObj, hvo]
  · exact ⟨_, List.getElem?_set_self hsp, rfl, rfl, rfl⟩

theorem close_spec {w : World} {req : SrsRequest} {sp vp : Nat}
    (h : Registered w req sp vp) :
    ∃ w1, SrsStatisticStream.Close w sp = some w1 ∧ Registered w1 req sp vp ∧
      w1.nbStreams vp = wrapInt (w.nbStreams vp - 1) ∧
      ∃ s, w1.streamObjs[sp]? = some s ∧ s.video = none ∧ s.audio = none ∧
        s.vhost = some vp := by
  obtain ⟨s, hs, hv⟩ := h.streamObj
  have hsp := lt_of_getElem?_eq_some hs
  have hvp : vp < w.vhostObjs.length := h.vhostObj
  have hvo : w.vhostObjs[vp]? = some w.vhostObjs[vp] := List.getElem?_eq_getElem hvp
  simp only [SrsStatisticStream.Close, hs, hv, hvo]
  refine ⟨_, rfl, ⟨h.vhostKnown, h.streamKnown, ?_, ?_⟩, ?_, ?_⟩
  · exact ⟨_, List.getElem?_set_self hsp, rfl⟩
  · show vp < (w.vhostObjs.set vp _).length
    rw [List.length_set]
    exact h.vhostObj
  · simp only [World.nbStreams, List.getElem?_set_self h.vhostObj, hvo]
  · exact ⟨_, List.getElem?_set_self hsp, rfl, rfl, rfl⟩

theorem infoCall_spec {w : World} {req : SrsRequest} {sp vp : Nat}
    (h : Registered w req sp vp) (c : InfoCall) :
    ∃ w1, c.run w req = some (none, w1) ∧ Registered w1 req sp vp ∧
      w1.vhostObjs = w.vhostObjs := by
  obtain ⟨s, hs, hv⟩ := h.streamObj
  obtain ⟨vh, hvh⟩ := h.vhostKnown
  have hsp := lt_of_getElem?_eq_some hs
  cases c with
  | video vcodec avc_profile avc_level =>
    simp only [InfoCall.run, SrsStatistic.OnVideoInfo, createVHost_found hvh,
      createStream_found vh h.streamKnown, hs]
    exact ⟨_, rfl, ⟨⟨vh, hvh⟩, h.streamKnown, ⟨_, List.getElem?_set_self hsp, hv⟩,
      h.vhostObj⟩, rfl⟩
  | audio acodec asample_rate asound_type aac_object =>
    simp only [InfoCall.run, SrsStatistic.OnAudioInfo, createVHost_found hvh,
      createStream_found vh h.streamKnown, hs]
    exact ⟨_, rfl, ⟨⟨vh, hvh⟩, h.streamKnown, ⟨_, List.getElem?_set_self hsp, hv⟩,
      h.vhostObj⟩, rfl⟩

theorem runInfoCalls_spec {req : SrsRequest} {sp vp : Nat} (calls : List InfoCall) :
    ∀ w : World, Registered w req sp vp →
      ∃ w1, runInfoCalls w req calls = some w1 ∧ Registered w1 req sp vp ∧
        w1.vhostObjs = w.vhostObjs := by
  induction calls with
  | nil => intro w h; exact ⟨w, rfl, h, rfl⟩
  | cons c rest ih =>
    intro w h
    obtain ⟨w1, hrun, hreg, hobjs⟩ := infoCall_spec h c
    obtain ⟨w2, hrun2, hreg2, hobjs2⟩ := ih w1 hreg
    refine ⟨w2, ?_, hreg2, hobjs2.trans hobjs⟩
    simp only [runInfoCalls, hrun, hrun2]

theorem streamAt_registered {w : World} {req : SrsRequest} {sp vp : Nat}
    (h : Registered w req sp vp) : w.streamAt req.GetStreamUrl = w.streamObjs[sp]? := by
  simp only [World.streamAt, h.streamKnown]

/-! ## Registry: well-formedness is kept by every mutator -/

theorem wf_set_stream {w : World} (hwf : w.WF) {sp : Nat} {s : SrsStatisticStream}
    (hs : w.streamObjs[sp]? = some s) (s1 : SrsStatisticStream) (hv : s1.vhost = s.vhost) :
    ({ w with streamObjs := w.streamObjs.set sp s1 } : World).WF := by
  have hsp := lt_of_getElem?_eq_some hs
  refine ⟨hwf.vhostPtr, ?_, hwf.intRange⟩
  intro k p hk
  obtain ⟨s0, vp0, hs0, hv0, hlt0⟩ := hwf.streamPtr k p hk
  by_cases hp : sp = p
  · subst hp
    rw [hs] at hs0
    simp only [Option.some.injEq] at hs0
    subst hs0
    exact ⟨s1, vp0, List.getElem?_set_self hsp, hv.trans hv0, hlt0⟩
  · exact ⟨s0, vp0, (List.getElem?_set_ne hp).trans hs0, hv0, hlt0⟩

theorem wf_set_vhost {w : World} (hwf : w.WF) (vp : Nat) (v1 : SrsStatisticVhost)
    (hr : -2 ^ 63 ≤ v1.nb_streams ∧ v1.nb_streams < 2 ^ 63) :
    ({ w with vhostObjs := w.vhostObjs.set vp v1 } : World).WF := by
  refine ⟨?_, ?_, ?_⟩
  · intro k p hk
    show p < (w.vhostObjs.set vp v1).length
    rw [List.length_set]
    exact hwf.vhostPtr k p hk
  · intro k p hk
    obtain ⟨s0, vp0, hs0, hv0, hlt0⟩ := hwf.streamPtr k p hk
    refine ⟨s0, vp0, hs0, hv0, ?_⟩
    show vp0 < (w.vhostObjs.set vp v1).length
    rw [List.length_set]
    exact hlt0
  · intro v hv
    rcases List.mem_or_eq_of_mem_set hv with h | h
    · exact hwf.intRange v h
    · subst h
      exact hr

theorem wf_set_both {w : World} (hwf : w.WF) {sp : Nat} {s : SrsStatisticStream}
    (hs : w.streamObjs[sp]? = some s) (s1 : SrsStatisticStream) (hv : s1.vhost = s.vhost)
    (vp : Nat) (v1 : SrsStatisticVhost)
    (hr : -2 ^ 63 ≤ v1.nb_streams ∧ v1.nb_streams < 2 ^ 63) :
    ({ w with
        streamObjs := w.streamObjs.set sp s1
        vhostObjs := w.vhostObjs.set vp v1 } : World).WF :=
  wf_set_vhost (wf_set_stream hwf hs s1 hv) vp v1 hr

theorem registryOp_wf {w : World} (hwf : w.WF) (op : RegistryOp) :
    ∃ w1, op.run w = some (none, w1) ∧ w1.WF := by
  cases op with
  | publish req cid =>
    obtain ⟨hwf1, ⟨vp, hreg⟩, -⟩ := resolve_spec hwf req
    obtain ⟨s, hs, hv⟩ := hreg.streamObj
    have hvp : vp < (resolve w req).2.vhostObjs.length := hreg.vhostObj
    have hvo := List.getElem?_eq_getElem hvp
    simp only [RegistryOp.run, onStreamPublish_unfold, SrsStatisticStream.Publish, hs, hv, hvo]
    refine ⟨_, rfl, wf_set_both hwf1 hs _ ?_ vp _ (wrapInt_range _)⟩
    exact hv.symm
  | close req cid =>
    obtain ⟨hwf1, ⟨vp, hreg⟩, -⟩ := resolve_spec hwf req
    obtain ⟨s, hs, hv⟩ := hreg.streamObj
    have hvp : vp < (resolve w req).2.vhostObjs.length := hreg.vhostObj
    have hvo := List.getElem?_eq_getElem hvp
    have hunfold : SrsStatistic.OnStreamClose w req cid =
        match SrsStatisticStream.Close (resolve w req).2 (resolve w req).1 with
        | none => none
        | some w1 => some (none, w1) := rfl
    simp only [RegistryOp.run, hunfold, SrsStatisticStream.Close, hs, hv, hvo]
    refine ⟨_, rfl, wf_set_both hwf1 hs _ ?_ vp _ (wrapInt_range _)⟩
    exact hv.symm
  | videoInfo req vcodec avc_profile avc_level =>
    obtain ⟨hwf1, ⟨vp, hreg⟩, -⟩ := resolve_spec hwf req
    obtain ⟨s, hs, hv⟩ := hreg.streamObj
    have hunfold : SrsStatistic.OnVideoInfo w req vcodec avc_profile avc_level =
        match (resolve w req).2.streamObjs[(resolve w req).1]? with
        | none => none
        | some s =>
          let v := NewSrsStatisticStreamVideo vcodec avc_profile avc_level
          some (none, { (resolve w req).2 with
            streamObjs := (resolve w req).2.streamObjs.set (resolve w req).1
              { s with video := some v } }) := rfl
    simp only [RegistryOp.run, hunfold, hs]
    exact ⟨_, rfl, wf_set_stream hwf1 hs _ rfl⟩
  | audioInfo req acodec asample_rate asound_type aac_object =>
    obtain ⟨hwf1, ⟨vp, hreg⟩, -⟩ := resolve_spec hwf req
    obtain ⟨s, hs, hv⟩ := hreg.streamObj
    have hunfold : SrsStatistic.OnAudioInfo w req acodec asample_rate asound_type aac_object =
        match (resolve w req).2.streamObjs[(resolve w req).1]? with
        | none => none
        | some s =>
          let a := NewSrsStatisticStreamAudio acodec asample_rate asound_type aac_object
          some (none, { (resolve w req).2 with
            streamObjs := (resolve w req).2.streamObjs.set (resolve w req).1
              { s with audio := some a } }) := rfl
    simp only [RegistryOp.run, hunfold, hs]
    exact ⟨_, rfl, wf_set_stream hwf1 hs _ rfl⟩
  | videoFrames req nb_frames =>
    obtain ⟨hwf1, ⟨vp, hreg⟩, -⟩ := resolve_spec hwf req
    obtain ⟨s, hs, hv⟩ := hreg.streamObj
    have hunfold : SrsStatistic.OnVideoFrames w req nb_frames =
        match (resolve w req).2.streamObjs[(resolve w req).1]? with
        | none => none
        | some s =>
          some (none, { (resolve w req).2 with
            streamObjs := (resolve w req).2.streamObjs.set (resolve w req).1
              { s with nb_frames := (s.nb_frames + nb_frames) % 2 ^ 64 } }) := rfl
    simp only [RegistryOp.run, hunfold, hs]
    exact ⟨_, rfl, wf_set_stream hwf1 hs _ rfl⟩

theorem runOps_wf (ops : List RegistryOp) :
    ∀ w : World, w.WF → ∃ w1, runOps w ops = some w1 ∧ w1.WF := by
  induction ops with
  | nil => intro w hwf; exact ⟨w, rfl, hwf⟩
  | cons op rest ih =>
    intro w hwf
    obtain ⟨w1, hrun, hwf1⟩ := registryOp_wf hwf op
    obtain ⟨w2, hrun2, hwf2⟩ := ih w1 hwf1
    exact ⟨w2, by simp only [runOps, hrun, hrun2], hwf2⟩

theorem fresh_wf (ids : Nat → Int) : (World.fresh ids).WF := by
  refine ⟨?_, ?_, ?_⟩
  · intro k p h
    simp [World.fresh, GetStatisticInstance, GoMap.make, GoMap.get, lookupEntry] at h
  · intro k p h
    simp [World.fresh, GetStatisticInstance, GoMap.make, GoMap.get, lookupEntry] at h
  · intro v hv
    simp [World.fresh] at hv

theorem reachable_wf (ids : Nat → Int) (ops : List RegistryOp) :
    ∃ w, runOps (World.fresh ids) ops = some w ∧ w.WF :=
  runOps_wf ops _ (fresh_wf ids)

theorem saturatedWorld_wf : saturatedWorld.WF := by
  refine ⟨?_, ?_, ?_⟩
  · intro k p h
    simp only [saturatedWorld, GoMap.get, lookupEntry] at h
    split at h
    · simp only [Option.some.injEq] at h
      subst h
      decide
    · exact absurd h (by simp)
  · intro k p h
    simp only [saturatedWorld, GoMap.get, lookupEntry] at h
    split at h
    · simp only [Option.some.injEq] at h
      subst h
      exact ⟨_, 0, rfl, rfl, by decide⟩
    · exact absurd h (by simp)
  · intro v hv
    simp only [saturatedWorld, List.mem_singleton] at hv
    subst hv
    decide

/-! ## Registry: publish and close -/

theorem resolveOrCreate_idempotent_witness :
    (liveRequest.vhost = liveRequest.vhost ∧
      SrsStatistic.createVHost
          (SrsStatistic.createVHost (World.fresh fun n => (n : Int) + 1) liveRequest).2
          liveRequest =
        SrsStatistic.createVHost (World.fresh fun n => (n : Int) + 1) liveRequest) ∧
    (liveRequest.GetStreamUrl = liveRequest.GetStreamUrl ∧
      SrsStatistic.createStream
          (SrsStatistic.createStream (World.fresh fun n => (n : Int) + 1) 0 liveRequest).2 5
          liveRequest =
        SrsStatistic.createStream (World.fresh fun n => (n : Int) + 1) 0 liveRequest) ∧
    (saturatedWorld.statistic.rvhosts.get liveRequest.vhost ≠ none ∧
      (SrsStatistic.createVHost saturatedWorld liveRequest).2 = saturatedWorld) ∧
    (saturatedWorld.statistic.rstreams.get liveRequest.GetStreamUrl ≠ none ∧
      (SrsStatistic.createStream saturatedWorld 0 liveRequest).2 = saturatedWorld) ∧
    ((World.fresh fun n => (n : Int) + 1).statistic.rvhosts.get liveRequest.vhost = none ∧
      (World.fresh fun n => (n : Int) + 1).statistic.vhosts.get
          ((World.fresh fun n => (n : Int) + 1).idSeq
            (World.fresh fun n => (n : Int) + 1).idPos) = none ∧
      (SrsStatistic.createVHost (World.fresh fun n => (n : Int) + 1)
          liveRequest).2.statistic.rvhosts.len =
        (World.fresh fun n => (n : Int) + 1).statistic.rvhosts.len + 1 ∧
      (SrsStatistic.createVHost (World.fresh fun n => (n : Int) + 1)
          liveRequest).2.statistic.vhosts.len =
        (World.fresh fun n => (n : Int) + 1).statistic.vhosts.len + 1) ∧
    ((World.fresh fun n => (n : Int) + 1).statistic.rstreams.get liveRequest.GetStreamUrl =
        none ∧
      (World.fresh fun n => (n : Int) + 1).statistic.streams.get
          ((World.fresh fun n => (n : Int) + 1).idSeq
            (World.fresh fun n => (n : Int) + 1).idPos) = none ∧
      (SrsStatistic.createStream (World.fresh fun n => (n : Int) + 1) 0
          liveRequest).2.statistic.rstreams.len =
        (World.fresh fun n => (n : Int) + 1).statistic.rstreams.len + 1 ∧
      (SrsStatistic.createStream (World.fresh fun n => (n : Int) + 1) 0
          liveRequest).2.statistic.streams.len =
        (World.fresh fun n => (n : Int) + 1).statistic.streams.len + 1) :=
  ⟨⟨rfl, (resolveOrCreate_idempotent (World.fresh fun n => (n : Int) + 1) liveRequest
      liveRequest 0 5).1 rfl⟩,
    ⟨rfl, (resolveOrCreate_idempotent (World.fresh fun n => (n : Int) + 1) liveRequest
      liveRequest 0 5).2.1 rfl⟩,
    ⟨by decide, (resolveOrCreate_idempotent saturatedWorld liveRequest liveRequest 0 5).2.2.1
      (by decide)⟩,
    ⟨by decide, (resolveOrCreate_idempotent saturatedWorld liveRequest liveRequest 0 5).2.2.2.1
      (by decide)⟩,
    ⟨rfl, rfl,
      ((resolveOrCreate_idempotent (World.fresh fun n => (n : Int) + 1) liveRequest
        liveRequest 0 5).2.2.2.2.1 rfl rfl).1,
      ((resolveOrCreate_idempotent (World.fresh fun n => (n : Int) + 1) liveRequest
        liveRequest 0 5).2.2.2.2.1 rfl rfl).2.1⟩,
    ⟨rfl, rfl,
      ((resolveOrCreate_idempotent (World.fresh fun n => (n : Int) + 1) liveRequest
        liveRequest 0 5).2.2.2.2.2 rfl rfl).1,
      ((resolveOrCreate_idempotent (World.fresh fun n => (n : Int) + 1) liveRequest
        liveRequest 0 5).2.2.2.2.2 rfl rfl).2.1⟩⟩

/-- C9, as the code has it: on a well-formed registry `OnStreamPublish(req, cid)`
returns no error, the stream registered under the request's url exists, is
active and records `cid`, its owning vhost exists, and that vhost's
`nb_streams` is the old value plus one in Go `int` arithmetic: exactly one
more than before, except that the largest `int`, 2^63 - 1, wraps to -2^63.
The old value is 0 for a vhost the call itself creates. -/
theorem onStreamPublish_spec (w : World) (req : SrsRequest) (cid : Int) (hwf : w.WF) :
    ∃ w1 s vp, SrsStatistic.OnStreamPublish w req cid = some (none, w1) ∧
      w1.streamAt req.GetStreamUrl = some s ∧ s.active = true ∧ s.connection_cid = cid ∧
      s.vhost = some vp ∧ vp < w1.vhostObjs.length ∧
      w1.nbStreams vp = wrapInt (w.nbStreams vp + 1) ∧
      w1.nbStreams vp =
        if w.nbStreams vp = 2 ^ 63 - 1 then -2 ^ 63 else w.nbStreams vp + 1 := by
  obtain ⟨hwf1, ⟨vp, hreg⟩, hnb⟩ := resolve_spec hwf req
  obtain ⟨w1, hpub, hreg1, hcount, s, hs, hactive, hcid, hvhost⟩ := publish_spec hreg cid
  have hrange := nbStreams_range hwf1 hreg.vhostObj
  rw [hnb vp] at hrange
  refine ⟨w1, s, vp, ?_, ?_, hactive, hcid, hvhost, hreg1.vhostObj, ?_, ?_⟩
  · rw [onStreamPublish_unfold, hpub]
  · rw [streamAt_registered hreg1, hs]
  · rw [hcount, hnb vp]
  · rw [hcount, hnb vp]
    unfold wrapInt
    simp only []
    split <;> split <;> omega

theorem onStreamPublish_spec_witness :
    (World.fresh fun n => (n : Int) + 1).WF ∧
    ∃ w1 s vp,
      SrsStatistic.OnStreamPublish (World.fresh fun n => (n : Int) + 1) liveRequest 7 =
        some (none, w1) ∧
      w1.streamAt liveRequest.GetStreamUrl = some s ∧ s.active = true ∧
      s.connection_cid = 7 ∧ s.vhost = some vp ∧ vp < w1.vhostObjs.length ∧
      w1.nbStreams vp = wrapInt ((World.fresh fun n => (n : Int) + 1).nbStreams vp + 1) ∧
      w1.nbStreams vp =
        if (World.fresh fun n => (n : Int) + 1).nbStreams vp = 2 ^ 63 - 1 then -2 ^ 63
        else (World.fresh fun n => (n : Int) + 1).nbStreams vp + 1 :=
  ⟨fresh_wf _, onStreamPublish_spec _ liveRequest 7 (fresh_wf _)⟩

-- On the well-formed registry `saturatedWorld`, whose vhost has
-- `nb_streams = 2^63 - 1`, `OnStreamPublish` leaves `nb_streams` at `-2^63`,
-- which is not one more than before.
theorem publishAddsOne_counterexample :
    saturatedWorld.WF ∧ ¬ PublishAddsOne saturatedWorld liveRequest 7 := by
  refine ⟨saturatedWorld_wf, ?_⟩
  rintro ⟨w1, s, vp, hrun, hs, -, -, hv, hcount⟩
  have hcalc : (SrsStatistic.OnStreamPublish saturatedWorld liveRequest 7).map
      (fun r => ((r.2.streamAt "live/app/s1").map (fun s => s.vhost), r.2.nbStreams 0)) =
      some (some (some 0), -2 ^ 63) := by decide
  rw [hrun] at hcalc
  simp only [Option.map_some', Option.some.injEq, Prod.mk.injEq] at hcalc
  obtain ⟨hvh, hnb⟩ := hcalc
  have hurl : liveRequest.GetStreamUrl = "live/app/s1" := rfl
  rw [hurl] at hs
  rw [hs] at hvh
  simp only [Option.map_some', Option.some.injEq] at hvh
  rw [hv] at hvh
  simp only [Option.some.injEq] at hvh
  subst hvh
  rw [hnb] at hcount
  have hold : saturatedWorld.nbStreams 0 = 2 ^ 63 - 1 := by decide
  rw [hold] at hcount
  exact absurd hcount (by decide)

/-- C10: on a well-formed registry, `OnStreamPublish(req, cid)`, then any
`OnVideoInfo`/`OnAudioInfo` calls for the same request, then
`OnStreamClose(req, cid)` return no error and leave the stream registered
under the request's url with both descriptors absent, and the `nb_streams` of
its owning vhost equal to its value before the publish (0 for a vhost the
publish created). -/
theorem publishThenClose_spec (w : World) (req : SrsRequest) (cid : Int)
    (calls : List InfoCall) (hwf : w.WF) :
    ∃ w1 s vp, publishThenClose w req cid calls = some (none, w1) ∧
      w1.streamAt req.GetStreamUrl = some s ∧ s.video = none ∧ s.audio = none ∧
      s.vhost = some vp ∧ vp < w1.vhostObjs.length ∧
      w1.nbStreams vp = w.nbStreams vp := by
  obtain ⟨hwf1, ⟨vp, hreg⟩, hnb⟩ := resolve_spec hwf req
  obtain ⟨w2, hpub, hreg2, hcount2, -⟩ := publish_spec hreg cid
  obtain ⟨w3, hinfo, hreg3, hobjs3⟩ := runInfoCalls_spec calls w2 hreg2
  obtain ⟨w4, hclose, hreg4, hcount4, s, hs, hvideo, haudio, hvhost⟩ := close_spec hreg3
  obtain ⟨vh, hvh⟩ := hreg3.vhostKnown
  have hrange := nbStreams_range hwf1 hreg.vhostObj
  refine ⟨w4, s, vp, ?_, ?_, hvideo, haudio, hvhost, hreg4.vhostObj, ?_⟩
  · simp only [publishThenClose, onStreamPublish_unfold, hpub, hinfo,
      SrsStatistic.OnStreamClose, createVHost_found hvh,
      createStream_found vh hreg3.streamKnown, hclose]
  · rw [streamAt_registered hreg4, hs]
  · have h32 : w3.nbStreams vp = w2.nbStreams vp := by
      simp only [World.nbStreams, hobjs3]
    rw [hcount4, h32, hcount2, wrapInt_succ_pred hrange.1 hrange.2, hnb vp]

theorem publishThenClose_spec_witness :
    (World.fresh fun n => (n : Int) + 1).WF ∧
    ∃ w1 s vp,
      publishThenClose (World.fresh fun n => (n : Int) + 1) liveRequest 7
        [InfoCall.video 7 100 31, InfoCall.audio 10 3 1 2] = some (none, w1) ∧
      w1.streamAt liveRequest.GetStreamUrl = some s ∧ s.video = none ∧ s.audio = none ∧
      s.vhost = some vp ∧ vp < w1.vhostObjs.length ∧
      w1.nbStreams vp = (World.fresh fun n => (n : Int) + 1).nbStreams vp :=
  ⟨fresh_wf _, publishThenClose_spec _ liveRequest 7
    [InfoCall.video 7 100 31, InfoCall.audio 10 3 1 2] (fresh_wf _)⟩

/-! ## Registry: what resolve-or-create leaves alone -/

theorem createVHost_streams (w : World) (req : SrsRequest) :
    (SrsStatistic.createVHost w req).2.streamObjs = w.streamObjs ∧
    (SrsStatistic.createVHost w req).2.statistic.rstreams = w.statistic.rstreams ∧
    (SrsStatistic.createVHost w req).2.statistic.streams = w.statistic.streams ∧
    ∀ (p : Nat) (v : SrsStatisticVhost), w.vhostObjs[p]? = some v →
      (SrsStatistic.createVHost w req).2.vhostObjs[p]? = some v := by
  cases h : w.statistic.rvhosts.get req.vhost with
  | some vh =>
    rw [createVHost_found h]
    exact ⟨rfl, rfl, rfl, fun _ _ hv => hv⟩
  | none =>
    rw [createVHost_absent h]
    refine ⟨rfl, rfl, rfl, ?_⟩
    intro p v hv
    show (w.vhostObjs ++ [_])[p]? = some v
    rw [List.getElem?_append_left (lt_of_getElem?_eq_some hv)]
    exact hv

theorem createStream_kept (w : World) (vh : Nat) (req : SrsRequest) :
    (SrsStatistic.createStream w vh req).2.vhostObjs = w.vhostObjs ∧
    ∀ (p : Nat) (s : SrsStatisticStream), w.streamObjs[p]? = some s →
      (SrsStatistic.createStream w vh req).2.streamObjs[p]? = some s := by
  cases h : w.statistic.rstreams.get req.GetStreamUrl with
  | some sp =>
    rw [createStream_found vh h]
    exact ⟨rfl, fun _ _ hs => hs⟩
  | none =>
    rw [createStream_absent vh h]
    refine ⟨rfl, ?_⟩
    intro p s hs
    show (w.streamObjs ++ [_])[p]? = some s
    rw [List.getElem?_append_left (lt_of_getElem?_eq_some hs)]
    exact hs

theorem resolve_kept (w : World) (req : SrsRequest) :
    (∀ (p : Nat) (s : SrsStatisticStream), w.streamObjs[p]? = some s →
      (resolve w req).2.streamObjs[p]? = some s) ∧
    (∀ (p : Nat) (v : SrsStatisticVhost), w.vhostObjs[p]? = some v →
      (resolve w req).2.vhostObjs[p]? = some v) := by
  obtain ⟨hso, -, -, hvo⟩ := createVHost_streams w req
  obtain ⟨hvo2, hso2⟩ := createStream_kept (SrsStatistic.createVHost w req).2
    (SrsStatistic.createVHost w req).1 req
  constructor
  · intro p s hs
    apply hso2
    rw [hso]
    exact hs
  · intro p v hv
    show (SrsStatistic.createStream _ _ req).2.vhostObjs[p]? = some v
    rw [hvo2]
    exact hvo p v hv

theorem streamAt_none_iff {w : World} (hwf : w.WF) (url : String) :
    w.streamAt url = none ↔ w.statistic.rstreams.get url = none := by
  cases h : w.statistic.rstreams.get url with
  | none => simp [World.streamAt, h]
  | some sp =>
    obtain ⟨s, vp, hs, -, -⟩ := hwf.streamPtr url sp h
    simp [World.streamAt, h, hs]

theorem resolve_stream {w : World} (hwf : w.WF) (req : SrsRequest) :
    ∃ s0 vp, (resolve w req).2.streamObjs[(resolve w req).1]? = some s0 ∧
      Registered (resolve w req).2 req (resolve w req).1 vp ∧ s0.vhost = some vp ∧
      (∀ s, w.streamAt req.GetStreamUrl = some s → s0 = s) ∧
      (w.streamAt req.GetStreamUrl = none → ∃ id vh, s0 = createdStream id vh req) := by
  obtain ⟨-, ⟨vp, hreg⟩, -⟩ := resolve_spec hwf req
  obtain ⟨s0, hs0, hv0⟩ := hreg.streamObj
  obtain ⟨hso, hrs, -, -⟩ := createVHost_streams w req
  refine ⟨s0, vp, hs0, hreg, hv0, ?_, ?_⟩
  · intro s hs
    cases h : w.statistic.rstreams.get req.GetStreamUrl with
    | none => simp [World.streamAt, h] at hs
    | some sp =>
      have hfound : resolve w req = (sp, (SrsStatistic.createVHost w req).2) := by
        rw [resolve]
        exact createStream_found _ (by rw [hrs]; exact h)
      rw [hfound] at hs0
      simp only [World.streamAt, h] at hs
      rw [hso, hs] at hs0
      exact (Option.some.inj hs0).symm
  · intro hnone
    have h := (streamAt_none_iff hwf _).1 hnone
    have habsent : (SrsStatistic.createVHost w req).2.statistic.rstreams.get
        req.GetStreamUrl = none := by rw [hrs]; exact h
    have hnew := createStream_absent (SrsStatistic.createVHost w req).1 habsent
    rw [resolve, hnew] at hs0
    rw [List.getElem?_concat_length] at hs0
    exact ⟨_, _, (Option.some.inj hs0).symm⟩

theorem onStreamClose_unfold (w : World) (req : SrsRequest) (cid : Int) :
    SrsStatistic.OnStreamClose w req cid =
      match SrsStatisticStream.Close (resolve w req).2 (resolve w req).1 with
      | none => none
      | some w1 => some (none, w1) := rfl

theorem onVideoInfo_unfold (w : World) (req : SrsRequest) (vcodec avc_profile avc_level : Int) :
    SrsStatistic.OnVideoInfo w req vcodec avc_profile avc_level =
      match (resolve w req).2.streamObjs[(resolve w req).1]? with
      | none => none
      | some s =>
        let v := NewSrsStatisticStreamVideo vcodec avc_profile avc_level
        some (none, { (resolve w req).2 with
          streamObjs := (resolve w req).2.streamObjs.set (resolve w req).1
            { s with video := some v } }) := rfl

theorem onAudioInfo_unfold (w : World) (req : SrsRequest)
    (acodec asample_rate asound_type aac_object : Int) :
    SrsStatistic.OnAudioInfo w req acodec asample_rate asound_type aac_object =
      match (resolve w req).2.streamObjs[(resolve w req).1]? with
      | none => none
      | some s =>
        let a := NewSrsStatisticStreamAudio acodec asample_rate asound_type aac_object
        some (none, { (resolve w req).2 with
          streamObjs := (resolve w req).2.streamObjs.set (resolve w req).1
            { s with audio := some a } }) := rfl

theorem onVideoFrames_unfold (w : World) (req : SrsRequest) (nb_frames : Nat) :
    SrsStatistic.OnVideoFrames w req nb_frames =
      match (resolve w req).2.streamObjs[(resolve w req).1]? with
      | none => none
      | some s =>
        some (none, { (resolve w req).2 with
          streamObjs := (resolve w req).2.streamObjs.set (resolve w req).1
            { s with nb_frames := (s.nb_frames + nb_frames) % 2 ^ 64 } }) := rfl

/-! ## Registry: the active flag and the stream counter -/

/-- C11, evaluated: on a fresh registry `OnStreamPublish` for `live/app/s1` sets
the stream's `active` flag, and `OnStreamClose` for the same request returns
no error and leaves the flag true, where the claim has it false after a
close: `Close` clears the two descriptors and decrements the counter but
never writes `active`. -/
theorem close_leaves_active :
    (SrsStatistic.OnStreamPublish (World.fresh fun n => (n : Int) + 1) liveRequest 7).map
        (fun r => (r.1, (r.2.streamAt "live/app/s1").map fun s => s.active)) =
      some (none, some true) ∧
    (publishThenClose (World.fresh fun n => (n : Int) + 1) liveRequest 7 []).map
        (fun r => (r.1, (r.2.streamAt "live/app/s1").map fun s => s.active)) =
      some (none, some true) := by
  constructor <;> decide

theorem publishTwiceCountsOnce_counterexample :
    ¬ PublishTwiceCountsOnce (fun n => (n : Int) + 1) liveRequest liveRequest 7 8 := by
  rintro ⟨w, hrun, -, -, hcount⟩
  have hcalc : (runOps (World.fresh fun n => (n : Int) + 1)
      [.publish liveRequest 7, .publish liveRequest 8]).map (fun w => w.nbStreams 0) =
      some 2 := by decide
  rw [hrun] at hcalc
  simp only [Option.map_some', Option.some.injEq] at hcalc
  rw [hcount] at hcalc
  exact absurd hcalc (by decide)

/-- C12, as the code has it: on a fresh registry, two `OnStreamPublish` calls
for the same vhost name and stream url, one after the other (whatever the two
connection ids, hence in either order), both return no error and leave
exactly one stream object and one vhost object, one entry in each of the four
maps, the stream owned by that vhost, and `nb_streams = 2` on it: every
publish increments the counter. -/
theorem publishTwice_spec (ids : Nat → Int) (req1 req2 : SrsRequest) (cid1 cid2 : Int)
    (hvhost : req2.vhost = req1.vhost) (hurl : req2.GetStreamUrl = req1.GetStreamUrl) :
    ∃ w, runOps (World.fresh ids) [.publish req1 cid1, .publish req2 cid2] = some w ∧
      w.streamObjs.length = 1 ∧ w.vhostObjs.length = 1 ∧
      w.statistic.rvhosts.len = 1 ∧ w.statistic.vhosts.len = 1 ∧
      w.statistic.rstreams.len = 1 ∧ w.statistic.streams.len = 1 ∧
      (w.streamAt req1.GetStreamUrl).map (fun s => s.vhost) = some (some 0) ∧
      w.nbStreams 0 = 2 := by
  have h1 : SrsStatistic.OnStreamPublish (World.fresh ids) req1 cid1 =
      some (none,
        { vhostObjs := [{ id := ids 0, vhost := req1.vhost, nb_streams := 1, nb_clients := 0 }]
          streamObjs := [{ createdStream (ids 1) 0 req1 with
            connection_cid := cid1, active := true }]
          clientObjs := []
          statistic :=
            { vhosts := ⟨[(ids 0, 0)]⟩
              rvhosts := ⟨[(req1.vhost, 0)]⟩
              streams := ⟨[(ids 1, 0)]⟩
              rstreams := ⟨[(req1.GetStreamUrl, 0)]⟩
              clients := ⟨[]⟩ }
          idSeq := ids
          idPos := 2 }) := rfl
  simp only [runOps, RegistryOp.run, h1]
  have hv : GoMap.get (⟨[(req1.vhost, 0)]⟩ : GoMap String Nat) req2.vhost = some 0 := by
    simp [GoMap.get, lookupEntry, hvhost]
  have hs : GoMap.get (⟨[(req1.GetStreamUrl, 0)]⟩ : GoMap String Nat) req2.GetStreamUrl =
      some 0 := by
    simp [GoMap.get, lookupEntry, hurl]
  have h2 : ∀ w1 : World, w1.statistic.rvhosts = ⟨[(req1.vhost, 0)]⟩ →
      w1.statistic.rstreams = ⟨[(req1.GetStreamUrl, 0)]⟩ → resolve w1 req2 = (0, w1) := by
    intro w1 hrv hrs
    rw [resolve, createVHost_found (by rw [hrv]; exact hv)]
    exact createStream_found 0 (by rw [hrs]; exact hs)
  have hwrap : wrapInt (1 + 1) = 2 := by decide
  rw [onStreamPublish_unfold, h2 _ rfl rfl]
  refine ⟨_, rfl, rfl, rfl, rfl, rfl, rfl, rfl, ?_, ?_⟩
  · simp [World.streamAt, GoMap.get, lookupEntry, createdStream]
  · exact hwrap

theorem publishTwice_spec_witness :
    liveRequest.vhost = liveRequest.vhost ∧
    liveRequest.GetStreamUrl = liveRequest.GetStreamUrl ∧
    ∃ w, runOps (World.fresh fun n => (n : Int) + 1)
        [.publish liveRequest 7, .publish liveRequest 8] = some w ∧
      w.streamObjs.length = 1 ∧ w.vhostObjs.length = 1 ∧
      w.statistic.rvhosts.len = 1 ∧ w.statistic.vhosts.len = 1 ∧
      w.statistic.rstreams.len = 1 ∧ w.statistic.streams.len = 1 ∧
      (w.streamAt liveRequest.GetStreamUrl).map (fun s => s.vhost) = some (some 0) ∧
      w.nbStreams 0 = 2 :=
  ⟨rfl, rfl, publishTwice_spec (fun n => (n : Int) + 1) liveRequest liveRequest 7 8 rfl rfl⟩

/-! ## Registry: codec info and frame counts -/

/-- C13: on a well-formed registry `OnVideoInfo(req, c, p, l)` returns no
error and leaves the stream registered under the request's url with video
descriptor exactly `(c, p, l)` and every other field as it was (for a
stream the call itself creates: as `createStream` made it); every vhost
object that existed is unchanged and every `nb_streams` is what it was.
`OnAudioInfo` does the same with the audio descriptor and its four
arguments. -/
theorem onInfo_frame (w : World) (req : SrsRequest)
    (vcodec avc_profile avc_level acodec asample_rate asound_type aac_object : Int)
    (hwf : w.WF) :
    (∃ w1 s0,
      SrsStatistic.OnVideoInfo w req vcodec avc_profile avc_level = some (none, w1) ∧
      w1.streamAt req.GetStreamUrl =
        some { s0 with video := some ⟨vcodec, avc_profile, avc_level⟩ } ∧
      (∀ s, w.streamAt req.GetStreamUrl = some s → s0 = s) ∧
      (w.streamAt req.GetStreamUrl = none → ∃ id vh, s0 = createdStream id vh req) ∧
      (∀ (p : Nat) (v : SrsStatisticVhost), w.vhostObjs[p]? = some v →
        w1.vhostObjs[p]? = some v) ∧
      (∀ p, w1.nbStreams p = w.nbStreams p)) ∧
    (∃ w1 s0,
      SrsStatistic.OnAudioInfo w req acodec asample_rate asound_type aac_object =
        some (none, w1) ∧
      w1.streamAt req.GetStreamUrl =
        some { s0 with audio := some ⟨acodec, asample_rate, asound_type, aac_object⟩ } ∧
      (∀ s, w.streamAt req.GetStreamUrl = some s → s0 = s) ∧
      (w.streamAt req.GetStreamUrl = none → ∃ id vh, s0 = createdStream id vh req) ∧
      (∀ (p : Nat) (v : SrsStatisticVhost), w.vhostObjs[p]? = some v →
        w1.vhostObjs[p]? = some v) ∧
      (∀ p, w1.nbStreams p = w.nbStreams p)) := by
  obtain ⟨s0, vp, hs0, hreg, -, hex, hnew⟩ := resolve_stream hwf req
  obtain ⟨-, -, hnb⟩ := resolve_spec hwf req
  have hsp := lt_of_getElem?_eq_some hs0
  constructor
  · rw [onVideoInfo_unfold]
    simp only [hs0]
    refine ⟨_, s0, rfl, ?_, hex, hnew, (resolve_kept w req).2, hnb⟩
    simp only [World.streamAt, hreg.streamKnown, List.getElem?_set_self hsp,
      NewSrsStatisticStreamVideo]
  · rw [onAudioInfo_unfold]
    simp only [hs0]
    refine ⟨_, s0, rfl, ?_, hex, hnew, (resolve_kept w req).2, hnb⟩
    simp only [World.streamAt, hreg.streamKnown, List.getElem?_set_self hsp,
      NewSrsStatisticStreamAudio]

theorem onInfo_frame_witness :
    (World.fresh fun n => (n : Int) + 1).WF ∧
    ∃ w1 s0,
      SrsStatistic.OnVideoInfo (World.fresh fun n => (n : Int) + 1) liveRequest 7 100 31 =
        some (none, w1) ∧
      w1.streamAt liveRequest.GetStreamUrl = some { s0 with video := some ⟨7, 100, 31⟩ } ∧
      (∀ s, (World.fresh fun n => (n : Int) + 1).streamAt liveRequest.GetStreamUrl = some s →
        s0 = s) ∧
      ((World.fresh fun n => (n : Int) + 1).streamAt liveRequest.GetStreamUrl = none →
        ∃ id vh, s0 = createdStream id vh liveRequest) ∧
      (∀ (p : Nat) (v : SrsStatisticVhost),
        (World.fresh fun n => (n : Int) + 1).vhostObjs[p]? = some v →
          w1.vhostObjs[p]? = some v) ∧
      (∀ p, w1.nbStreams p = (World.fresh fun n => (n : Int) + 1).nbStreams p) :=
  ⟨fresh_wf _, (onInfo_frame _ liveRequest 7 100 31 10 3 1 2 (fresh_wf _)).1⟩

theorem onVideoFrames_step {w : World} (hwf : w.WF) (req : SrsRequest) (n : Nat) :
    ∃ w1 s0, SrsStatistic.OnVideoFrames w req n = some (none, w1) ∧ w1.WF ∧
      w1.streamAt req.GetStreamUrl =
        some { s0 with nb_frames := (s0.nb_frames + n) % 2 ^ 64 } ∧
      (∀ s, w.streamAt req.GetStreamUrl = some s → s0 = s) ∧
      (w.streamAt req.GetStreamUrl = none → ∃ id vh, s0 = createdStream id vh req) := by
  obtain ⟨s0, vp, hs0, hreg, -, hex, hnew⟩ := resolve_stream hwf req
  obtain ⟨hwf1, -, -⟩ := resolve_spec hwf req
  have hsp := lt_of_getElem?_eq_some hs0
  rw [onVideoFrames_unfold]
  simp only [hs0]
  refine ⟨_, s0, rfl, wf_set_stream hwf1 hs0 _ rfl, ?_, hex, hnew⟩
  simp only [World.streamAt, hreg.streamKnown, List.getElem?_set_self hsp]

/-- C14: on a well-formed registry `OnVideoFrames(req, n)` returns no error and
sets the stream's `nb_frames` to `(old + n) mod 2^64`, every other field
staying as it was, where `old` is 0 for a stream the call itself creates; so
after `OnVideoFrames(req, a)` and `OnVideoFrames(req, b)` on a new stream
`nb_frames = (a + b) mod 2^64`.  The counter is an unsigned 64-bit number,
never negative. -/
theorem onVideoFrames_spec (w : World) (req : SrsRequest) (n a b : Nat) (hwf : w.WF) :
    (∃ w1 s0 s1, SrsStatistic.OnVideoFrames w req n = some (none, w1) ∧
      w1.streamAt req.GetStreamUrl = some s1 ∧
      s1 = { s0 with nb_frames := (s0.nb_frames + n) % 2 ^ 64 } ∧
      (∀ s, w.streamAt req.GetStreamUrl = some s → s0 = s) ∧
      (w.streamAt req.GetStreamUrl = none → s0.nb_frames = 0) ∧
      s1.nb_frames < 2 ^ 64 ∧ (0 : Int) ≤ (s1.nb_frames : Int)) ∧
    (w.streamAt req.GetStreamUrl = none →
      ∃ w1 w2 s2, SrsStatistic.OnVideoFrames w req a = some (none, w1) ∧
        SrsStatistic.OnVideoFrames w1 req b = some (none, w2) ∧
        w2.streamAt req.GetStreamUrl = some s2 ∧ s2.nb_frames = (a + b) % 2 ^ 64) := by
  constructor
  · obtain ⟨w1, s0, hrun, -, hat, hex, hnew⟩ := onVideoFrames_step hwf req n
    refine ⟨w1, s0, _, hrun, hat, rfl, hex, ?_, ?_, ?_⟩
    · intro hnone
      obtain ⟨id, vh, hs⟩ := hnew hnone
      rw [hs]
      rfl
    · exact Nat.mod_lt _ (by norm_num)
    · exact Int.natCast_nonneg _
  · intro hnone
    obtain ⟨w1, s0, hrun1, hwf1, hat1, -, hnew1⟩ := onVideoFrames_step hwf req a
    obtain ⟨w2, s1, hrun2, -, hat2, hex2, -⟩ := onVideoFrames_step hwf1 req b
    obtain ⟨id, vh, hs0⟩ := hnew1 hnone
    have hs1 := hex2 _ hat1
    refine ⟨w1, w2, _, hrun1, hrun2, hat2, ?_⟩
    rw [hs1, hs0]
    show ((0 + a) % 2 ^ 64 + b) % 2 ^ 64 = (a + b) % 2 ^ 64
    omega

theorem onVideoFrames_spec_witness :
    (World.fresh fun n => (n : Int) + 1).WF ∧
    (World.fresh fun n => (n : Int) + 1).streamAt liveRequest.GetStreamUrl = none ∧
    ∃ w1 w2 s2,
      SrsStatistic.OnVideoFrames (World.fresh fun n => (n : Int) + 1) liveRequest
        (2 ^ 64 - 1) = some (none, w1) ∧
      SrsStatistic.OnVideoFrames w1 liveRequest 3 = some (none, w2) ∧
      w2.streamAt liveRequest.GetStreamUrl = some s2 ∧
      s2.nb_frames = (2 ^ 64 - 1 + 3) % 2 ^ 64 :=
  ⟨fresh_wf _, rfl,
    (onVideoFrames_spec _ liveRequest 0 (2 ^ 64 - 1) 3 (fresh_wf _)).2 rfl⟩

/-! ## Registry: lookups by id -/

theorem lookupEntry_eq_none_iff {κ ν : Type} [DecidableEq κ] (m : List (κ × ν)) (k : κ) :
    lookupEntry m k = none ↔ ∀ e ∈ m, e.1 ≠ k := by
  induction m with
  | nil => simp [lookupEntry]
  | cons e rest ih =>
    obtain ⟨k1, v1⟩ := e
    by_cases h : k1 = k
    · simp [lookupEntry, h]
    · simp [lookupEntry, h, ih]

theorem lookupEntry_mem {κ ν : Type} [DecidableEq κ] (m : List (κ × ν)) (k : κ) (v : ν)
    (h : lookupEntry m k = some v) : (k, v) ∈ m := by
  induction m with
  | nil => simp [lookupEntry] at h
  | cons e rest ih =>
    obtain ⟨k1, v1⟩ := e
    by_cases hk : k1 = k
    · simp only [lookupEntry, hk, if_true, Option.some.injEq] at h
      simp [hk, h]
    · simp only [lookupEntry, hk, if_false] at h
      exact List.mem_cons_of_mem _ (ih h)

theorem publish_created {w : World} {req : SrsRequest} (cid : Int)
    (hv : w.statistic.rvhosts.get req.vhost = none)
    (hs : w.statistic.rstreams.get req.GetStreamUrl = none) :
    SrsStatistic.OnStreamPublish w req cid = some (none,
      { w with
        vhostObjs := w.vhostObjs ++
          [{ id := w.idSeq w.idPos, vhost := req.vhost, nb_streams := wrapInt (0 + 1),
             nb_clients := 0 }]
        streamObjs := w.streamObjs ++
          [{ createdStream (w.idSeq (w.idPos + 1)) w.vhostObjs.length req with
             connection_cid := cid, active := true }]
        statistic :=
          { w.statistic with
            rvhosts := w.statistic.rvhosts.set req.vhost w.vhostObjs.length
            vhosts := w.statistic.vhosts.set (w.idSeq w.idPos) w.vhostObjs.length
            rstreams := w.statistic.rstreams.set req.GetStreamUrl w.streamObjs.length
            streams := w.statistic.streams.set (w.idSeq (w.idPos + 1)) w.streamObjs.length }
        idPos := w.idPos + 1 + 1 }) := by
  have hres : resolve w req = SrsStatistic.createStream (SrsStatistic.createVHost w req).2
      (SrsStatistic.createVHost w req).1 req := rfl
  have hrs := (createVHost_streams w req).2.1
  have hnew := @createStream_absent (SrsStatistic.createVHost w req).2 req
    (SrsStatistic.createVHost w req).1 (by rw [hrs]; exact hs)
  rw [onStreamPublish_unfold, hres, hnew, createVHost_absent hv]
  simp [SrsStatisticStream.Publish, createdStream]

/-- C15: `FindVHost`, `FindStream` and `FindClient` are total: each returns
what the by-id map holds under the id, which is `nil` exactly when the id is
not a key of that map and otherwise the pointer stored under it.  On a fresh
registry every lookup returns `nil`; and after an `OnStreamPublish` that
creates the stream and its vhost, `FindStream` of the created stream's id
returns that stream and `FindVHost` of its vhost's id returns that vhost. -/
theorem find_spec (w : World) (id : Int) (ids : Nat → Int) (req : SrsRequest) (cid : Int) :
    (SrsStatistic.FindVHost w id = w.statistic.vhosts.get id ∧
      (SrsStatistic.FindVHost w id = none ↔ ∀ e ∈ w.statistic.vhosts.entries, e.1 ≠ id) ∧
      (∀ p, SrsStatistic.FindVHost w id = some p → (id, p) ∈ w.statistic.vhosts.entries)) ∧
    (SrsStatistic.FindStream w id = w.statistic.streams.get id ∧
      (SrsStatistic.FindStream w id = none ↔ ∀ e ∈ w.statistic.streams.entries, e.1 ≠ id) ∧
      (∀ p, SrsStatistic.FindStream w id = some p → (id, p) ∈ w.statistic.streams.entries)) ∧
    (SrsStatistic.FindClient w id = w.statistic.clients.get id ∧
      (SrsStatistic.FindClient w id = none ↔ ∀ e ∈ w.statistic.clients.entries, e.1 ≠ id) ∧
      (∀ p, SrsStatistic.FindClient w id = some p → (id, p) ∈ w.statistic.clients.entries)) ∧
    (SrsStatistic.FindVHost (World.fresh ids) id = none ∧
      SrsStatistic.FindStream (World.fresh ids) id = none ∧
      SrsStatistic.FindClient (World.fresh ids) id = none) ∧
    (w.statistic.rvhosts.get req.vhost = none →
      w.statistic.rstreams.get req.GetStreamUrl = none →
      ∃ w1 sp vp s v, SrsStatistic.OnStreamPublish w req cid = some (none, w1) ∧
        w1.statistic.rstreams.get req.GetStreamUrl = some sp ∧
        w1.streamObjs[sp]? = some s ∧ s.vhost = some vp ∧ w1.vhostObjs[vp]? = some v ∧
        SrsStatistic.FindStream w1 s.id = some sp ∧
        SrsStatistic.FindVHost w1 v.id = some vp) := by
  have hfind : ∀ (m : GoMap Int Nat),
      (match m.get id with
        | none => (none : Option Nat)
        | some v => some v) = m.get id := by
    intro m
    cases m.get id <;> rfl
  refine ⟨⟨hfind _, ?_, ?_⟩, ⟨hfind _, ?_, ?_⟩, ⟨hfind _, ?_, ?_⟩, ⟨rfl, rfl, rfl⟩, ?_⟩
  · rw [SrsStatistic.FindVHost, hfind]
    exact lookupEntry_eq_none_iff _ _
  · intro p hp
    rw [SrsStatistic.FindVHost, hfind] at hp
    exact lookupEntry_mem _ _ _ hp
  · rw [SrsStatistic.FindStream, hfind]
    exact lookupEntry_eq_none_iff _ _
  · intro p hp
    rw [SrsStatistic.FindStream, hfind] at hp
    exact lookupEntry_mem _ _ _ hp
  · rw [SrsStatistic.FindClient, hfind]
    exact lookupEntry_eq_none_iff _ _
  · intro p hp
    rw [SrsStatistic.FindClient, hfind] at hp
    exact lookupEntry_mem _ _ _ hp
  · intro hv hs
    refine ⟨_, w.streamObjs.length, w.vhostObjs.length, _, _, publish_created cid hv hs, ?_,
      List.getElem?_concat_length _ _, rfl, List.getElem?_concat_length _ _, ?_, ?_⟩
    · simp [GoMap.get_set]
    · simp [SrsStatistic.FindStream, GoMap.get_set, createdStream]
    · simp [SrsStatistic.FindVHost, GoMap.get_set]

theorem find_spec_witness :
    (World.fresh fun n => (n : Int) + 1).statistic.rvhosts.get liveRequest.vhost = none ∧
    (World.fresh fun n => (n : Int) + 1).statistic.rstreams.get liveRequest.GetStreamUrl =
      none ∧
    ∃ w1 sp vp s v,
      SrsStatistic.OnStreamPublish (World.fresh fun n => (n : Int) + 1) liveRequest 7 =
        some (none, w1) ∧
      w1.statistic.rstreams.get liveRequest.GetStreamUrl = some sp ∧
      w1.streamObjs[sp]? = some s ∧ s.vhost = some vp ∧ w1.vhostObjs[vp]? = some v ∧
      SrsStatistic.FindStream w1 s.id = some sp ∧
      SrsStatistic.FindVHost w1 v.id = some vp :=
  ⟨rfl, rfl,
    (find_spec (World.fresh fun n => (n : Int) + 1) 1 (fun n => (n : Int) + 1) liveRequest
      7).2.2.2.2 rfl rfl⟩

/-! ## Registry: what identifies a stream never changes -/

theorem registryOp_effect {w : World} (hwf : w.WF) (op : RegistryOp) :
    ∃ w1 s0 s1, op.run w = some (none, w1) ∧ w1.WF ∧
      (resolve w op.req).2.streamObjs[(resolve w op.req).1]? = some s0 ∧
      w1.streamObjs = (resolve w op.req).2.streamObjs.set (resolve w op.req).1 s1 ∧
      s1.identity = s0.identity := by
  cases op with
  | publish req cid =>
    obtain ⟨hwf1, ⟨vp, hreg⟩, -⟩ := resolve_spec hwf req
    obtain ⟨s, hs, hv⟩ := hreg.streamObj
    have hvp : vp < (resolve w req).2.vhostObjs.length := hreg.vhostObj
    have hvo := List.getElem?_eq_getElem hvp
    simp only [RegistryOp.run, RegistryOp.req, onStreamPublish_unfold,
      SrsStatisticStream.Publish, hs, hv, hvo]
    refine ⟨_, s, _, rfl, wf_set_both hwf1 hs _ ?_ vp _ (wrapInt_range _), rfl, rfl, ?_⟩
    · exact hv.symm
    · simp only [SrsStatisticStream.identity, hv]
  | close req cid =>
    obtain ⟨hwf1, ⟨vp, hreg⟩, -⟩ := resolve_spec hwf req
    obtain ⟨s, hs, hv⟩ := hreg.streamObj
    have hvp : vp < (resolve w req).2.vhostObjs.length := hreg.vhostObj
    have hvo := List.getElem?_eq_getElem hvp
    simp only [RegistryOp.run, RegistryOp.req, onStreamClose_unfold,
      SrsStatisticStream.Close, hs, hv, hvo]
    refine ⟨_, s, _, rfl, wf_set_both hwf1 hs _ ?_ vp _ (wrapInt_range _), rfl, rfl, ?_⟩
    · exact hv.symm
    · simp only [SrsStatisticStream.identity, hv]
  | videoInfo req vcodec avc_profile avc_level =>
    obtain ⟨hwf1, ⟨vp, hreg⟩, -⟩ := resolve_spec hwf req
    obtain ⟨s, hs, hv⟩ := hreg.streamObj
    simp only [RegistryOp.run, RegistryOp.req, onVideoInfo_unfold, hs]
    exact ⟨_, s, _, rfl, wf_set_stream hwf1 hs _ rfl, rfl, rfl, rfl⟩
  | audioInfo req acodec asample_rate asound_type aac_object =>
    obtain ⟨hwf1, ⟨vp, hreg⟩, -⟩ := resolve_spec hwf req
    obtain ⟨s, hs, hv⟩ := hreg.streamObj
    simp only [RegistryOp.run, RegistryOp.req, onAudioInfo_unfold, hs]
    exact ⟨_, s, _, rfl, wf_set_stream hwf1 hs _ rfl, rfl, rfl, rfl⟩
  | videoFrames req nb_frames =>
    obtain ⟨hwf1, ⟨vp, hreg⟩, -⟩ := resolve_spec hwf req
    obtain ⟨s, hs, hv⟩ := hreg.streamObj
    simp only [RegistryOp.run, RegistryOp.req, onVideoFrames_unfold, hs]
    exact ⟨_, s, _, rfl, wf_set_stream hwf1 hs _ rfl, rfl, rfl, rfl⟩

theorem registryOp_identity {w : World} (hwf : w.WF) (op : RegistryOp) :
    ∃ w1, op.run w = some (none, w1) ∧ w1.WF ∧
      ∀ (p : Nat) (s : SrsStatisticStream), w.streamObjs[p]? = some s →
        ∃ s1, w1.streamObjs[p]? = some s1 ∧ s1.identity = s.identity := by
  obtain ⟨w1, s0, s1, hrun, hwf1, hs0, hobjs, hid⟩ := registryOp_effect hwf op
  refine ⟨w1, hrun, hwf1, ?_⟩
  intro p s hs
  have hkept := (resolve_kept w op.req).1 p s hs
  rw [hobjs]
  by_cases hp : (resolve w op.req).1 = p
  · rw [hp] at hs0
    rw [hs0] at hkept
    rw [hp, List.getElem?_set_self (lt_of_getElem?_eq_some hs0)]
    exact ⟨s1, rfl, by rw [hid, Option.some.inj hkept]⟩
  · rw [List.getElem?_set_ne hp]
    exact ⟨s, hkept, rfl⟩

/-- C16: a stream's vhost reference is set when `createStream` creates the
stream (to the vhost it is handed) and never reassigned: on a well-formed
registry every sequence of `OnStreamPublish`, `OnStreamClose`, `OnVideoInfo`,
`OnAudioInfo` and `OnVideoFrames` calls runs to the end, and every stream that
existed before it has the same vhost reference, id, app, stream name and url
after it. -/
theorem streamIdentity_kept (w : World) (ops : List RegistryOp) (vh : Nat)
    (req : SrsRequest) (hwf : w.WF) :
    (∃ w1, runOps w ops = some w1 ∧
      ∀ (p : Nat) (s : SrsStatisticStream), w.streamObjs[p]? = some s →
        ∃ s1, w1.streamObjs[p]? = some s1 ∧ s1.vhost = s.vhost ∧ s1.id = s.id ∧
          s1.app = s.app ∧ s1.stream = s.stream ∧ s1.url = s.url) ∧
    (w.statistic.rstreams.get req.GetStreamUrl = none →
      ∃ s, (SrsStatistic.createStream w vh req).2.streamObjs[
          (SrsStatistic.createStream w vh req).1]? = some s ∧
        s.vhost = some vh ∧ w.streamObjs[(SrsStatistic.createStream w vh req).1]? = none) := by
  constructor
  · have hseq : ∀ (ops : List RegistryOp) (w : World), w.WF →
        ∃ w1, runOps w ops = some w1 ∧
          ∀ (p : Nat) (s : SrsStatisticStream), w.streamObjs[p]? = some s →
            ∃ s1, w1.streamObjs[p]? = some s1 ∧ s1.identity = s.identity := by
      intro ops
      induction ops with
      | nil => intro w _; exact ⟨w, rfl, fun p s hs => ⟨s, hs, rfl⟩⟩
      | cons op rest ih =>
        intro w hwf
        obtain ⟨w1, hrun, hwf1, hkeep⟩ := registryOp_identity hwf op
        obtain ⟨w2, hrun2, hkeep2⟩ := ih w1 hwf1
        refine ⟨w2, by simp only [runOps, hrun, hrun2], ?_⟩
        intro p s hs
        obtain ⟨s1, hs1, hid1⟩ := hkeep p s hs
        obtain ⟨s2, hs2, hid2⟩ := hkeep2 p s1 hs1
        exact ⟨s2, hs2, hid2.trans hid1⟩
    obtain ⟨w1, hrun, hkeep⟩ := hseq ops w hwf
    refine ⟨w1, hrun, ?_⟩
    intro p s hs
    obtain ⟨s1, hs1, hid⟩ := hkeep p s hs
    simp only [SrsStatisticStream.identity, Prod.mk.injEq] at hid
    exact ⟨s1, hs1, hid.2.1, hid.1, hid.2.2.1, hid.2.2.2.1, hid.2.2.2.2⟩
  · intro habsent
    rw [createStream_absent vh habsent]
    exact ⟨_, List.getElem?_concat_length _ _, rfl, List.getElem?_eq_none (Nat.le_refl _)⟩

theorem streamIdentity_kept_witness :
    saturatedWorld.WF ∧
    (∃ w1, runOps saturatedWorld
        [.close liveRequest 7, .videoInfo liveRequest 7 100 31, .publish liveRequest 9,
          .videoFrames liveRequest 25] = some w1 ∧
      ∀ (p : Nat) (s : SrsStatisticStream), saturatedWorld.streamObjs[p]? = some s →
        ∃ s1, w1.streamObjs[p]? = some s1 ∧ s1.vhost = s.vhost ∧ s1.id = s.id ∧
          s1.app = s.app ∧ s1.stream = s.stream ∧ s1.url = s.url) ∧
    ((World.fresh fun n => (n : Int) + 1).statistic.rstreams.get liveRequest.GetStreamUrl =
        none ∧
      ∃ s, (SrsStatistic.createStream (World.fresh fun n => (n : Int) + 1) 4
            liveRequest).2.streamObjs[
          (SrsStatistic.createStream (World.fresh fun n => (n : Int) + 1) 4
            liveRequest).1]? = some s ∧
        s.vhost = some 4 ∧
        (World.fresh fun n => (n : Int) + 1).streamObjs[
          (SrsStatistic.createStream (World.fresh fun n => (n : Int) + 1) 4
            liveRequest).1]? = none) :=
  ⟨saturatedWorld_wf,
    (streamIdentity_kept saturatedWorld
      [.close liveRequest 7, .videoInfo liveRequest 7 100 31, .publish liveRequest 9,
        .videoFrames liveRequest 25] 0 liveRequest saturatedWorld_wf).1,
    rfl,
    (streamIdentity_kept (World.fresh fun n => (n : Int) + 1) [] 4 liveRequest
      (fresh_wf _)).2 rfl⟩

/-! ## AMF0 String -/

theorem putUint16_bigEndian (n : Nat) :
    UInt16ToBytes (n % 2 ^ 16) ByteOrder.BigEndian = bigEndian 2 n := by
  simp only [UInt16ToBytes, ByteOrder.PutUint16, bigEndian, Nat.shiftRight_eq_div_pow,
    List.nil_append, List.cons_append, List.cons.injEq, and_true]
  and_intros <;> omega

theorem bigEndian2_eq (n : Nat) : bigEndian 2 n = [n / 256 % 256, n % 256] := by
  simp [bigEndian]

theorem uint16_of_bigEndian {n : Nat} (h : n ≤ 65535) :
    ByteOrder.BigEndian.Uint16 (n / 256 % 256) (n % 256) = n := by
  have hlo : n % 256 < 2 ^ 8 := by omega
  simp only [ByteOrder.Uint16]
  rw [Nat.or_comm, Nat.shiftLeft_eq, Nat.mul_comm, ← Nat.mul_add_lt_is_or hlo]
  omega

theorem amf0String_encode (v : List Nat) (stream : SrsStream) :
    (NewSrsAmf0String v).Encode stream =
      (none, ⟨stream.data ++ ([0x02] ++ bigEndian 2 v.length ++ v), stream.pos⟩) := by
  simp only [SrsAmf0String.Encode, SrsAmf0Utf8.Encode, NewSrsAmf0String, SrsStream.WriteByte,
    SrsStream.WriteBytes, putUint16_bigEndian, List.append_assoc]

theorem amf0Utf8_decode (this : SrsAmf0Utf8) (pre v rest : List Nat) (hlen : v.length ≤ 65535) :
    this.Decode ⟨pre ++ (bigEndian 2 v.length ++ v) ++ rest, pre.length⟩ =
      (none, ⟨v⟩, ⟨pre ++ (bigEndian 2 v.length ++ v) ++ rest, pre.length + 2 + v.length⟩) := by
  have hlen2 : pre.length + 2 ≤ (pre ++ (bigEndian 2 v.length ++ v) ++ rest).length := by
    simp only [List.length_append, bigEndian_length]
    omega
  have hslice : slice (pre ++ (bigEndian 2 v.length ++ v) ++ rest) pre.length
      (pre.length + 2) = bigEndian 2 v.length := by
    simp only [slice, List.append_assoc]
    rw [List.take_append_eq_append_take, List.drop_append_eq_append_drop]
    simp [bigEndian2_eq]
  have hlen3 : pre.length + 2 + v.length ≤
      (pre ++ (bigEndian 2 v.length ++ v) ++ rest).length := by
    simp only [List.length_append, bigEndian_length]
    omega
  have hslice2 : slice (pre ++ (bigEndian 2 v.length ++ v) ++ rest) (pre.length + 2)
      (pre.length + 2 + v.length) = v := by
    have hpre : (pre ++ bigEndian 2 v.length).length = pre.length + 2 := by
      simp [bigEndian_length]
    have hsplit : pre ++ (bigEndian 2 v.length ++ v) ++ rest =
        (pre ++ bigEndian 2 v.length) ++ (v ++ rest) := by
      simp only [List.append_assoc]
    rw [slice, hsplit, ← hpre, List.take_append, List.drop_left]
    simp
  have hword : BytesToUInt16 (bigEndian 2 v.length) ByteOrder.BigEndian = (v.length, none) := by
    rw [bigEndian2_eq]
    simp only [BytesToUInt16, uint16_of_bigEndian hlen]
  simp only [SrsAmf0Utf8.Decode, SrsStream.ReadBytes, hlen2, if_true, hslice, hword, hlen3,
    hslice2]

theorem amf0String_decode (this : SrsAmf0String) (v rest : List Nat)
    (hlen : v.length ≤ 65535) :
    this.Decode ⟨[0x02] ++ bigEndian 2 v.length ++ v ++ rest, 0⟩ =
      (none, NewSrsAmf0String v,
        ⟨[0x02] ++ bigEndian 2 v.length ++ v ++ rest, 1 + 2 + v.length⟩) := by
  have hdata : [0x02] ++ bigEndian 2 v.length ++ v ++ rest =
      [0x02] ++ (bigEndian 2 v.length ++ v) ++ rest := by
    simp only [List.append_assoc]
  have hutf := amf0Utf8_decode this.Value [0x02] v rest hlen
  have hread : SrsStream.ReadByte ⟨[0x02] ++ (bigEndian 2 v.length ++ v) ++ rest, 0⟩ =
      ((0x02, none), ⟨[0x02] ++ (bigEndian 2 v.length ++ v) ++ rest, [0x02].length⟩) := by
    simp [SrsStream.ReadByte]
  rw [hdata]
  simp only [SrsAmf0String.Decode, hread, hutf, NewSrsAmf0String]
  simp

/-- C17: for every string `v` of at most 65535 bytes, `Encode` of
`NewSrsAmf0String(v)` onto an empty stream writes the marker `0x02`, the
2-byte big-endian length and the bytes of `v`, and returns no error; `Decode`
of any `SrsAmf0String` on the produced bytes returns no error, leaves the
receiver with `Value = v`, and moves the cursor past exactly the `3 + len(v)`
bytes `Encode` wrote, also when more bytes follow them. -/
theorem amf0String_roundtrip (v rest : List Nat) (this : SrsAmf0String)
    (hlen : v.length ≤ 65535) :
    (NewSrsAmf0String v).Encode ⟨[], 0⟩ = (none, ⟨[0x02] ++ bigEndian 2 v.length ++ v, 0⟩) ∧
    this.Decode ((NewSrsAmf0String v).Encode ⟨[], 0⟩).2 =
      (none, NewSrsAmf0String v, ⟨[0x02] ++ bigEndian 2 v.length ++ v, 1 + 2 + v.length⟩) ∧
    ([0x02] ++ bigEndian 2 v.length ++ v).length = 1 + 2 + v.length ∧
    fromBigEndian (bigEndian 2 v.length) = v.length ∧
    this.Decode ⟨[0x02] ++ bigEndian 2 v.length ++ v ++ rest, 0⟩ =
      (none, NewSrsAmf0String v,
        ⟨[0x02] ++ bigEndian 2 v.length ++ v ++ rest, 1 + 2 + v.length⟩) := by
  have henc : (NewSrsAmf0String v).Encode ⟨[], 0⟩ =
      (none, ⟨[0x02] ++ bigEndian 2 v.length ++ v, 0⟩) := by
    rw [amf0String_encode]
    simp
  refine ⟨henc, ?_, ?_, ?_, amf0String_decode this v rest hlen⟩
  · rw [henc]
    have h := amf0String_decode this v [] hlen
    simp only [List.append_nil] at h
    exact h
  · simp only [List.length_append, List.length_singleton, bigEndian_length]
  · exact fromBigEndian_bigEndian_of_lt (by norm_num; omega)

theorem amf0String_roundtrip_witness :
    ([0x68, 0x69] : List Nat).length ≤ 65535 ∧
    (NewSrsAmf0String []).Decode ((NewSrsAmf0String [0x68, 0x69]).Encode ⟨[], 0⟩).2 =
      (none, NewSrsAmf0String [0x68, 0x69],
        ⟨[0x02] ++ bigEndian 2 [0x68, 0x69].length ++ [0x68, 0x69],
          1 + 2 + [0x68, 0x69].length⟩) ∧
    ([] : List Nat).length ≤ 65535 ∧
    (NewSrsAmf0String []).Decode ((NewSrsAmf0String []).Encode ⟨[], 0⟩).2 =
      (none, NewSrsAmf0String [],
        ⟨[0x02] ++ bigEndian 2 ([] : List Nat).length ++ [], 1 + 2 + ([] : List Nat).length⟩) ∧
    (List.replicate 65535 0x61).length ≤ 65535 ∧
    (NewSrsAmf0String []).Decode
        ((NewSrsAmf0String (List.replicate 65535 0x61)).Encode ⟨[], 0⟩).2 =
      (none, NewSrsAmf0String (List.replicate 65535 0x61),
        ⟨[0x02] ++ bigEndian 2 (List.replicate 65535 0x61).length ++
            List.replicate 65535 0x61,
          1 + 2 + (List.replicate 65535 0x61).length⟩) :=
  ⟨by decide,
    (amf0String_roundtrip [0x68, 0x69] [] (NewSrsAmf0String []) (by decide)).2.1,
    by decide,
    (amf0String_roundtrip [] [] (NewSrsAmf0String []) (by decide)).2.1,
    le_of_eq (List.length_replicate _ _),
    (amf0String_roundtrip (List.replicate 65535 0x61) [] (NewSrsAmf0String [])
      (le_of_eq (List.length_replicate _ _))).2.1⟩

theorem bytesToUInt16_error (data : List Nat) (order : ByteOrder) :
    (BytesToUInt16 data order).2 ≠ some "amf0 check string marker failed." := by
  match data with
  | [] => simp only [BytesToUInt16]; decide
  | [_] => simp only [BytesToUInt16]; decide
  | _ :: _ :: _ => simp [BytesToUInt16]

theorem readBytes_error (stream : SrsStream) (n : Nat) :
    (stream.ReadBytes n).1.2 ≠ some "amf0 check string marker failed." := by
  simp only [SrsStream.ReadBytes]
  split
  · simp
  · simp only [ne_eq, Option.some.injEq]
    decide

theorem amf0Utf8_decode_error (this : SrsAmf0Utf8) (stream : SrsStream) :
    (this.Decode stream).1 ≠ some "amf0 check string marker failed." := by
  simp only [SrsAmf0Utf8.Decode]
  split
  · rename_i x err s1 h
    have := readBytes_error stream 2
    rw [h] at this
    exact this
  · rename_i x lenBytes s1 h
    split
    · rename_i y err h2
      have := bytesToUInt16_error lenBytes ByteOrder.BigEndian
      rw [h2] at this
      exact this
    · rename_i y len h2
      split
      · rename_i z err s2 h3
        have := readBytes_error s1 len
        rw [h3] at this
        exact this
      · simp

/-- C18: on a non-empty stream whose next byte is not the String marker,
`Decode` fails with the type-mismatch error, moves the cursor past exactly
that one byte and leaves the receiver as it was; on an exhausted stream it
fails with the error `ReadByte` reports (the truncation error) and leaves
cursor and receiver as they were. -/
theorem amf0String_decode_mismatch (this : SrsAmf0String) (stream : SrsStream) :
    (∀ b, stream.data[stream.pos]? = some b → b ≠ RTMP_AMF0_String →
      this.Decode stream = (some "amf0 check string marker failed.", this,
        { stream with pos := stream.pos + 1 })) ∧
    (stream.data[stream.pos]? = none →
      this.Decode stream = (stream.ReadByte.1.2, this, stream) ∧
      stream.ReadByte.1.2 = some SrsStream.errTruncated ∧
      SrsStream.errTruncated ≠ "amf0 check string marker failed.") := by
  constructor
  · intro b hb hne
    simp only [SrsAmf0String.Decode, SrsStream.ReadByte, hb]
    simp [hne]
  · intro hnone
    refine ⟨?_, ?_, by decide⟩
    · simp only [SrsAmf0String.Decode, SrsStream.ReadByte, hnone]
    · simp only [SrsStream.ReadByte, hnone]

theorem amf0String_decode_mismatch_witness :
    ((⟨[0x05, 0x02, 0x00], 0⟩ : SrsStream).data[(⟨[0x05, 0x02, 0x00], 0⟩ : SrsStream).pos]? =
        some 0x05 ∧
      (0x05 : Nat) ≠ RTMP_AMF0_String ∧
      (NewSrsAmf0String [0x61]).Decode ⟨[0x05, 0x02, 0x00], 0⟩ =
        (some "amf0 check string marker failed.", NewSrsAmf0String [0x61],
          { (⟨[0x05, 0x02, 0x00], 0⟩ : SrsStream) with
            pos := (⟨[0x05, 0x02, 0x00], 0⟩ : SrsStream).pos + 1 })) ∧
    ((⟨[0x02], 1⟩ : SrsStream).data[(⟨[0x02], 1⟩ : SrsStream).pos]? = none ∧
      (NewSrsAmf0String [0x61]).Decode ⟨[0x02], 1⟩ =
        ((⟨[0x02], 1⟩ : SrsStream).ReadByte.1.2, NewSrsAmf0String [0x61], ⟨[0x02], 1⟩)) :=
  ⟨⟨rfl, by decide,
      (amf0String_decode_mismatch (NewSrsAmf0String [0x61]) ⟨[0x05, 0x02, 0x00], 0⟩).1 0x05 rfl
        (by decide)⟩,
    rfl, ((amf0String_decode_mismatch (NewSrsAmf0String [0x61]) ⟨[0x02], 1⟩).2 rfl).1⟩

/-- C19: `IsMyType` is a peek: it hands the stream back with the same bytes and
the same cursor.  On a non-empty stream it answers `(true, nil)` when the next
byte is the String marker and `(false, nil)` otherwise; on an exhausted stream
it answers false together with the error `PeekByte` reports.  When it answers
true, `Decode` on the stream it hands back does not fail with the
type-mismatch error. -/
theorem amf0String_isMyType (this : SrsAmf0String) (stream : SrsStream) :
    (this.IsMyType stream).2 = stream ∧
    (∀ b, stream.data[stream.pos]? = some b →
      (this.IsMyType stream).1 = (decide (b = RTMP_AMF0_String), none)) ∧
    (stream.data[stream.pos]? = none →
      (this.IsMyType stream).1 = (false, stream.PeekByte.1.2) ∧
      stream.PeekByte.1.2 = some SrsStream.errTruncated) ∧
    ((this.IsMyType stream).1.1 = true →
      (this.Decode (this.IsMyType stream).2).1 ≠ some "amf0 check string marker failed.") := by
  have hback : (this.IsMyType stream).2 = stream := by
    simp only [SrsAmf0String.IsMyType, SrsStream.PeekByte]
    cases stream.data[stream.pos]? with
    | none => rfl
    | some b => by_cases hb : b = RTMP_AMF0_String <;> simp [hb]
  refine ⟨hback, ?_, ?_, ?_⟩
  · intro b hb
    simp only [SrsAmf0String.IsMyType, SrsStream.PeekByte, hb]
    by_cases hm : b = RTMP_AMF0_String <;> simp [hm]
  · intro hnone
    constructor
    · simp only [SrsAmf0String.IsMyType, SrsStream.PeekByte, hnone]
    · simp only [SrsStream.PeekByte, hnone]
  · intro htrue
    rw [hback]
    cases hb : stream.data[stream.pos]? with
    | none =>
      simp [SrsAmf0String.IsMyType, SrsStream.PeekByte, hb] at htrue
    | some b =>
      by_cases hm : b = RTMP_AMF0_String
      · simp only [SrsAmf0String.Decode, SrsStream.ReadByte, hb, hm]
        simp only [bne_self_eq_false, Bool.false_eq_true, if_false]
        exact amf0Utf8_decode_error this.Value { stream with pos := stream.pos + 1 }
      · simp [SrsAmf0String.IsMyType, SrsStream.PeekByte, hb, hm] at htrue

theorem amf0String_isMyType_witness :
    ((⟨[0x02, 0x00, 0x01, 0x61], 0⟩ : SrsStream).data[
        (⟨[0x02, 0x00, 0x01, 0x61], 0⟩ : SrsStream).pos]? = some 0x02 ∧
      ((NewSrsAmf0String []).IsMyType ⟨[0x02, 0x00, 0x01, 0x61], 0⟩).1 =
        (decide ((0x02 : Nat) = RTMP_AMF0_String), none)) ∧
    ((⟨[0x02], 1⟩ : SrsStream).data[(⟨[0x02], 1⟩ : SrsStream).pos]? = none ∧
      ((NewSrsAmf0String []).IsMyType ⟨[0x02], 1⟩).1 =
        (false, (⟨[0x02], 1⟩ : SrsStream).PeekByte.1.2)) ∧
    (((NewSrsAmf0String []).IsMyType ⟨[0x02, 0x00, 0x01, 0x61], 0⟩).1.1 = true ∧
      ((NewSrsAmf0String []).Decode
          ((NewSrsAmf0String []).IsMyType ⟨[0x02, 0x00, 0x01, 0x61], 0⟩).2).1 ≠
        some "amf0 check string marker failed.") :=
  ⟨⟨rfl, (amf0String_isMyType (NewSrsAmf0String []) ⟨[0x02, 0x00, 0x01, 0x61], 0⟩).2.1 0x02
      rfl⟩,
    ⟨rfl, ((amf0String_isMyType (NewSrsAmf0String []) ⟨[0x02], 1⟩).2.2.1 rfl).1⟩,
    ⟨rfl, (amf0String_isMyType (NewSrsAmf0String []) ⟨[0x02, 0x00, 0x01, 0x61], 0⟩).2.2.2
      rfl⟩⟩

/-! ## Container: counts and errors -/

theorem flvTagBytes_length (typ timestamp : Nat) (payload : List Nat) :
    (flvTagBytes typ timestamp payload).length = 11 + payload.length + 4 := by
  simp only [flvTagBytes, List.length_append, List.length_singleton, bigEndian_length,
    List.length_cons, List.length_nil]

theorem toUInt32_natCast (n : Nat) : toUInt32 (n : Int) = n % 2 ^ 32 := by
  unfold toUInt32
  omega

theorem writeTag_written (this : SrsFlvEncoder) (typ timestamp : Nat) (data : List Nat) :
    TagWritten this (flvTagBytes typ timestamp data)
      (this.writeTag (NewTagHeader typ timestamp (toInt32 (data.length : Int))) data) := by
  rw [writeTag_eq]
  refine ⟨write_writes _ _, toUInt32_natCast _, ?_, ?_⟩
  · intro h
    simp only [File.Write, h]
  · intro n e h
    simp only [File.Write, h]

theorem hugePayload_length : hugePayload.length = 2 ^ 32 - 15 :=
  List.length_replicate _ _

theorem count_wraps (this : SrsFlvEncoder) (ts : Nat) (payload : List Nat)
    (hlen : payload.length = 2 ^ 32 - 15)
    (hacc : this.file.outcome this.file.writes.length = none) :
    ¬ WriteReturnsCount this ts payload := by
  intro h
  have hcount := congrArg (fun r => r.1) (h hacc)
  have hwritten := (writeTag_written this VideoTagType ts payload).2.1
  rw [flvTagBytes_length] at hwritten
  simp only [SrsFlvEncoder.WriteVideo] at hcount
  rw [hwritten, hlen] at hcount
  exact absurd hcount (by decide)

theorem writeReturnsCount_counterexample :
    ¬ WriteReturnsCount (NewSrsFlvEncoder (File.mk [] [] (fun _ => none))) 0 hugePayload :=
  count_wraps _ 0 hugePayload hugePayload_length rfl

/-- C20, as the code has it: `WriteAudio`, `WriteVideo` and `WriteMetaData` hand
the sink exactly one buffer, the whole header, payload and back-pointer
(`11 + len(payload) + 4` bytes), and return its length as a `uint32`, that
is `(11 + len(payload) + 4) mod 2^32`, which is `11 + len(payload) + 4`
whenever that is below 2^32; the error returned is `nil` when the sink
accepts the write and otherwise exactly the sink's error, with no second
write.  `WriteHeader` returns the sink's error unchanged, and after a failed
9-byte header write the 4-byte back-pointer write is not attempted. -/
theorem write_results (this : SrsFlvEncoder) (ts : Nat) (payload : List Nat) :
    TagWritten this (flvTagBytes 0x08 ts payload) (this.WriteAudio ts payload) ∧
    TagWritten this (flvTagBytes 0x09 ts payload) (this.WriteVideo ts payload) ∧
    TagWritten this (flvTagBytes 0x18 0 payload) (this.WriteMetaData payload) ∧
    (∀ typ t, (flvTagBytes typ t payload).length = 11 + payload.length + 4) ∧
    (11 + payload.length + 4 < 2 ^ 32 →
      (this.WriteAudio ts payload).1.1 = 11 + payload.length + 4 ∧
      (this.WriteVideo ts payload).1.1 = 11 + payload.length + 4 ∧
      (this.WriteMetaData payload).1.1 = 11 + payload.length + 4) ∧
    (∀ n e, this.file.outcome this.file.writes.length = some (n, e) →
      this.WriteHeader.1 = some e ∧
      this.WriteHeader.2.file.writes = this.file.writes ++ [this.header.Data]) ∧
    (∀ n e, this.file.outcome this.file.writes.length = none →
      this.file.outcome (this.file.writes.length + 1) = some (n, e) →
      this.WriteHeader.1 = some e ∧
      this.WriteHeader.2.file.writes =
        this.file.writes ++ [this.header.Data, [0x00, 0x00, 0x00, 0x00]]) := by
  have ha := writeTag_written this AudioTagType ts payload
  have hv := writeTag_written this VideoTagType ts payload
  have hm := writeTag_written this MetaDataTagType 0 payload
  refine ⟨ha, hv, hm, fun typ t => flvTagBytes_length typ t payload, ?_, ?_, ?_⟩
  · intro hsmall
    have hmod : (11 + payload.length + 4) % 2 ^ 32 = 11 + payload.length + 4 :=
      Nat.mod_eq_of_lt hsmall
    refine ⟨?_, ?_, ?_⟩
    · have h := ha.2.1
      rw [flvTagBytes_length, hmod] at h
      exact h
    · have h := hv.2.1
      rw [flvTagBytes_length, hmod] at h
      exact h
    · have h := hm.2.1
      rw [flvTagBytes_length, hmod] at h
      exact h
  · intro n e h
    simp only [SrsFlvEncoder.WriteHeader, File.Write, h]
    exact ⟨trivial, trivial⟩
  · intro n e h0 h1
    simp only [SrsFlvEncoder.WriteHeader, File.Write, h0, List.length_append,
      List.length_singleton, h1]
    simp

theorem write_results_witness :
    (11 + [0x17, 0x00].length + 4 < 2 ^ 32 ∧
      ((NewSrsFlvEncoder (File.mk [] [] (fun _ => some (0, "disk full")))).WriteVideo 40
        [0x17, 0x00]).1.1 = 11 + [0x17, 0x00].length + 4) ∧
    ((File.mk [] [] (fun _ => some (0, "disk full"))).outcome
        (File.mk [] [] (fun _ => some (0, "disk full"))).writes.length =
          some (0, "disk full") ∧
      ((NewSrsFlvEncoder (File.mk [] [] (fun _ => some (0, "disk full")))).WriteVideo 40
        [0x17, 0x00]).1.2 = some "disk full" ∧
      (NewSrsFlvEncoder (File.mk [] [] (fun _ => some (0, "disk full")))).WriteHeader.1 =
        some "disk full" ∧
      (NewSrsFlvEncoder (File.mk [] [] (fun _ => some (0, "disk full")))).WriteHeader.2.file.writes
        = [] ++ [(NewSrsFlvEncoder
            (File.mk [] [] (fun _ => some (0, "disk full")))).header.Data]) ∧
    ((File.mk [] [] (fun i => if i = 0 then none else some (0, "disk full"))).outcome
        (File.mk [] [] (fun i => if i = 0 then none else some (0, "disk full"))).writes.length
          = none ∧
      (File.mk [] [] (fun i => if i = 0 then none else some (0, "disk full"))).outcome
        ((File.mk [] [] (fun i => if i = 0 then none else some (0, "disk full"))).writes.length
          + 1) = some (0, "disk full") ∧
      (NewSrsFlvEncoder (File.mk [] []
        (fun i => if i = 0 then none else some (0, "disk full")))).WriteHeader.1 =
          some "disk full") :=
  ⟨⟨by decide,
      ((write_results (NewSrsFlvEncoder (File.mk [] [] (fun _ => some (0, "disk full")))) 40
        [0x17, 0x00]).2.2.2.2.1 (by decide)).2.1⟩,
    ⟨rfl,
      (write_results (NewSrsFlvEncoder (File.mk [] [] (fun _ => some (0, "disk full")))) 40
        [0x17, 0x00]).2.1.2.2.2 0 "disk full" rfl,
      ((write_results (NewSrsFlvEncoder (File.mk [] [] (fun _ => some (0, "disk full")))) 40
        [0x17, 0x00]).2.2.2.2.2.1 0 "disk full" rfl).1,
      ((write_results (NewSrsFlvEncoder (File.mk [] [] (fun _ => some (0, "disk full")))) 40
        [0x17, 0x00]).2.2.2.2.2.1 0 "disk full" rfl).2⟩,
    ⟨rfl, rfl,
      ((write_results (NewSrsFlvEncoder (File.mk [] []
        (fun i => if i = 0 then none else some (0, "disk full")))) 40
        [0x17, 0x00]).2.2.2.2.2.2 0 "disk full" rfl rfl).1⟩⟩

/-! ## Container: `WriteTags` -/

theorem writeTagsStep_file (this : SrsFlvEncoder) (msg : SrsRtmpMessage) :
    (this.writeTagsStep msg).file = (this.file.Write msg.tagBytes).2 := by
  simp only [SrsFlvEncoder.writeTagsStep, SrsRtmpMessage.tagBytes, SrsFlvEncoder.WriteAudio,
    SrsFlvEncoder.WriteVideo, SrsFlvEncoder.WriteMetaData, writeTag_eq]
  split
  · rfl
  · split <;> rfl

theorem writeTagsLoop_writes (msgs : List SrsRtmpMessage) :
    ∀ this : SrsFlvEncoder, (this.writeTagsLoop msgs).file.writes =
      this.file.writes ++ msgs.map SrsRtmpMessage.tagBytes := by
  induction msgs with
  | nil => intro this; simp [SrsFlvEncoder.writeTagsLoop]
  | cons msg rest ih =>
    intro this
    rw [SrsFlvEncoder.writeTagsLoop, ih, writeTagsStep_file, write_writes, List.map_cons,
      List.append_assoc]
    rfl

theorem writeTagsLoop_contents (msgs : List SrsRtmpMessage) :
    ∀ this : SrsFlvEncoder, this.file.Accepting →
      (this.writeTagsLoop msgs).file.contents = this.file.contents ++ messagesLayout msgs := by
  induction msgs with
  | nil => intro this _; simp [SrsFlvEncoder.writeTagsLoop, messagesLayout]
  | cons msg rest ih =>
    intro this hacc
    have hfile := writeTagsStep_file this msg
    rw [write_accepting hacc] at hfile
    have hacc1 : (this.writeTagsStep msg).file.Accepting := by
      rw [hfile]
      exact hacc
    rw [SrsFlvEncoder.writeTagsLoop, ih _ hacc1, hfile, messagesLayout, List.append_assoc]

/-- C21: for every list of messages and every sink, `WriteTags` hands the sink
exactly one buffer per message, in input order, whether or not earlier
writes failed: the audio tag built by `WriteAudio` with the message timestamp
when the message is audio, the video tag built by `WriteVideo` when it is
video and not audio, the metadata tag built by `WriteMetaData` otherwise.
When the sink accepts every write, the bytes written are the concatenation,
in input order, of the individual tags. -/
theorem writeTags_writes (this : SrsFlvEncoder) (msgs : List SrsRtmpMessage) :
    (this.WriteTags msgs).2.file.writes =
      this.file.writes ++ msgs.map SrsRtmpMessage.tagBytes ∧
    (this.WriteTags msgs).2.file.writes.length = this.file.writes.length + msgs.length ∧
    (∀ (msg : SrsRtmpMessage) (rest : List SrsRtmpMessage),
      (msg.isAudio = true →
        this.writeTagsLoop (msg :: rest) =
          (this.WriteAudio (toUInt32 msg.timestamp) msg.payload).2.writeTagsLoop rest) ∧
      (msg.isAudio = false → msg.isVideo = true →
        this.writeTagsLoop (msg :: rest) =
          (this.WriteVideo (toUInt32 msg.timestamp) msg.payload).2.writeTagsLoop rest) ∧
      (msg.isAudio = false → msg.isVideo = false →
        this.writeTagsLoop (msg :: rest) =
          (this.WriteMetaData msg.payload).2.writeTagsLoop rest)) ∧
    (this.file.Accepting →
      (this.WriteTags msgs).2.file.contents = this.file.contents ++ messagesLayout msgs) := by
  refine ⟨writeTagsLoop_writes msgs this, ?_, ?_, writeTagsLoop_contents msgs this⟩
  · show (this.writeTagsLoop msgs).file.writes.length = _
    rw [writeTagsLoop_writes, List.length_append, List.length_map]
  · intro msg rest
    refine ⟨?_, ?_, ?_⟩
    · intro ha
      simp only [SrsFlvEncoder.writeTagsLoop, SrsFlvEncoder.writeTagsStep, ha, if_true]
    · intro ha hv
      simp only [SrsFlvEncoder.writeTagsLoop, SrsFlvEncoder.writeTagsStep, ha, hv, if_true,
        Bool.false_eq_true, if_false]
    · intro ha hv
      simp only [SrsFlvEncoder.writeTagsLoop, SrsFlvEncoder.writeTagsStep, ha, hv,
        Bool.false_eq_true, if_false]

theorem writeTags_writes_witness :
    ((SrsRtmpMessage.mk true false 20 [0xAF, 0x01]).isAudio = true ∧
      (NewSrsFlvEncoder fullDisk).writeTagsLoop
          [SrsRtmpMessage.mk true false 20 [0xAF, 0x01]] =
        ((NewSrsFlvEncoder fullDisk).WriteAudio
          (toUInt32 (SrsRtmpMessage.mk true false 20 [0xAF, 0x01]).timestamp)
          (SrsRtmpMessage.mk true false 20 [0xAF, 0x01]).payload).2.writeTagsLoop []) ∧
    ((SrsRtmpMessage.mk false true 40 [0x17, 0x00]).isAudio = false ∧
      (SrsRtmpMessage.mk false true 40 [0x17, 0x00]).isVideo = true ∧
      (NewSrsFlvEncoder fullDisk).writeTagsLoop
          [SrsRtmpMessage.mk false true 40 [0x17, 0x00]] =
        ((NewSrsFlvEncoder fullDisk).WriteVideo
          (toUInt32 (SrsRtmpMessage.mk false true 40 [0x17, 0x00]).timestamp)
          (SrsRtmpMessage.mk false true 40 [0x17, 0x00]).payload).2.writeTagsLoop []) ∧
    ((SrsRtmpMessage.mk false false 0 [0x02]).isAudio = false ∧
      (SrsRtmpMessage.mk false false 0 [0x02]).isVideo = false ∧
      (NewSrsFlvEncoder fullDisk).writeTagsLoop [SrsRtmpMessage.mk false false 0 [0x02]] =
        ((NewSrsFlvEncoder fullDisk).WriteMetaData
          (SrsRtmpMessage.mk false false 0 [0x02]).payload).2.writeTagsLoop []) ∧
    ((File.mk [] [] (fun _ => none)).Accepting ∧
      ((NewSrsFlvEncoder (File.mk [] [] (fun _ => none))).WriteTags
          [SrsRtmpMessage.mk false false 0 [0x02],
            SrsRtmpMessage.mk false true 40 [0x17, 0x00],
            SrsRtmpMessage.mk true false 20 [0xAF, 0x01]]).2.file.contents =
        (NewSrsFlvEncoder (File.mk [] [] (fun _ => none))).file.contents ++
          messagesLayout
            [SrsRtmpMessage.mk false false 0 [0x02],
              SrsRtmpMessage.mk false true 40 [0x17, 0x00],
              SrsRtmpMessage.mk true false 20 [0xAF, 0x01]]) :=
  ⟨⟨rfl, ((writeTags_writes (NewSrsFlvEncoder fullDisk) []).2.2.1
      (SrsRtmpMessage.mk true false 20 [0xAF, 0x01]) []).1 rfl⟩,
    ⟨rfl, rfl, ((writeTags_writes (NewSrsFlvEncoder fullDisk) []).2.2.1
      (SrsRtmpMessage.mk false true 40 [0x17, 0x00]) []).2.1 rfl rfl⟩,
    ⟨rfl, rfl, ((writeTags_writes (NewSrsFlvEncoder fullDisk) []).2.2.1
      (SrsRtmpMessage.mk false false 0 [0x02]) []).2.2 rfl rfl⟩,
    ⟨fun _ => rfl,
      (writeTags_writes (NewSrsFlvEncoder (File.mk [] [] (fun _ => none)))
        [SrsRtmpMessage.mk false false 0 [0x02],
          SrsRtmpMessage.mk false true 40 [0x17, 0x00],
          SrsRtmpMessage.mk true false 20 [0xAF, 0x01]]).2.2.2 (fun _ => rfl)⟩⟩

theorem writeTagsReports_counterexample :
    ¬ WriteTagsReports (NewSrsFlvEncoder fullDisk)
      [SrsRtmpMessage.mk false true 40 [0x17, 0x00]] := by
  intro h
  have hall := h.1 rfl 0 (by decide)
  exact absurd hall (by decide)

/-- C22, as the code has it: `WriteTags` never reports a failure.  For every
list of messages and every sink it returns `nil`, also when the sink rejects
the write of a message's tag (the count and the error of each writer are
dropped), so in particular it returns `nil` when every tag write
succeeded. -/
theorem writeTags_returns_nil (this : SrsFlvEncoder) (msgs : List SrsRtmpMessage) :
    (this.WriteTags msgs).1 = none ∧
    (this.WriteTags msgs).2.file.writes.length = this.file.writes.length + msgs.length ∧
    (NewSrsFlvEncoder fullDisk).WriteTags [SrsRtmpMessage.mk false true 40 [0x17, 0x00]] =
      (none, { NewSrsFlvEncoder fullDisk with
        file := { fullDisk with
          writes := [flvTagBytes 0x09 40 [0x17, 0x00]] } }) ∧
    ((NewSrsFlvEncoder fullDisk).WriteVideo 40 [0x17, 0x00]).1.2 =
      some "no space left on device" := by
  refine ⟨rfl, (writeTags_writes this msgs).2.1, ?_, ?_⟩
  · simp only [SrsFlvEncoder.WriteTags, SrsFlvEncoder.writeTagsLoop,
      SrsFlvEncoder.writeTagsStep, SrsFlvEncoder.WriteVideo, writeTag_eq]
    rfl
  · rw [SrsFlvEncoder.WriteVideo, writeTag_eq]
    rfl

/-! ## Container: the 3-byte length field -/

theorem bigEndian4_eq (n : Nat) : bigEndian 4 n = (n / 2 ^ 24 % 256) :: bigEndian 3 n := by
  simp only [bigEndian, List.nil_append, List.cons_append, List.cons.injEq, and_true]
  omega

theorem bigPayload_length : bigPayload.length = 2 ^ 24 :=
  List.length_replicate _ _

/-- C25: the tag written by `WriteAudio`, `WriteVideo` and `WriteMetaData` has
an 11-byte header whose 3-byte length field is `s[1:4]` of the 4-byte length,
so it holds `L mod 2^24`, while the back-pointer holds `11 + L` in full.  For
`2^24 <= L <= 2^31 - 12` the dropped top byte is not 0, the declared length
differs from the length of the payload written, and the back-pointer differs
from 11 plus the declared length; for `L < 2^24` the declared length is `L`
and the back-pointer is 11 plus the declared length. -/
theorem lengthField_truncated (this : SrsFlvEncoder) (ts : Nat) (payload : List Nat) :
    ((this.WriteAudio ts payload).2.file.writes = this.file.writes ++
        [[0x08] ++ bigEndian 3 payload.length ++ bigEndian 4 ts ++ [0, 0, 0] ++ payload ++
          bigEndian 4 (11 + payload.length)] ∧
      (this.WriteVideo ts payload).2.file.writes = this.file.writes ++
        [[0x09] ++ bigEndian 3 payload.length ++ bigEndian 4 ts ++ [0, 0, 0] ++ payload ++
          bigEndian 4 (11 + payload.length)] ∧
      (this.WriteMetaData payload).2.file.writes = this.file.writes ++
        [[0x18] ++ bigEndian 3 payload.length ++ bigEndian 4 0 ++ [0, 0, 0] ++ payload ++
          bigEndian 4 (11 + payload.length)]) ∧
    (∀ typ t, (NewTagHeader typ t (toInt32 (payload.length : Int))).Data.length = 11 ∧
      (NewTagHeader typ t (toInt32 (payload.length : Int))).dataSize =
        bigEndian 3 payload.length ∧
      Int32ToBytes (toInt32 (payload.length : Int)) ByteOrder.BigEndian =
        (payload.length / 2 ^ 24 % 256) :: bigEndian 3 payload.length) ∧
    fromBigEndian (bigEndian 3 payload.length) = payload.length % 2 ^ 24 ∧
    (2 ^ 24 ≤ payload.length → payload.length ≤ 2 ^ 31 - 12 →
      payload.length / 2 ^ 24 % 256 ≠ 0 ∧
      fromBigEndian (bigEndian 3 payload.length) ≠ payload.length ∧
      fromBigEndian (bigEndian 4 (11 + payload.length)) = 11 + payload.length ∧
      fromBigEndian (bigEndian 4 (11 + payload.length)) ≠
        11 + fromBigEndian (bigEndian 3 payload.length)) ∧
    (payload.length < 2 ^ 24 →
      fromBigEndian (bigEndian 3 payload.length) = payload.length ∧
      fromBigEndian (bigEndian 4 (11 + payload.length)) =
        11 + fromBigEndian (bigEndian 3 payload.length)) := by
  have h3 : fromBigEndian (bigEndian 3 payload.length) = payload.length % 2 ^ 24 := by
    rw [fromBigEndian_bigEndian]
    norm_num
  have h4 : 11 + payload.length < 2 ^ 32 →
      fromBigEndian (bigEndian 4 (11 + payload.length)) = 11 + payload.length := by
    intro hlt
    exact fromBigEndian_bigEndian_of_lt (by norm_num; omega)
  refine ⟨⟨?_, ?_, ?_⟩, ?_, h3, ?_, ?_⟩
  · rw [SrsFlvEncoder.WriteAudio, writeTag_eq, write_writes, flvTagBytes]
  · rw [SrsFlvEncoder.WriteVideo, writeTag_eq, write_writes, flvTagBytes]
  · rw [SrsFlvEncoder.WriteMetaData, writeTag_eq, write_writes, flvTagBytes]
  · intro typ t
    refine ⟨newTagHeader_data_length typ t payload.length, ?_, ?_⟩
    · simp only [NewTagHeader, int32ToBytes_len, slice_bigEndian4]
    · rw [int32ToBytes_len, bigEndian4_eq]
  · intro hlo hhi
    refine ⟨by omega, ?_, h4 (by omega), ?_⟩
    · rw [h3]
      omega
    · rw [h4 (by omega), h3]
      omega
  · intro hlt
    refine ⟨?_, ?_⟩
    · rw [h3]
      omega
    · rw [h4 (by omega), h3]
      omega

theorem lengthField_truncated_witness :
    (2 ^ 24 ≤ bigPayload.length ∧ bigPayload.length ≤ 2 ^ 31 - 12 ∧
      fromBigEndian (bigEndian 3 bigPayload.length) ≠ bigPayload.length ∧
      fromBigEndian (bigEndian 4 (11 + bigPayload.length)) ≠
        11 + fromBigEndian (bigEndian 3 bigPayload.length)) ∧
    ([0x17, 0x00].length < 2 ^ 24 ∧
      fromBigEndian (bigEndian 4 (11 + [0x17, 0x00].length)) =
        11 + fromBigEndian (bigEndian 3 [0x17, 0x00].length)) :=
  ⟨⟨le_of_eq bigPayload_length.symm, (le_of_eq bigPayload_length).trans (by decide),
      ((lengthField_truncated (NewSrsFlvEncoder fullDisk) 0 bigPayload).2.2.2.1
        (le_of_eq bigPayload_length.symm)
        ((le_of_eq bigPayload_length).trans (by decide))).2.1,
      ((lengthField_truncated (NewSrsFlvEncoder fullDisk) 0 bigPayload).2.2.2.1
        (le_of_eq bigPayload_length.symm)
        ((le_of_eq bigPayload_length).trans (by decide))).2.2.2⟩,
    ⟨by decide,
      ((lengthField_truncated (NewSrsFlvEncoder fullDisk) 0 [0x17, 0x00]).2.2.2.2
        (by decide)).2⟩⟩

/-! ## Registry: one mutator call, in full -/

theorem sameShape_refl (w : World) : SameShape w w :=
  ⟨rfl, rfl, rfl, fun _ => rfl, fun _ => rfl⟩

theorem SameShape.trans {w w1 w2 : World} (h1 : SameShape w w1) (h2 : SameShape w1 w2) :
    SameShape w w2 :=
  ⟨h2.statistic.trans h1.statistic, h2.idSeq.trans h1.idSeq, h2.idPos.trans h1.idPos,
    fun p => (h2.streams p).trans (h1.streams p), fun p => (h2.vhosts p).trans (h1.vhosts p)⟩

theorem map_getElem?_set {α β : Type} (f : α → β) (l : List α) (i : Nat) (a0 a1 : α)
    (h0 : l[i]? = some a0) (hf : f a1 = f a0) (p : Nat) :
    ((l.set i a1)[p]?).map f = (l[p]?).map f := by
  by_cases hp : i = p
  · subst hp
    rw [List.getElem?_set_self (lt_of_getElem?_eq_some h0), h0]
    simp [hf]
  · rw [List.getElem?_set_ne hp]

theorem sameShape_set_stream {w : World} {sp : Nat} {s0 : SrsStatisticStream}
    (hs : w.streamObjs[sp]? = some s0) (s1 : SrsStatisticStream)
    (hid : s1.identity = s0.identity) :
    SameShape w { w with streamObjs := w.streamObjs.set sp s1 } :=
  ⟨rfl, rfl, rfl, map_getElem?_set _ _ _ _ _ hs hid, fun _ => rfl⟩

theorem sameShape_set_both {w : World} {sp : Nat} {s0 : SrsStatisticStream}
    (hs : w.streamObjs[sp]? = some s0) (s1 : SrsStatisticStream)
    (hid : s1.identity = s0.identity) {vp : Nat} {v0 : SrsStatisticVhost}
    (hv : w.vhostObjs[vp]? = some v0) (v1 : SrsStatisticVhost)
    (hvid : v1.identity = v0.identity) :
    SameShape w { w with
      streamObjs := w.streamObjs.set sp s1
      vhostObjs := w.vhostObjs.set vp v1 } :=
  ⟨rfl, rfl, rfl, map_getElem?_set _ _ _ _ _ hs hid, map_getElem?_set _ _ _ _ _ hv hvid⟩

theorem nbStreams_range_all {w : World} (hwf : w.WF) (p : Nat) :
    -2 ^ 63 ≤ w.nbStreams p ∧ w.nbStreams p < 2 ^ 63 := by
  rcases Nat.lt_or_ge p w.vhostObjs.length with hp | hp
  · exact nbStreams_range hwf hp
  · simp only [World.nbStreams, List.getElem?_eq_none hp]
    constructor <;> decide

theorem wrapInt_add_zero {w : World} (hwf : w.WF) (p : Nat) :
    wrapInt (w.nbStreams p + 0) = w.nbStreams p := by
  rw [Int.add_zero]
  exact wrapInt_of_range (nbStreams_range_all hwf p).1 (nbStreams_range_all hwf p).2

theorem ownerOf_eq {w : World} {req : SrsRequest} {s : SrsStatisticStream}
    (hs : (resolve w req).2.streamObjs[(resolve w req).1]? = some s) :
    ownerOf w req = s.vhost := by
  simp only [ownerOf, hs]

theorem registryOp_step {w : World} (hwf : w.WF) (op : RegistryOp) :
    ∃ w1 vp, op.run w = some (none, w1) ∧ w1.WF ∧ ownerOf w op.req = some vp ∧
      SameShape (resolve w op.req).2 w1 ∧
      ∀ p, w1.nbStreams p = wrapInt (w.nbStreams p + if p = vp then op.delta else 0) := by
  obtain ⟨hwf1, ⟨vp, hreg⟩, hnb⟩ := resolve_spec hwf op.req
  obtain ⟨s, hs, hv⟩ := hreg.streamObj
  have hvp : vp < (resolve w op.req).2.vhostObjs.length := hreg.vhostObj
  have hvo := List.getElem?_eq_getElem hvp
  have hown : ownerOf w op.req = some vp := (ownerOf_eq hs).trans hv
  have hzero : ∀ p, (resolve w op.req).2.nbStreams p =
      wrapInt (w.nbStreams p + if p = vp then 0 else 0) := by
    intro p
    rw [hnb p, ite_self, wrapInt_add_zero hwf]
  have hcount : ∀ (d : Int) (v1 : SrsStatisticVhost) (objs : List SrsStatisticStream),
      v1.nb_streams = wrapInt ((resolve w op.req).2.vhostObjs[vp].nb_streams + d) →
      ∀ p, World.nbStreams { (resolve w op.req).2 with
          streamObjs := objs
          vhostObjs := (resolve w op.req).2.vhostObjs.set vp v1 } p =
        wrapInt (w.nbStreams p + if p = vp then d else 0) := by
    intro d v1 objs hv1 p
    by_cases hp : p = vp
    · subst hp
      have hq := hnb p
      simp only [World.nbStreams, hvo] at hq
      simp only [World.nbStreams, List.getElem?_set_self hvp, if_true, hv1, hq]
    · simp only [World.nbStreams, List.getElem?_set_ne (Ne.symm hp), if_neg hp]
      have := hzero p
      simp only [World.nbStreams, if_neg hp] at this
      exact this
  cases op with
  | publish req cid =>
    simp only [RegistryOp.req] at hs hvo hown hcount hwf1 hvp ⊢
    simp only [RegistryOp.run, RegistryOp.delta, onStreamPublish_unfold,
      SrsStatisticStream.Publish, hs, hv, hvo]
    refine ⟨_, vp, rfl, wf_set_both hwf1 hs _ ?_ vp _ (wrapInt_range _), hown,
      sameShape_set_both hs _ ?_ hvo _ rfl, hcount 1 _ _ rfl⟩
    · exact hv.symm
    · simp only [SrsStatisticStream.identity, hv]
  | close req cid =>
    simp only [RegistryOp.req] at hs hvo hown hcount hwf1 hvp ⊢
    simp only [RegistryOp.run, RegistryOp.delta, onStreamClose_unfold,
      SrsStatisticStream.Close, hs, hv, hvo]
    refine ⟨_, vp, rfl, wf_set_both hwf1 hs _ ?_ vp _ (wrapInt_range _), hown,
      sameShape_set_both hs _ ?_ hvo _ rfl, hcount (-1) _ _ rfl⟩
    · exact hv.symm
    · simp only [SrsStatisticStream.identity, hv]
  | videoInfo req vcodec avc_profile avc_level =>
    simp only [RegistryOp.req] at hs hown hzero hwf1 ⊢
    simp only [RegistryOp.run, RegistryOp.delta, onVideoInfo_unfold, hs]
    exact ⟨_, vp, rfl, wf_set_stream hwf1 hs _ rfl, hown, sameShape_set_stream hs _ rfl,
      hzero⟩
  | audioInfo req acodec asample_rate asound_type aac_object =>
    simp only [RegistryOp.req] at hs hown hzero hwf1 ⊢
    simp only [RegistryOp.run, RegistryOp.delta, onAudioInfo_unfold, hs]
    exact ⟨_, vp, rfl, wf_set_stream hwf1 hs _ rfl, hown, sameShape_set_stream hs _ rfl,
      hzero⟩
  | videoFrames req nb_frames =>
    simp only [RegistryOp.req] at hs hown hzero hwf1 ⊢
    simp only [RegistryOp.run, RegistryOp.delta, onVideoFrames_unfold, hs]
    exact ⟨_, vp, rfl, wf_set_stream hwf1 hs _ rfl, hown, sameShape_set_stream hs _ rfl,
      hzero⟩

/-! ## Registry: the active-stream counter is a running sum -/

theorem wrapInt_add_left (x y : Int) : wrapInt (wrapInt x + y) = wrapInt (x + y) := by
  unfold wrapInt
  simp only []
  split <;> split <;> split <;> omega

theorem close_created {w : World} {req : SrsRequest} (cid : Int)
    (hv : w.statistic.rvhosts.get req.vhost = none)
    (hs : w.statistic.rstreams.get req.GetStreamUrl = none) :
    SrsStatistic.OnStreamClose w req cid = some (none,
      { w with
        vhostObjs := w.vhostObjs ++
          [{ id := w.idSeq w.idPos, vhost := req.vhost, nb_streams := wrapInt (0 - 1),
             nb_clients := 0 }]
        streamObjs := w.streamObjs ++
          [createdStream (w.idSeq (w.idPos + 1)) w.vhostObjs.length req]
        statistic :=
          { w.statistic with
            rvhosts := w.statistic.rvhosts.set req.vhost w.vhostObjs.length
            vhosts := w.statistic.vhosts.set (w.idSeq w.idPos) w.vhostObjs.length
            rstreams := w.statistic.rstreams.set req.GetStreamUrl w.streamObjs.length
            streams := w.statistic.streams.set (w.idSeq (w.idPos + 1)) w.streamObjs.length }
        idPos := w.idPos + 1 + 1 }) := by
  have hres : resolve w req = SrsStatistic.createStream (SrsStatistic.createVHost w req).2
      (SrsStatistic.createVHost w req).1 req := rfl
  have hrs := (createVHost_streams w req).2.1
  have hnew := @createStream_absent (SrsStatistic.createVHost w req).2 req
    (SrsStatistic.createVHost w req).1 (by rw [hrs]; exact hs)
  rw [onStreamClose_unfold, hres, hnew, createVHost_absent hv]
  simp [SrsStatisticStream.Close, createdStream]

theorem ownerOf_created {w : World} {req : SrsRequest}
    (hv : w.statistic.rvhosts.get req.vhost = none)
    (hs : w.statistic.rstreams.get req.GetStreamUrl = none) :
    ownerOf w req = some w.vhostObjs.length := by
  have hres : resolve w req = SrsStatistic.createStream (SrsStatistic.createVHost w req).2
      (SrsStatistic.createVHost w req).1 req := rfl
  have hrs := (createVHost_streams w req).2.1
  have hnew := @createStream_absent (SrsStatistic.createVHost w req).2 req
    (SrsStatistic.createVHost w req).1 (by rw [hrs]; exact hs)
  rw [ownerOf, hres, hnew, createVHost_absent hv]
  simp

theorem fresh_get_none (ids : Nat → Int) (req : SrsRequest) :
    (World.fresh ids).statistic.rvhosts.get req.vhost = none ∧
    (World.fresh ids).statistic.rstreams.get req.GetStreamUrl = none := by
  constructor <;> rfl

theorem fresh_nbStreams (ids : Nat → Int) (vp : Nat) : (World.fresh ids).nbStreams vp = 0 := rfl

theorem registered_of_sameShape {w w1 : World} (h : SameShape w w1) {req : SrsRequest}
    {sp vp : Nat} (hreg : Registered w req sp vp) : Registered w1 req sp vp := by
  obtain ⟨s, hs, hv⟩ := hreg.streamObj
  have h1 := h.streams sp
  rw [hs] at h1
  have h2 := h.vhosts vp
  rw [List.getElem?_eq_getElem hreg.vhostObj] at h2
  refine ⟨?_, ?_, ?_, ?_⟩
  · rw [h.statistic]
    exact hreg.vhostKnown
  · rw [h.statistic]
    exact hreg.streamKnown
  · cases hs1 : w1.streamObjs[sp]? with
    | none => rw [hs1] at h1; simp at h1
    | some s1 =>
      rw [hs1] at h1
      simp only [Option.map_some', Option.some.injEq, SrsStatisticStream.identity,
        Prod.mk.injEq] at h1
      exact ⟨s1, rfl, h1.2.1.trans hv⟩
  · cases hv1 : w1.vhostObjs[vp]? with
    | none => rw [hv1] at h2; simp at h2
    | some v1 => exact lt_of_getElem?_eq_some hv1

theorem ownerOf_registered {w : World} {req : SrsRequest} {sp vp : Nat}
    (hreg : Registered w req sp vp) : ownerOf w req = some vp := by
  obtain ⟨s, hs, hv⟩ := hreg.streamObj
  simp only [ownerOf, resolve_registered hreg, hs, hv]

theorem registryOp_owner {w : World} (hwf : w.WF) (op : RegistryOp) {w1 : World} {e : GoError}
    (hrun : op.run w = some (e, w1)) {vp : Nat} (hown : ownerOf w op.req = some vp) :
    ownerOf w1 op.req = some vp := by
  obtain ⟨w2, vp2, hrun2, -, hown2, hshape, -⟩ := registryOp_step hwf op
  obtain ⟨-, ⟨vp3, hreg⟩, -⟩ := resolve_spec hwf op.req
  obtain ⟨s, hs, hv⟩ := hreg.streamObj
  have h3 : ownerOf w op.req = some vp3 := (ownerOf_eq hs).trans hv
  rw [hrun2] at hrun
  simp only [Option.some.injEq, Prod.mk.injEq] at hrun
  rw [← hrun.2]
  rw [hown] at h3
  rw [h3]
  exact ownerOf_registered (registered_of_sameShape hshape hreg)

theorem delta_bound (op : RegistryOp) : -1 ≤ op.delta ∧ op.delta ≤ 1 := by
  cases op <;> simp [RegistryOp.delta]

theorem netCount_bound (vp : Nat) (ops : List RegistryOp) :
    ∀ w : World, -(ops.length : Int) ≤ netCount vp w ops ∧ netCount vp w ops ≤ ops.length := by
  induction ops with
  | nil => intro w; simp [netCount]
  | cons op rest ih =>
    intro w
    have hd := delta_bound op
    have hhead : -1 ≤ (if ownerOf w op.req = some vp then op.delta else 0) ∧
        (if ownerOf w op.req = some vp then op.delta else 0) ≤ 1 := by
      split
      · exact hd
      · constructor <;> decide
    simp only [netCount, List.length_cons, Nat.cast_add, Nat.cast_one]
    cases hrun : op.run w with
    | none => simp only []; omega
    | some r =>
      have := ih r.2
      simp only []
      omega

theorem runOps_netCount (ops : List RegistryOp) :
    ∀ w : World, w.WF → ∃ w1, runOps w ops = some w1 ∧ w1.WF ∧
      ∀ vp, w1.nbStreams vp = wrapInt (w.nbStreams vp + netCount vp w ops) := by
  induction ops with
  | nil =>
    intro w hwf
    exact ⟨w, rfl, hwf, fun vp => (wrapInt_add_zero hwf vp).symm⟩
  | cons op rest ih =>
    intro w hwf
    obtain ⟨w1, vp0, hrun, hwf1, hown, -, hnb⟩ := registryOp_step hwf op
    obtain ⟨w2, hrun2, hwf2, hnb2⟩ := ih w1 hwf1
    refine ⟨w2, ?_, hwf2, ?_⟩
    · simp only [runOps, hrun]
      exact hrun2
    · intro vp
      have hcond : (ownerOf w op.req = some vp) ↔ vp = vp0 := by
        rw [hown]
        constructor
        · intro h; exact (Option.some.inj h).symm
        · intro h; rw [h]
      rw [hnb2 vp, hnb vp, wrapInt_add_left]
      simp only [netCount, hrun]
      by_cases hvp : vp = vp0
      · rw [if_pos hvp, if_pos (hcond.2 hvp), Int.add_assoc]
      · rw [if_neg hvp, if_neg (fun h => hvp (hcond.1 h)), Int.add_assoc]

theorem netCount_replicate (vp : Nat) (req : SrsRequest) (cid : Int) (n : Nat) :
    ∀ w : World, w.WF → ownerOf w req = some vp →
      netCount vp w (List.replicate n (.publish req cid)) = n := by
  induction n with
  | zero => intro w _ _; rfl
  | succ n ih =>
    intro w hwf hown
    obtain ⟨w1, vp0, hrun, hwf1, -, -, -⟩ := registryOp_step hwf (.publish req cid)
    have hown1 := registryOp_owner hwf (.publish req cid) hrun hown
    simp only [RegistryOp.req] at hown1
    simp only [List.replicate_succ, netCount, RegistryOp.req, hown, if_true, hrun,
      RegistryOp.delta, ih w1 hwf1 hown1]
    push_cast
    omega

theorem replicate_not_exact (ids : Nat → Int) (req : SrsRequest) (cid : Int) (n : Nat)
    (hn : (n : Int) = 2 ^ 63) :
    ¬ NetCountExact ids (List.replicate n (.publish req cid)) 0 := by
  rintro ⟨w, hrun, hnb⟩
  obtain ⟨w1, hrun1, hwf1, -⟩ := runOps_netCount (List.replicate n (.publish req cid))
    (World.fresh ids) (fresh_wf ids)
  rw [hrun] at hrun1
  have hw : w = w1 := Option.some.inj hrun1
  rw [← hw] at hwf1
  have hrange := (nbStreams_range_all hwf1 0).2
  have hown : ownerOf (World.fresh ids) req = some 0 :=
    ownerOf_created (fresh_get_none ids req).1 (fresh_get_none ids req).2
  rw [hnb, netCount_replicate 0 req cid n _ (fresh_wf ids) hown, hn] at hrange
  exact absurd hrange (by decide)


theorem netCountExact_counterexample :
    ¬ NetCountExact (fun n => (n : Int) + 1)
      (List.replicate (2 ^ 63) (.publish liveRequest 7)) 0 :=
  replicate_not_exact _ liveRequest 7 (2 ^ 63) (by norm_num)

/-- C23, as the code has it: on a fresh registry `OnStreamClose(req, cid)`
creates the vhost and the stream of the request, returns no error and leaves
that vhost's `nb_streams` at -1, with no clamping at 0.  After any sequence
of mutator calls from the fresh registry, `nb_streams` of every vhost is the
number of `OnStreamPublish` calls minus the number of `OnStreamClose` calls
made for that vhost's streams, taken in the wrap-around arithmetic of a
64-bit `int`; it is exactly that difference whenever the sequence has fewer
than 2^63 calls. -/
theorem nbStreams_netCount (ids : Nat → Int) (req : SrsRequest) (cid : Int)
    (ops : List RegistryOp) :
    (∃ w s, SrsStatistic.OnStreamClose (World.fresh ids) req cid = some (none, w) ∧
      w.vhostObjs.length = 1 ∧ w.streamObjs.length = 1 ∧
      w.statistic.rvhosts.get req.vhost = some 0 ∧
      w.streamAt req.GetStreamUrl = some s ∧ s.vhost = some 0 ∧
      w.nbStreams 0 = -1) ∧
    (∃ w, runOps (World.fresh ids) ops = some w ∧
      (∀ vp, w.nbStreams vp = wrapInt (netCount vp (World.fresh ids) ops)) ∧
      (ops.length < 2 ^ 63 → ∀ vp, w.nbStreams vp = netCount vp (World.fresh ids) ops)) := by
  constructor
  · refine ⟨_, createdStream (ids 1) 0 req,
      close_created cid (fresh_get_none ids req).1 (fresh_get_none ids req).2,
      rfl, rfl, ?_, ?_, rfl, ?_⟩
    · show ((World.fresh ids).statistic.rvhosts.set req.vhost 0).get req.vhost = some 0
      rw [GoMap.get_set, if_pos rfl]
    · show (match ((World.fresh ids).statistic.rstreams.set req.GetStreamUrl 0).get
          req.GetStreamUrl with
        | none => none
        | some p => [createdStream (ids 1) 0 req][p]?) = some (createdStream (ids 1) 0 req)
      rw [GoMap.get_set, if_pos rfl]
      rfl
    · rfl
  · obtain ⟨w, hrun, -, hnb⟩ := runOps_netCount ops (World.fresh ids) (fresh_wf ids)
    have hwrap : ∀ vp, w.nbStreams vp = wrapInt (netCount vp (World.fresh ids) ops) := by
      intro vp
      rw [hnb vp, fresh_nbStreams, Int.zero_add]
    refine ⟨w, hrun, hwrap, ?_⟩
    intro hlen vp
    have hb := netCount_bound vp ops (World.fresh ids)
    rw [hwrap vp]
    apply wrapInt_of_range <;> omega

theorem nbStreams_netCount_witness :
    ∃ w, runOps (World.fresh fun n => (n : Int) + 1)
        [.close liveRequest 7, .close liveRequest 7, .publish liveRequest 8] = some w ∧
      w.nbStreams 0 = -1 := by
  obtain ⟨-, w, hrun, -, hexact⟩ := nbStreams_netCount (fun n => (n : Int) + 1) liveRequest 7
    [.close liveRequest 7, .close liveRequest 7, .publish liveRequest 8]
  refine ⟨w, hrun, ?_⟩
  rw [hexact (by decide) 0]
  decide

/-! ## Registry: the two maps of each pair stay consistent -/

theorem getElem?_append_new {α : Type} (l : List α) (a : α) :
    (l ++ [a])[l.length]? = some a := by
  simp

theorem getElem?_append_old {α : Type} {l : List α} {p : Nat} {b : α} (a : α)
    (h : l[p]? = some b) : (l ++ [a])[p]? = some b := by
  rw [List.getElem?_append_left (lt_of_getElem?_eq_some h)]
  exact h

theorem fresh_consistent (ids : Nat → Int) :
    (World.fresh ids).Consistent ∧ (World.fresh ids).IdsUsed := by
  have hn : ∀ (k : String), (World.fresh ids).statistic.rvhosts.get k = none := fun _ => rfl
  have hi : ∀ (k : Int), (World.fresh ids).statistic.vhosts.get k = none := fun _ => rfl
  have hu : ∀ (k : String), (World.fresh ids).statistic.rstreams.get k = none := fun _ => rfl
  have hs : ∀ (k : Int), (World.fresh ids).statistic.streams.get k = none := fun _ => rfl
  refine ⟨⟨?_, ?_, ?_, ?_, ?_⟩, ⟨?_, ?_⟩⟩
  · intro n p h; rw [hn] at h; exact Option.noConfusion h
  · intro i p h; rw [hi] at h; exact Option.noConfusion h
  · intro u p h; rw [hu] at h; exact Option.noConfusion h
  · intro i p h; rw [hs] at h; exact Option.noConfusion h
  · intro u p s h; rw [hu] at h; exact Option.noConfusion h
  · intro i p h; rw [hi] at h; exact Option.noConfusion h
  · intro i p h; rw [hs] at h; exact Option.noConfusion h

theorem createVHost_consistent {w : World} (hinj : Function.Injective w.idSeq)
    (hc : w.Consistent) (hu : w.IdsUsed) (req : SrsRequest) :
    (SrsStatistic.createVHost w req).2.Consistent ∧
    (SrsStatistic.createVHost w req).2.IdsUsed ∧
    (SrsStatistic.createVHost w req).2.idSeq = w.idSeq := by
  cases h : w.statistic.rvhosts.get req.vhost with
  | some vh =>
    rw [createVHost_found h]
    exact ⟨hc, hu, rfl⟩
  | none =>
    have hfreshId : ∀ (i : Int) (p : Nat), w.statistic.vhosts.get i = some p →
        w.idSeq w.idPos ≠ i := by
      intro i p hp heq
      obtain ⟨k, hk, hki⟩ := hu.vhostIds i p hp
      have hkk : k = w.idPos := hinj (hki.trans heq.symm)
      omega
    have hfreshName : ∀ (n : String) (p : Nat), w.statistic.rvhosts.get n = some p →
        req.vhost ≠ n := by
      intro n p hp heq
      rw [← heq, h] at hp
      exact Option.noConfusion hp
    have hkeep : ∀ (p : Nat) (v : SrsStatisticVhost) (v0 : SrsStatisticVhost),
        w.vhostObjs[p]? = some v → w.statistic.rvhosts.get v.vhost = some p →
        w.statistic.vhosts.get v.id = some p →
        (w.vhostObjs ++ [v0])[p]? = some v ∧
        (w.statistic.rvhosts.set req.vhost w.vhostObjs.length).get v.vhost = some p ∧
        (w.statistic.vhosts.set (w.idSeq w.idPos) w.vhostObjs.length).get v.id = some p := by
      intro p v v0 hv hn hi
      refine ⟨getElem?_append_old _ hv, ?_, ?_⟩
      · rw [GoMap.get_set, if_neg (hfreshName _ _ hn)]
        exact hn
      · rw [GoMap.get_set, if_neg (hfreshId _ _ hi)]
        exact hi
    rw [createVHost_absent h]
    refine ⟨⟨?_, ?_, ?_, ?_, ?_⟩, ⟨?_, ?_⟩, rfl⟩
    · intro n p hp
      simp only [GoMap.get_set] at hp
      by_cases hn : req.vhost = n
      · rw [if_pos hn] at hp
        rw [← Option.some.inj hp]
        refine ⟨_, getElem?_append_new _ _, hn, ?_⟩
        show (w.statistic.vhosts.set _ _).get (w.idSeq w.idPos) = some _
        rw [GoMap.get_set, if_pos rfl]
      · rw [if_neg hn] at hp
        obtain ⟨v, hv, hvn, hvi⟩ := hc.vhostByName n p hp
        obtain ⟨h1, -, h3⟩ := hkeep p v _ hv (hvn ▸ hp) hvi
        exact ⟨v, h1, hvn, h3⟩
    · intro i p hp
      simp only [GoMap.get_set] at hp
      by_cases hi : w.idSeq w.idPos = i
      · rw [if_pos hi] at hp
        rw [← Option.some.inj hp]
        refine ⟨_, getElem?_append_new _ _, hi, ?_⟩
        show (w.statistic.rvhosts.set _ _).get req.vhost = some _
        rw [GoMap.get_set, if_pos rfl]
      · rw [if_neg hi] at hp
        obtain ⟨v, hv, hvi, hvn⟩ := hc.vhostById i p hp
        obtain ⟨h1, h2, -⟩ := hkeep p v _ hv hvn (hvi ▸ hp)
        exact ⟨v, h1, hvi, h2⟩
    · exact hc.streamByUrl
    · exact hc.streamById
    · intro u p s hp hs
      obtain ⟨vp, v, hsv, hv, hvn, hvi⟩ := hc.streamVhost u p s hp hs
      obtain ⟨h1, h2, h3⟩ := hkeep vp v _ hv hvn hvi
      exact ⟨vp, v, hsv, h1, h2, h3⟩
    · intro i p hp
      simp only [GoMap.get_set] at hp
      by_cases hi : w.idSeq w.idPos = i
      · exact ⟨w.idPos, Nat.lt_succ_self _, hi⟩
      · rw [if_neg hi] at hp
        obtain ⟨k, hk, hki⟩ := hu.vhostIds i p hp
        exact ⟨k, Nat.lt_succ_of_lt hk, hki⟩
    · intro i p hp
      obtain ⟨k, hk, hki⟩ := hu.streamIds i p hp
      exact ⟨k, Nat.lt_succ_of_lt hk, hki⟩

theorem createStream_consistent {w : World} (hinj : Function.Injective w.idSeq)
    (hc : w.Consistent) (hu : w.IdsUsed) {vh : Nat}
    (hvh : ∃ n, w.statistic.rvhosts.get n = some vh) (req : SrsRequest) :
    (SrsStatistic.createStream w vh req).2.Consistent ∧
    (SrsStatistic.createStream w vh req).2.IdsUsed ∧
    (SrsStatistic.createStream w vh req).2.idSeq = w.idSeq := by
  cases h : w.statistic.rstreams.get req.GetStreamUrl with
  | some sp =>
    rw [createStream_found vh h]
    exact ⟨hc, hu, rfl⟩
  | none =>
    have hfreshId : ∀ (i : Int) (p : Nat), w.statistic.streams.get i = some p →
        w.idSeq w.idPos ≠ i := by
      intro i p hp heq
      obtain ⟨k, hk, hki⟩ := hu.streamIds i p hp
      have hkk : k = w.idPos := hinj (hki.trans heq.symm)
      omega
    have hfreshUrl : ∀ (u : String) (p : Nat), w.statistic.rstreams.get u = some p →
        req.GetStreamUrl ≠ u := by
      intro u p hp heq
      rw [← heq, h] at hp
      exact Option.noConfusion hp
    rw [createStream_absent vh h]
    refine ⟨⟨?_, ?_, ?_, ?_, ?_⟩, ⟨?_, ?_⟩, rfl⟩
    · exact hc.vhostByName
    · exact hc.vhostById
    · intro u p hp
      simp only [GoMap.get_set] at hp
      by_cases hn : req.GetStreamUrl = u
      · rw [if_pos hn] at hp
        rw [← Option.some.inj hp]
        refine ⟨_, getElem?_append_new _ _, hn, ?_⟩
        show (w.statistic.streams.set _ _).get (w.idSeq w.idPos) = some _
        rw [GoMap.get_set, if_pos rfl]
      · rw [if_neg hn] at hp
        obtain ⟨s, hs, hsu, hsi⟩ := hc.streamByUrl u p hp
        refine ⟨s, getElem?_append_old _ hs, hsu, ?_⟩
        show (w.statistic.streams.set _ _).get s.id = some p
        rw [GoMap.get_set, if_neg (hfreshId _ _ hsi)]
        exact hsi
    · intro i p hp
      simp only [GoMap.get_set] at hp
      by_cases hi : w.idSeq w.idPos = i
      · rw [if_pos hi] at hp
        rw [← Option.some.inj hp]
        refine ⟨_, getElem?_append_new _ _, hi, ?_⟩
        show (w.statistic.rstreams.set _ _).get req.GetStreamUrl = some _
        rw [GoMap.get_set, if_pos rfl]
      · rw [if_neg hi] at hp
        obtain ⟨s, hs, hsi, hsu⟩ := hc.streamById i p hp
        refine ⟨s, getElem?_append_old _ hs, hsi, ?_⟩
        show (w.statistic.rstreams.set _ _).get s.url = some p
        rw [GoMap.get_set, if_neg (hfreshUrl _ _ hsu)]
        exact hsu
    · intro u p s hp hs
      simp only [GoMap.get_set] at hp
      by_cases hn : req.GetStreamUrl = u
      · rw [if_pos hn] at hp
        rw [← Option.some.inj hp] at hs
        have hs0 : (w.streamObjs ++ [_])[w.streamObjs.length]? = some s := hs
        rw [getElem?_append_new] at hs0
        obtain ⟨n, hvn⟩ := hvh
        obtain ⟨v, hv, hvname, hvi⟩ := hc.vhostByName n vh hvn
        refine ⟨vh, v, ?_, hv, ?_, hvi⟩
        · rw [← Option.some.inj hs0]
        · show w.statistic.rvhosts.get v.vhost = some vh
          rw [hvname]
          exact hvn
      · rw [if_neg hn] at hp
        obtain ⟨s1, hs1, -, -⟩ := hc.streamByUrl u p hp
        have hs0 : (w.streamObjs ++ [_])[p]? = some s := hs
        rw [getElem?_append_old _ hs1] at hs0
        rw [Option.some.inj hs0] at hs1
        exact hc.streamVhost u p s hp hs1
    · intro i p hp
      obtain ⟨k, hk, hki⟩ := hu.vhostIds i p hp
      exact ⟨k, Nat.lt_succ_of_lt hk, hki⟩
    · intro i p hp
      simp only [GoMap.get_set] at hp
      by_cases hi : w.idSeq w.idPos = i
      · exact ⟨w.idPos, Nat.lt_succ_self _, hi⟩
      · rw [if_neg hi] at hp
        obtain ⟨k, hk, hki⟩ := hu.streamIds i p hp
        exact ⟨k, Nat.lt_succ_of_lt hk, hki⟩

theorem resolve_consistent {w : World} (hinj : Function.Injective w.idSeq)
    (hc : w.Consistent) (hu : w.IdsUsed) (req : SrsRequest) :
    (resolve w req).2.Consistent ∧ (resolve w req).2.IdsUsed ∧
    (resolve w req).2.idSeq = w.idSeq := by
  obtain ⟨hc1, hu1, hseq1⟩ := createVHost_consistent hinj hc hu req
  have hinj1 : Function.Injective (SrsStatistic.createVHost w req).2.idSeq := by
    rw [hseq1]
    exact hinj
  obtain ⟨hc2, hu2, hseq2⟩ := createStream_consistent hinj1 hc1 hu1
    ⟨req.vhost, createVHost_registers w req⟩ req
  exact ⟨hc2, hu2, hseq2.trans hseq1⟩

theorem sameShape_symm {w w1 : World} (h : SameShape w w1) : SameShape w1 w :=
  ⟨h.statistic.symm, h.idSeq.symm, h.idPos.symm, fun p => (h.streams p).symm,
    fun p => (h.vhosts p).symm⟩

theorem sameShape_vhost {w w1 : World} (h : SameShape w w1) {p : Nat}
    {v : SrsStatisticVhost} (hv : w.vhostObjs[p]? = some v) :
    ∃ v1, w1.vhostObjs[p]? = some v1 ∧ v1.id = v.id ∧ v1.vhost = v.vhost := by
  have h1 := h.vhosts p
  rw [hv] at h1
  cases hv1 : w1.vhostObjs[p]? with
  | none => rw [hv1] at h1; simp at h1
  | some v1 =>
    rw [hv1] at h1
    simp only [Option.map_some', Option.some.injEq, SrsStatisticVhost.identity,
      Prod.mk.injEq] at h1
    exact ⟨v1, rfl, h1.1, h1.2⟩

theorem sameShape_stream {w w1 : World} (h : SameShape w w1) {p : Nat}
    {s : SrsStatisticStream} (hs : w.streamObjs[p]? = some s) :
    ∃ s1, w1.streamObjs[p]? = some s1 ∧ s1.id = s.id ∧ s1.vhost = s.vhost ∧
      s1.url = s.url := by
  have h1 := h.streams p
  rw [hs] at h1
  cases hs1 : w1.streamObjs[p]? with
  | none => rw [hs1] at h1; simp at h1
  | some s1 =>
    rw [hs1] at h1
    simp only [Option.map_some', Option.some.injEq, SrsStatisticStream.identity,
      Prod.mk.injEq] at h1
    exact ⟨s1, rfl, h1.1, h1.2.1, h1.2.2.2.2⟩

theorem consistent_of_sameShape {w w1 : World} (h : SameShape w w1) (hc : w.Consistent)
    (hu : w.IdsUsed) : w1.Consistent ∧ w1.IdsUsed := by
  refine ⟨⟨?_, ?_, ?_, ?_, ?_⟩, ⟨?_, ?_⟩⟩
  · intro n p hp
    rw [h.statistic] at hp ⊢
    obtain ⟨v, hv, hvn, hvi⟩ := hc.vhostByName n p hp
    obtain ⟨v1, hv1, hid, hname⟩ := sameShape_vhost h hv
    exact ⟨v1, hv1, hname.trans hvn, by rw [hid]; exact hvi⟩
  · intro i p hp
    rw [h.statistic] at hp ⊢
    obtain ⟨v, hv, hvi, hvn⟩ := hc.vhostById i p hp
    obtain ⟨v1, hv1, hid, hname⟩ := sameShape_vhost h hv
    exact ⟨v1, hv1, hid.trans hvi, by rw [hname]; exact hvn⟩
  · intro u p hp
    rw [h.statistic] at hp ⊢
    obtain ⟨s, hs, hsu, hsi⟩ := hc.streamByUrl u p hp
    obtain ⟨s1, hs1, hid, -, hurl⟩ := sameShape_stream h hs
    exact ⟨s1, hs1, hurl.trans hsu, by rw [hid]; exact hsi⟩
  · intro i p hp
    rw [h.statistic] at hp ⊢
    obtain ⟨s, hs, hsi, hsu⟩ := hc.streamById i p hp
    obtain ⟨s1, hs1, hid, -, hurl⟩ := sameShape_stream h hs
    exact ⟨s1, hs1, hid.trans hsi, by rw [hurl]; exact hsu⟩
  · intro u p s1 hp hs1
    rw [h.statistic] at hp ⊢
    obtain ⟨s, hs, -, hsv, -⟩ := sameShape_stream (sameShape_symm h) hs1
    obtain ⟨vp, v, hvp, hv, hvn, hvi⟩ := hc.streamVhost u p s hp hs
    obtain ⟨v1, hv1, hid, hname⟩ := sameShape_vhost h hv
    exact ⟨vp, v1, hsv.symm.trans hvp, hv1, by rw [hname]; exact hvn,
      by rw [hid]; exact hvi⟩
  · intro i p hp
    rw [h.statistic] at hp
    rw [h.idPos, h.idSeq]
    exact hu.vhostIds i p hp
  · intro i p hp
    rw [h.statistic] at hp
    rw [h.idPos, h.idSeq]
    exact hu.streamIds i p hp

theorem registryOp_consistent {w : World} (hwf : w.WF) (hinj : Function.Injective w.idSeq)
    (hc : w.Consistent) (hu : w.IdsUsed) (op : RegistryOp) :
    ∃ w1, op.run w = some (none, w1) ∧ w1.WF ∧ Function.Injective w1.idSeq ∧
      w1.Consistent ∧ w1.IdsUsed := by
  obtain ⟨w1, -, hrun, hwf1, -, hshape, -⟩ := registryOp_step hwf op
  obtain ⟨hc0, hu0, hseq0⟩ := resolve_consistent hinj hc hu op.req
  obtain ⟨hc1, hu1⟩ := consistent_of_sameShape hshape hc0 hu0
  refine ⟨w1, hrun, hwf1, ?_, hc1, hu1⟩
  rw [hshape.idSeq, hseq0]
  exact hinj

theorem runOps_consistent (ops : List RegistryOp) :
    ∀ w : World, w.WF → Function.Injective w.idSeq → w.Consistent → w.IdsUsed →
      ∃ w1, runOps w ops = some w1 ∧ w1.Consistent := by
  induction ops with
  | nil => intro w _ _ hc _; exact ⟨w, rfl, hc⟩
  | cons op rest ih =>
    intro w hwf hinj hc hu
    obtain ⟨w1, hrun, hwf1, hinj1, hc1, hu1⟩ := registryOp_consistent hwf hinj hc hu op
    obtain ⟨w2, hrun2, hc2⟩ := ih w1 hwf1 hinj1 hc1 hu1
    refine ⟨w2, ?_, hc2⟩
    simp only [runOps, hrun]
    exact hrun2


/-- C24: map-pair consistency is an invariant of the registry.  Starting from
the empty registry of `GetStatisticInstance`, with an id source that never
hands out the same id twice, every sequence of `OnStreamPublish`,
`OnStreamClose`, `OnVideoInfo`, `OnAudioInfo` and `OnVideoFrames` calls runs
to the end and leaves a registry in which `rvhosts[n] = v` implies
`v.vhost = n` and `vhosts[v.id] = v`, `vhosts[i] = v` implies `v.id = i` and
`rvhosts[v.vhost] = v`, the same for `rstreams` and `streams` with the url,
every registered stream's vhost reference is an entity held by both vhost
maps, and the by-name and by-id maps of each pair hold the same entities. -/
theorem consistent_reachable (ids : Nat → Int) (hinj : Function.Injective ids)
    (ops : List RegistryOp) :
    ∃ w, runOps (World.fresh ids) ops = some w ∧ w.Consistent ∧
      (∀ p, (∃ n, w.statistic.rvhosts.get n = some p) ↔
        (∃ i, w.statistic.vhosts.get i = some p)) ∧
      (∀ p, (∃ u, w.statistic.rstreams.get u = some p) ↔
        (∃ i, w.statistic.streams.get i = some p)) := by
  obtain ⟨w, hrun, hc⟩ := runOps_consistent ops (World.fresh ids) (fresh_wf ids) hinj
    (fresh_consistent ids).1 (fresh_consistent ids).2
  refine ⟨w, hrun, hc, ?_, ?_⟩
  · intro p
    constructor
    · rintro ⟨n, hn⟩
      obtain ⟨v, -, -, hvi⟩ := hc.vhostByName n p hn
      exact ⟨v.id, hvi⟩
    · rintro ⟨i, hi⟩
      obtain ⟨v, -, -, hvn⟩ := hc.vhostById i p hi
      exact ⟨v.vhost, hvn⟩
  · intro p
    constructor
    · rintro ⟨u, hu⟩
      obtain ⟨s, -, -, hsi⟩ := hc.streamByUrl u p hu
      exact ⟨s.id, hsi⟩
    · rintro ⟨i, hi⟩
      obtain ⟨s, -, -, hsu⟩ := hc.streamById i p hi
      exact ⟨s.url, hsu⟩

theorem consistent_reachable_witness :
    Function.Injective (fun n : Nat => (n : Int) + 1) ∧
    ∃ w, runOps (World.fresh fun n => (n : Int) + 1)
        [.publish liveRequest 7, .videoInfo liveRequest 7 100 31,
          .close { liveRequest with stream := "s2", streamUrl := "live/app/s2" } 8,
          .videoFrames liveRequest 3] = some w ∧
      w.Consistent ∧
      w.statistic.rstreams.get "live/app/s2" = some 1 ∧
      w.statistic.streams.get 3 = some 1 := by
  have hinj : Function.Injective (fun n : Nat => (n : Int) + 1) := by
    intro a b hab
    simp only [add_left_inj, Nat.cast_inj] at hab
    exact hab
  obtain ⟨w, hrun, hc, -, -⟩ := consistent_reachable (fun n => (n : Int) + 1) hinj
    [.publish liveRequest 7, .videoInfo liveRequest 7 100 31,
      .close { liveRequest with stream := "s2", streamUrl := "live/app/s2" } 8,
      .videoFrames liveRequest 3]
  have hcalc : (runOps (World.fresh fun n => (n : Int) + 1)
      [.publish liveRequest 7, .videoInfo liveRequest 7 100 31,
        .close { liveRequest with stream := "s2", streamUrl := "live/app/s2" } 8,
        .videoFrames liveRequest 3]).map
      (fun w => (w.statistic.rstreams.get "live/app/s2", w.statistic.streams.get 3)) =
      some (some 1, some 1) := by decide
  rw [hrun] at hcalc
  simp only [Option.map_some', Option.some.injEq, Prod.mk.injEq] at hcalc
  exact ⟨hinj, w, hrun, hc, hcalc.1, hcalc.2⟩

end GoSrs
